import Mathlib

/-!
# Verification of the selection-outline renderer

This development is a shallow embedding of the `Outline` class found in
`src/editor/src/editor/rendering/outline.ts`, the selection outline renderer
of the editor.  The host scene graph (Babylon.js meshes, materials and the
scene's node registry) is modelled at its boundary as association lists keyed
by numeric identifiers; the `Date.now()`-based unique names of the source are
modelled by a monotone fresh-id counter.  Vertex buffers hold abstract
integer entries (no arithmetic is ever performed on vertex values by the
outline engine, only whole-buffer copies), and float-valued scalar fields
(scale factor, depth bias) are carried as rationals, again only ever
assigned, never computed with.

Every operation of the class is translated statement by statement:
`setOutlineMesh`, `_createOutlineForMesh`, `_createOutlineMeshFromVertices`,
`_createOutlineMaterial`, `_configureOutlineMesh`, `_clearOutline`,
`updateOutlineColor`, `updateOutlineScale`, `dispose` and the `currentMesh`
accessor.  A step relation over these operations (plus an external
geometry-mutation step performed by the host) defines the reachable states,
over which the invariants are proved.
-/

namespace OutlineVerif

/-- Scene-node kinds relevant to the outline engine: plain meshes, instanced
meshes, and any other `AbstractMesh`.  Modelled from the spec: the `isMesh`
and `isInstancedMesh` type guards (`tools/guards/nodes`, not among the
sources) are instance-of checks distinguishing plain `Mesh` nodes from
`InstancedMesh` and other abstract nodes. -/
inductive NodeKind where
  | mesh
  | instanced
  | other
deriving DecidableEq

/-- Geometry buffers of a mesh (positions and indices).  Entries are abstract
values: the engine only ever copies whole buffers, never computes on them. -/
structure Geometry where
  positions : List Int
  indices : List Nat
deriving DecidableEq

/-- A scene mesh (`AbstractMesh`/`Mesh`), restricted to the attributes the
outline engine reads or writes. -/
structure MeshObj where
  id : Nat
  name : String
  kind : NodeKind
  sourceMesh : Option Nat
  renderingGroupId : Int
  geometry : Option Geometry
  lodLevels : List (Option Nat)
  material : Option Nat
  parent : Option Nat
  scaling : ℚ × ℚ × ℚ
  receiveShadows : Bool
  checkCollisions : Bool
  isPickable : Bool
  doNotSyncBoundingInfo : Bool
deriving DecidableEq

/-- An RGB color; channels are carried as 0–255 integer values, which is
faithful here because the engine only assigns colors, never mixes them. -/
structure Color3 where
  r : Int
  g : Int
  b : Int
deriving DecidableEq

/-- A `StandardMaterial`, restricted to the fields the engine configures. -/
structure MaterialObj where
  id : Nat
  name : String
  emissiveColor : Color3
  diffuseColor : Color3
  specularColor : Color3
  ambientColor : Color3
  disableLighting : Bool
  zOffset : ℚ
  backFaceCulling : Bool
deriving DecidableEq

/-- The whole system state: the host scene's mesh and material registries,
the fresh-id counter (modelling `Date.now()` uniqueness and JS object
identity), and every private and public field of the `Outline` class. -/
structure World where
  meshes : List MeshObj
  materials : List MaterialObj
  nextId : Nat
  currentSelectedMesh : Option Nat
  outlineMeshes : List Nat
  outlineMaterials : List Nat
  originalRenderingGroups : List (Nat × Int)
  outlineColor : Color3
  outlineScale : ℚ
  originalRenderingGroupId : Int
  outlineRenderingGroupId : Int
deriving DecidableEq

/-- Look up the first element with the given id (the scene's `getMeshByID`). -/
def findBy {α : Type} (idOf : α → Nat) : List α → Nat → Option α
  | [], _ => none
  | a :: rest, i => if idOf a = i then some a else findBy idOf rest i

/-- Apply `f` to every element whose id is `i` (in-place field mutation on a
JS object reference, observed through the registry). -/
def updateBy {α : Type} (idOf : α → Nat) (i : Nat) (f : α → α) : List α → List α
  | [] => []
  | a :: rest => (if idOf a = i then f a else a) :: updateBy idOf i f rest

/-- Remove every element with the given id (disposal unregisters the node). -/
def removeBy {α : Type} (idOf : α → Nat) (i : Nat) : List α → List α
  | [] => []
  | a :: rest => if idOf a = i then removeBy idOf i rest else a :: removeBy idOf i rest

/-- Boolean membership test on id lists. -/
def listHas : List Nat → Nat → Bool
  | [], _ => false
  | a :: rest, i => if a = i then true else listHas rest i

def World.findMesh (w : World) (i : Nat) : Option MeshObj :=
  findBy MeshObj.id w.meshes i

def World.findMaterial (w : World) (i : Nat) : Option MaterialObj :=
  findBy MaterialObj.id w.materials i

def World.updateMesh (w : World) (i : Nat) (f : MeshObj → MeshObj) : World :=
  { w with meshes := updateBy MeshObj.id i f w.meshes }

def World.updateMaterial (w : World) (i : Nat) (f : MaterialObj → MaterialObj) : World :=
  { w with materials := updateBy MaterialObj.id i f w.materials }

def World.disposeMesh (w : World) (i : Nat) : World :=
  { w with meshes := removeBy MeshObj.id i w.meshes }

def World.disposeMaterial (w : World) (i : Nat) : World :=
  { w with materials := removeBy MaterialObj.id i w.materials }

/-- Modelled from the spec: the `isMesh` type guard of `tools/guards/nodes`
(not among the sources) — true exactly for plain `Mesh` scene nodes. -/
def isMesh (m : MeshObj) : Bool :=
  decide (m.kind = NodeKind.mesh)

/-- Modelled from the spec: the `isInstancedMesh` type guard of
`tools/guards/nodes` (not among the sources). -/
def isInstancedMesh (m : MeshObj) : Bool :=
  decide (m.kind = NodeKind.instanced)

/-- The black `Color3`. -/
def black : Color3 := ⟨0, 0, 0⟩

/-- Default outline color `#446BAA` of the class field initializer. -/
def defaultOutlineColor : Color3 := ⟨0x44, 0x6B, 0xAA⟩

/-- `Outline._createOutlineMeshFromVertices`: registers a fresh bare `Mesh`
in the scene, then extracts the source's vertex data and applies it to the
new mesh; on extraction failure (no geometry to extract) the fresh mesh is
disposed and `null` is returned. -/
def createOutlineMeshFromVertices (w : World) (srcId : Nat) : World × Option Nat :=
  let fresh := w.nextId
  let srcLookup := w.findMesh srcId
  let srcName := match srcLookup with
    | some s => s.name
    | none => ""
  let newMesh : MeshObj :=
    { id := fresh
      name := srcName ++ "_outline_" ++ Nat.repr fresh
      kind := NodeKind.mesh
      sourceMesh := none
      renderingGroupId := 0
      geometry := none
      lodLevels := []
      material := none
      parent := none
      scaling := (1, 1, 1)
      receiveShadows := false
      checkCollisions := false
      isPickable := true
      doNotSyncBoundingInfo := false }
  let w1 : World := { w with meshes := w.meshes ++ [newMesh], nextId := fresh + 1 }
  match srcLookup with
  | some src =>
    match src.geometry with
    | some g => (w1.updateMesh fresh (fun m => { m with geometry := some g }), some fresh)
    | none => (w1.disposeMesh fresh, none)
  | none => (w1.disposeMesh fresh, none)

/-- `Outline._createOutlineMaterial`: a fresh unlit solid material pushed to
the engine's `_outlineMaterials` list and registered with the scene. -/
def createOutlineMaterial (w : World) : World × Nat :=
  let fresh := w.nextId
  let mat : MaterialObj :=
    { id := fresh
      name := "outlineMaterial_" ++ Nat.repr fresh
      emissiveColor := w.outlineColor
      diffuseColor := w.outlineColor
      specularColor := black
      ambientColor := black
      disableLighting := true
      zOffset := -(1 / 10 : ℚ)
      backFaceCulling := false }
  ({ w with
      materials := w.materials ++ [mat]
      nextId := fresh + 1
      outlineMaterials := w.outlineMaterials ++ [fresh] }, fresh)

/-- `Outline._configureOutlineMesh`: scales the duplicate, parents it to the
original, moves it to the outline rendering group, attaches a freshly created
outline material, and disables interactions. -/
def configureOutlineMesh (w : World) (outId srcId : Nat) : World :=
  let w1 := w.updateMesh outId (fun m =>
    { m with
        scaling := (w.outlineScale, w.outlineScale, w.outlineScale)
        parent := some srcId
        renderingGroupId := w.outlineRenderingGroupId })
  let p := createOutlineMaterial w1
  p.1.updateMesh outId (fun m =>
    { m with
        material := some p.2
        receiveShadows := false
        checkCollisions := false
        isPickable := false
        doNotSyncBoundingInfo := true })

/-- The LOD-level loop of `Outline._createOutlineForMesh`: for each LOD level
whose mesh is present and a plain `Mesh`, duplicate it, configure the
duplicate, record it, and move the LOD source into the original rendering
group.  A failed duplication skips the level. -/
def processLods (w : World) : List (Option Nat) → World
  | [] => w
  | none :: rest => processLods w rest
  | some lid :: rest =>
    match w.findMesh lid with
    | none => processLods w rest
    | some lm =>
      if isMesh lm then
        match createOutlineMeshFromVertices w lid with
        | (w1, some lo) =>
          let w2 := configureOutlineMesh w1 lo lid
          let w3 := { w2 with outlineMeshes := w2.outlineMeshes ++ [lo] }
          let w4 := w3.updateMesh lid (fun m =>
            { m with renderingGroupId := w3.originalRenderingGroupId })
          processLods w4 rest
        | (w1, none) => processLods w1 rest
      else processLods w rest

/-- JS `Map.set`: replace the value at an existing key in place, otherwise
append the new entry. -/
def setMapEntry : List (Nat × Int) → Nat → Int → List (Nat × Int)
  | [], k, v => [(k, v)]
  | p :: rest, k, v => if p.1 = k then (k, v) :: rest else p :: setMapEntry rest k v

/-- `Outline._createOutlineForMesh`: resolves the effective mesh (source mesh
of an instance), records the original rendering group of the effective mesh
only, raises the effective mesh into the original rendering group, builds and
configures the base duplicate, then mirrors every LOD level. -/
def createOutlineForMesh (w : World) (meshId : Nat) : World :=
  match w.findMesh meshId with
  | none => w
  | some m0 =>
    let effId := if isInstancedMesh m0 then m0.sourceMesh.getD meshId else meshId
    match w.findMesh effId with
    | none => w
    | some eff =>
      if isMesh eff then
        let w1 := { w with
          originalRenderingGroups :=
            setMapEntry w.originalRenderingGroups effId eff.renderingGroupId }
        let w2 := w1.updateMesh effId (fun m =>
          { m with renderingGroupId := w1.originalRenderingGroupId })
        match createOutlineMeshFromVertices w2 effId with
        | (w3, none) => w3
        | (w3, some o) =>
          let w4 := configureOutlineMesh w3 o effId
          let w5 := { w4 with outlineMeshes := w4.outlineMeshes ++ [o] }
          processLods w5 eff.lodLevels
      else w

/-- The dispose loop over `_outlineMeshes`. -/
def disposeMeshes (w : World) : List Nat → World
  | [] => w
  | i :: rest => disposeMeshes (w.disposeMesh i) rest

/-- The dispose loop over `_outlineMaterials`. -/
def disposeMaterials (w : World) : List Nat → World
  | [] => w
  | i :: rest => disposeMaterials (w.disposeMaterial i) rest

/-- The restore loop over `_originalRenderingGroups`: looks each recorded
mesh up by id and, when still present and a plain mesh, writes the recorded
rendering group back. -/
def restoreGroups (w : World) : List (Nat × Int) → World
  | [] => w
  | (k, g) :: rest =>
    match w.findMesh k with
    | some m =>
      if isMesh m then
        restoreGroups (w.updateMesh k (fun mm => { mm with renderingGroupId := g })) rest
      else restoreGroups w rest
    | none => restoreGroups w rest

/-- `Outline._clearOutline`: dispose all outline meshes, dispose all outline
materials, restore the recorded rendering groups, and clear all three
records. -/
def clearOutline (w : World) : World :=
  let w1 := disposeMeshes w w.outlineMeshes
  let w2 := { w1 with outlineMeshes := [] }
  let w3 := disposeMaterials w2 w2.outlineMaterials
  let w4 := { w3 with outlineMaterials := [] }
  let w5 := restoreGroups w4 w4.originalRenderingGroups
  { w5 with originalRenderingGroups := [] }

/-- `Outline.setOutlineMesh`: always clears the previous outline first, then
builds a new outline when the target is a plain `Mesh`, and finally records
the target (even a non-`Mesh` one) as the current selection. -/
def setOutlineMesh (w : World) (target : Option Nat) : World :=
  let w1 := clearOutline w
  let w2 := match target with
    | some tid =>
      match w1.findMesh tid with
      | some m => if isMesh m then createOutlineForMesh w1 tid else w1
      | none => w1
    | none => w1
  { w2 with currentSelectedMesh := target }

/-- The color loop of `updateOutlineColor` over `_outlineMaterials`. -/
def colorMaterials (w : World) (c : Color3) : List Nat → World
  | [] => w
  | i :: rest =>
    colorMaterials
      (w.updateMaterial i (fun mt => { mt with emissiveColor := c, diffuseColor := c })) c rest

/-- `Outline.updateOutlineColor`: store the new color and rewrite the
emissive and diffuse colors of every outline material in place. -/
def updateOutlineColor (w : World) (c : Color3) : World :=
  let w1 := { w with outlineColor := c }
  colorMaterials w1 c w1.outlineMaterials

/-- The scaling loop of `updateOutlineScale` over `_outlineMeshes`. -/
def scaleMeshes (w : World) (k : ℚ) : List Nat → World
  | [] => w
  | i :: rest =>
    scaleMeshes (w.updateMesh i (fun m => { m with scaling := (k, k, k) })) k rest

/-- `Outline.updateOutlineScale`: store the new factor and rewrite the
scaling of every outline mesh. -/
def updateOutlineScale (w : World) (k : ℚ) : World :=
  let w1 := { w with outlineScale := k }
  scaleMeshes w1 k w1.outlineMeshes

/-- `Outline.dispose`: clear the outline and forget the current selection. -/
def disposeOutline (w : World) : World :=
  { clearOutline w with currentSelectedMesh := none }

/-- An external host action: the owner of a source mesh rewrites its geometry
buffers (skinning, editing) after the outline was built. -/
def mutateMeshGeometry (w : World) (i : Nat) (g : Geometry) : World :=
  w.updateMesh i (fun m => { m with geometry := some g })

/-- The operations that can hit a live `Outline` instance: its four public
methods and the external geometry mutation of the host. -/
inductive Op where
  | set (target : Option Nat)
  | color (c : Color3)
  | scale (k : ℚ)
  | disposeAll
  | mutate (i : Nat) (g : Geometry)

def stepOp (w : World) : Op → World
  | Op.set t => setOutlineMesh w t
  | Op.color c => updateOutlineColor w c
  | Op.scale k => updateOutlineScale w k
  | Op.disposeAll => disposeOutline w
  | Op.mutate i g => mutateMeshGeometry w i g

/-- Run a finite sequence of operations. -/
def run (w : World) (ops : List Op) : World :=
  ops.foldl stepOp w

/-- The `Outline` constructor over a given host scene: every engine field at
its class-initializer value. -/
def mkWorld (meshes : List MeshObj) (materials : List MaterialObj) (nextId : Nat) : World :=
  { meshes := meshes
    materials := materials
    nextId := nextId
    currentSelectedMesh := none
    outlineMeshes := []
    outlineMaterials := []
    originalRenderingGroups := []
    outlineColor := defaultOutlineColor
    outlineScale := (21 : ℚ) / 20
    originalRenderingGroupId := 1
    outlineRenderingGroupId := 0 }



section Toolkit

variable {α : Type} (idOf : α → Nat)

theorem findBy_id {l : List α} {i : Nat} {a : α} (h : findBy idOf l i = some a) :
    idOf a = i := by
  induction l with
  | nil => simp [findBy] at h
  | cons b rest ih =>
    by_cases hb : idOf b = i
    · simp [findBy, hb] at h
      subst h; exact hb
    · simp [findBy, hb] at h
      exact ih h

theorem mem_of_findBy {l : List α} {i : Nat} {a : α} (h : findBy idOf l i = some a) :
    a ∈ l := by
  induction l with
  | nil => simp [findBy] at h
  | cons b rest ih =>
    by_cases hb : idOf b = i
    · simp [findBy, hb] at h
      simp [h]
    · simp [findBy, hb] at h
      exact List.mem_cons_of_mem _ (ih h)

theorem findBy_eq_none {l : List α} {i : Nat} :
    findBy idOf l i = none ↔ ∀ a ∈ l, idOf a ≠ i := by
  induction l with
  | nil => simp [findBy]
  | cons b rest ih =>
    by_cases hb : idOf b = i
    · simp [findBy, hb]
    · simp [findBy, hb, ih]

theorem findBy_append_left {l₁ : List α} (l₂ : List α) {i : Nat} {a : α}
    (h : findBy idOf l₁ i = some a) :
    findBy idOf (l₁ ++ l₂) i = some a := by
  induction l₁ with
  | nil => simp [findBy] at h
  | cons b rest ih =>
    by_cases hb : idOf b = i
    · simp [findBy, hb] at h ⊢
      exact h
    · simp [findBy, hb] at h ⊢
      exact ih h

theorem findBy_append_right {l₁ : List α} (l₂ : List α) {i : Nat}
    (h : findBy idOf l₁ i = none) :
    findBy idOf (l₁ ++ l₂) i = findBy idOf l₂ i := by
  induction l₁ with
  | nil => simp
  | cons b rest ih =>
    by_cases hb : idOf b = i
    · simp [findBy, hb] at h
    · simp [findBy, hb] at h ⊢
      exact ih h

theorem findBy_updateBy_self {f : α → α} (hf : ∀ a, idOf (f a) = idOf a) (i : Nat)
    (l : List α) :
    findBy idOf (updateBy idOf i f l) i = (findBy idOf l i).map f := by
  induction l with
  | nil => rfl
  | cons a rest ih =>
    by_cases h : idOf a = i
    · simp [updateBy, findBy, h, hf]
    · simp [updateBy, findBy, h, ih]

theorem findBy_updateBy_ne {f : α → α} (hf : ∀ a, idOf (f a) = idOf a) {i j : Nat}
    (hij : i ≠ j) (l : List α) :
    findBy idOf (updateBy idOf i f l) j = findBy idOf l j := by
  induction l with
  | nil => rfl
  | cons a rest ih =>
    by_cases h : idOf a = i
    · have : idOf (f a) = idOf a := hf a
      simp [updateBy, findBy, h, this, hij, ih]
    · simp [updateBy, findBy, h, ih]

theorem findBy_removeBy_self (i : Nat) (l : List α) :
    findBy idOf (removeBy idOf i l) i = none := by
  induction l with
  | nil => rfl
  | cons a rest ih =>
    by_cases h : idOf a = i
    · simp [removeBy, h, ih]
    · simp [removeBy, findBy, h, ih]

theorem findBy_removeBy_ne {i j : Nat} (hij : i ≠ j) (l : List α) :
    findBy idOf (removeBy idOf i l) j = findBy idOf l j := by
  induction l with
  | nil => rfl
  | cons a rest ih =>
    by_cases h : idOf a = i
    · simp [removeBy, findBy, h, hij, ih]
    · simp [removeBy, findBy, h, ih]

theorem removeBy_of_none {l : List α} {i : Nat} (h : findBy idOf l i = none) :
    removeBy idOf i l = l := by
  induction l with
  | nil => rfl
  | cons a rest ih =>
    by_cases hb : idOf a = i
    · simp [findBy, hb] at h
    · simp [findBy, hb] at h
      simp [removeBy, hb, ih h]

theorem removeBy_append (i : Nat) (l₁ l₂ : List α) :
    removeBy idOf i (l₁ ++ l₂) = removeBy idOf i l₁ ++ removeBy idOf i l₂ := by
  induction l₁ with
  | nil => rfl
  | cons a rest ih =>
    by_cases h : idOf a = i
    · simp [removeBy, h, ih]
    · simp [removeBy, h, ih]

theorem length_updateBy (i : Nat) (f : α → α) (l : List α) :
    (updateBy idOf i f l).length = l.length := by
  induction l with
  | nil => rfl
  | cons a rest ih => simp [updateBy, ih]

theorem map_idOf_updateBy {f : α → α} (hf : ∀ a, idOf (f a) = idOf a) (i : Nat)
    (l : List α) :
    (updateBy idOf i f l).map idOf = l.map idOf := by
  induction l with
  | nil => rfl
  | cons a rest ih =>
    by_cases h : idOf a = i
    · simp [updateBy, h, hf, ih]
    · simp [updateBy, h, ih]

theorem removeBy_sublist (i : Nat) (l : List α) :
    List.Sublist (removeBy idOf i l) l := by
  induction l with
  | nil => exact List.Sublist.refl _
  | cons a rest ih =>
    by_cases h : idOf a = i
    · simp only [removeBy, h, if_pos]
      exact List.Sublist.cons _ ih
    · simp only [removeBy, h, if_neg, not_false_iff]
      exact List.Sublist.cons₂ _ ih

theorem mem_removeBy {l : List α} {i : Nat} {a : α} (h : a ∈ removeBy idOf i l) :
    a ∈ l :=
  (removeBy_sublist idOf i l).mem h

theorem mem_updateBy {l : List α} {i : Nat} {f : α → α} {a : α}
    (h : a ∈ updateBy idOf i f l) :
    a ∈ l ∨ ∃ b ∈ l, a = f b := by
  induction l with
  | nil => simp [updateBy] at h
  | cons b rest ih =>
    simp only [updateBy, List.mem_cons] at h
    rcases h with h | h
    · by_cases hb : idOf b = i
      · simp only [hb, if_pos] at h
        exact Or.inr ⟨b, List.mem_cons_self b rest, h⟩
      · simp only [hb, if_neg, not_false_iff] at h
        exact Or.inl (by simp [h])
    · rcases ih h with h' | ⟨c, hc, hfc⟩
      · exact Or.inl (List.mem_cons_of_mem _ h')
      · exact Or.inr ⟨c, List.mem_cons_of_mem _ hc, hfc⟩

theorem length_removeBy_of_found {l : List α} {i : Nat} {a : α}
    (hnd : (l.map idOf).Nodup) (h : findBy idOf l i = some a) :
    (removeBy idOf i l).length + 1 = l.length := by
  induction l with
  | nil => simp [findBy] at h
  | cons b rest ih =>
    simp only [List.map_cons, List.nodup_cons] at hnd
    by_cases hb : idOf b = i
    · have hrest : findBy idOf rest i = none := by
        rw [findBy_eq_none]
        intro c hc hci
        apply hnd.1
        rw [hb, ← hci]
        exact List.mem_map_of_mem idOf hc
      simp [removeBy, hb, removeBy_of_none idOf hrest]
    · simp only [findBy, hb, if_neg, not_false_iff] at h
      simp [removeBy, hb, ih hnd.2 h]

theorem listHas_iff (l : List Nat) (i : Nat) : listHas l i = true ↔ i ∈ l := by
  induction l with
  | nil => simp [listHas]
  | cons a rest ih =>
    by_cases h : a = i
    · simp [listHas, h]
    · simp [listHas, h, ih, Ne.symm h]

end Toolkit



/-- Scene well-formedness: registered node ids are unique and below the
fresh-id counter, and LOD tables reference only already-allocated ids (a JS
LOD entry is an object reference, so it can never denote a not-yet-created
node). -/
structure WF (w : World) : Prop where
  nodupMesh : (w.meshes.map MeshObj.id).Nodup
  nodupMat : (w.materials.map MaterialObj.id).Nodup
  meshLt : ∀ m ∈ w.meshes, m.id < w.nextId
  matLt : ∀ mt ∈ w.materials, mt.id < w.nextId
  lodLt : ∀ m ∈ w.meshes, ∀ l ∈ m.lodLevels, ∀ lid, l = some lid → lid < w.nextId

/-- The per-duplicate invariant: an engine-owned outline mesh is registered,
sits in the outline rendering group, is excluded from picking, collision and
shadow reception, carries no LOD table of its own, references the material
created together with it, and is parented to a source that is not itself an
outline duplicate. -/
def DupCore (w : World) (oid : Nat) : Prop :=
  ∃ d, w.findMesh oid = some d ∧
    d.renderingGroupId = w.outlineRenderingGroupId ∧
    d.isPickable = false ∧ d.checkCollisions = false ∧ d.receiveShadows = false ∧
    d.doNotSyncBoundingInfo = true ∧ d.kind = NodeKind.mesh ∧ d.lodLevels = [] ∧
    d.material = some (oid + 1) ∧
    ∃ p, d.parent = some p ∧ p ∉ w.outlineMeshes

/-- The reachable-state invariant of the outline engine. -/
structure Inv (w : World) : Prop where
  wf : WF w
  dupNodup : w.outlineMeshes.Nodup
  matsEq : w.outlineMaterials = w.outlineMeshes.map (fun i => i + 1)
  dupsOk : ∀ oid ∈ w.outlineMeshes, DupCore w oid
  matsOk : ∀ mid ∈ w.outlineMaterials, ∃ mt, w.findMaterial mid = some mt
  cur : w.outlineMeshes ≠ [] → ∃ t m, w.currentSelectedMesh = some t ∧
    w.findMesh t = some m ∧ m.renderingGroupId = w.originalRenderingGroupId ∧
    m.kind = NodeKind.mesh ∧ t ∉ w.outlineMeshes
  mapSmall : w.originalRenderingGroups = [] ∨
    ∃ k g m, w.originalRenderingGroups = [(k, g)] ∧ k ∉ w.outlineMeshes ∧
      w.findMesh k = some m ∧ m.kind = NodeKind.mesh
  gDist : w.outlineRenderingGroupId ≠ w.originalRenderingGroupId

section MoreToolkit

variable {α : Type} (idOf : α → Nat)

theorem updateBy_of_none {l : List α} {i : Nat} (f : α → α)
    (h : findBy idOf l i = none) : updateBy idOf i f l = l := by
  induction l with
  | nil => rfl
  | cons a rest ih =>
    by_cases hb : idOf a = i
    · simp [findBy, hb] at h
    · simp [findBy, hb] at h
      simp [updateBy, hb, ih h]

theorem updateBy_append (i : Nat) (f : α → α) (l₁ l₂ : List α) :
    updateBy idOf i f (l₁ ++ l₂) = updateBy idOf i f l₁ ++ updateBy idOf i f l₂ := by
  induction l₁ with
  | nil => rfl
  | cons a rest ih => simp [updateBy, ih]

theorem updateBy_updateBy {g : α → α} (hg : ∀ a, idOf (g a) = idOf a)
    (i : Nat) (f : α → α) (l : List α) :
    updateBy idOf i f (updateBy idOf i g l) = updateBy idOf i (fun a => f (g a)) l := by
  induction l with
  | nil => rfl
  | cons a rest ih =>
    by_cases hb : idOf a = i
    · simp [updateBy, hb, hg, ih]
    · simp [updateBy, hb, ih]

theorem map_idOf_removeBy_sublist (i : Nat) (l : List α) :
    List.Sublist ((removeBy idOf i l).map idOf) (l.map idOf) :=
  (removeBy_sublist idOf i l).map idOf

end MoreToolkit



/-- The bare duplicate registered by `_createOutlineMeshFromVertices` right
after the extracted vertex data has been applied. -/
def dupRecord (w : World) (src : MeshObj) (g : Geometry) : MeshObj :=
  { id := w.nextId
    name := src.name ++ "_outline_" ++ Nat.repr w.nextId
    kind := NodeKind.mesh
    sourceMesh := none
    renderingGroupId := 0
    geometry := some g
    lodLevels := []
    material := none
    parent := none
    scaling := (1, 1, 1)
    receiveShadows := false
    checkCollisions := false
    isPickable := true
    doNotSyncBoundingInfo := false }

/-- The outline material as built by `_createOutlineMaterial`, with id `i`. -/
def outlineMatRecord (w : World) (i : Nat) : MaterialObj :=
  { id := i
    name := "outlineMaterial_" ++ Nat.repr i
    emissiveColor := w.outlineColor
    diffuseColor := w.outlineColor
    specularColor := black
    ambientColor := black
    disableLighting := true
    zOffset := -(1 / 10 : ℚ)
    backFaceCulling := false }

/-- The record transformation applied to a duplicate by
`_configureOutlineMesh`. -/
def configuredDup (w : World) (srcId : Nat) (m : MeshObj) : MeshObj :=
  { m with
      scaling := (w.outlineScale, w.outlineScale, w.outlineScale)
      parent := some srcId
      renderingGroupId := w.outlineRenderingGroupId
      material := some w.nextId
      receiveShadows := false
      checkCollisions := false
      isPickable := false
      doNotSyncBoundingInfo := true }

/-- The fully configured duplicate produced for source `lm` (id `lid`) at
fresh id `w.nextId`, its material sitting at `w.nextId + 1`. -/
def finalDupRecord (w : World) (lid : Nat) (lm : MeshObj) (g : Geometry) : MeshObj :=
  { id := w.nextId
    name := lm.name ++ "_outline_" ++ Nat.repr w.nextId
    kind := NodeKind.mesh
    sourceMesh := none
    renderingGroupId := w.outlineRenderingGroupId
    geometry := some g
    lodLevels := []
    material := some (w.nextId + 1)
    parent := some lid
    scaling := (w.outlineScale, w.outlineScale, w.outlineScale)
    receiveShadows := false
    checkCollisions := false
    isPickable := false
    doNotSyncBoundingInfo := true }

/-- Whether a duplication source is usable: registered, a plain mesh, and
with geometry to extract. -/
def validSrc (w : World) (lid : Nat) : Bool :=
  match w.findMesh lid with
  | some lm => isMesh lm && lm.geometry.isSome
  | none => false

/-- How many LOD entries of the list will produce a duplicate. -/
def cntValid (w : World) : List (Option Nat) → Nat
  | [] => 0
  | none :: rest => cntValid w rest
  | some lid :: rest => (if validSrc w lid then 1 else 0) + cntValid w rest

theorem findMesh_fresh_none {w : World} (hlt : ∀ m ∈ w.meshes, m.id < w.nextId)
    {j : Nat} (hj : w.nextId ≤ j) :
    w.findMesh j = none := by
  rw [World.findMesh, findBy_eq_none]
  intro m hm
  exact Nat.ne_of_lt (Nat.lt_of_lt_of_le (hlt m hm) hj)

theorem createMesh_success {w : World} {srcId : Nat} {src : MeshObj} {g : Geometry}
    (hlt : ∀ m ∈ w.meshes, m.id < w.nextId)
    (hsrc : w.findMesh srcId = some src) (hg : src.geometry = some g) :
    createOutlineMeshFromVertices w srcId =
      ({ w with meshes := w.meshes ++ [dupRecord w src g], nextId := w.nextId + 1 },
        some w.nextId) := by
  have hnone : findBy MeshObj.id w.meshes w.nextId = none := by
    rw [findBy_eq_none]
    intro m hm
    exact Nat.ne_of_lt (hlt m hm)
  simp only [createOutlineMeshFromVertices, hsrc, hg, World.updateMesh]
  rw [updateBy_append]
  rw [updateBy_of_none MeshObj.id _ hnone]
  simp [updateBy, dupRecord]

theorem createMesh_failure {w : World} {srcId : Nat} {src : MeshObj}
    (hlt : ∀ m ∈ w.meshes, m.id < w.nextId)
    (hsrc : w.findMesh srcId = some src) (hg : src.geometry = none) :
    createOutlineMeshFromVertices w srcId = ({ w with nextId := w.nextId + 1 }, none) := by
  have hnone : findBy MeshObj.id w.meshes w.nextId = none := by
    rw [findBy_eq_none]
    intro m hm
    exact Nat.ne_of_lt (hlt m hm)
  simp only [createOutlineMeshFromVertices, hsrc, hg, World.disposeMesh]
  rw [removeBy_append]
  rw [removeBy_of_none MeshObj.id hnone]
  simp [removeBy]

theorem createMesh_dangling {w : World} {srcId : Nat}
    (hlt : ∀ m ∈ w.meshes, m.id < w.nextId)
    (hsrc : w.findMesh srcId = none) :
    createOutlineMeshFromVertices w srcId = ({ w with nextId := w.nextId + 1 }, none) := by
  have hnone : findBy MeshObj.id w.meshes w.nextId = none := by
    rw [findBy_eq_none]
    intro m hm
    exact Nat.ne_of_lt (hlt m hm)
  simp only [createOutlineMeshFromVertices, hsrc, World.disposeMesh]
  rw [removeBy_append]
  rw [removeBy_of_none MeshObj.id hnone]
  simp [removeBy]

theorem configure_spec (w : World) (outId srcId : Nat) :
    configureOutlineMesh w outId srcId =
      { w with
          meshes := updateBy MeshObj.id outId (configuredDup w srcId) w.meshes
          materials := w.materials ++ [outlineMatRecord w w.nextId]
          outlineMaterials := w.outlineMaterials ++ [w.nextId]
          nextId := w.nextId + 1 } := by
  simp only [configureOutlineMesh, createOutlineMaterial, World.updateMesh]
  rw [updateBy_updateBy]
  · rfl
  · intro a
    rfl



/-- Rendering-group assignment on a mesh record. -/
def groupSet (gid : Int) (m : MeshObj) : MeshObj :=
  { m with renderingGroupId := gid }

theorem groupSet_eta (gid : Int) :
    groupSet gid = fun m => { m with renderingGroupId := gid } := rfl

/-- The state after one successful LOD iteration of the loop in
`_createOutlineForMesh`: LOD source raised into the original rendering
group, configured duplicate and its material appended, both recorded. -/
def lodStepResult (w : World) (lid : Nat) (lm : MeshObj) (g : Geometry) : World :=
  { w with
      meshes := updateBy MeshObj.id lid (groupSet w.originalRenderingGroupId) w.meshes
        ++ [finalDupRecord w lid lm g]
      materials := w.materials ++ [outlineMatRecord w (w.nextId + 1)]
      nextId := w.nextId + 2
      outlineMeshes := w.outlineMeshes ++ [w.nextId]
      outlineMaterials := w.outlineMaterials ++ [w.nextId + 1] }

theorem processLods_cons_none (w : World) (rest : List (Option Nat)) :
    processLods w (none :: rest) = processLods w rest := rfl

theorem processLods_cons_dangling {w : World} {lid : Nat} (rest : List (Option Nat))
    (hfind : w.findMesh lid = none) :
    processLods w (some lid :: rest) = processLods w rest := by
  simp [processLods, hfind]

theorem processLods_cons_notMesh {w : World} {lid : Nat} {lm : MeshObj}
    (rest : List (Option Nat)) (hfind : w.findMesh lid = some lm)
    (hmesh : isMesh lm = false) :
    processLods w (some lid :: rest) = processLods w rest := by
  simp [processLods, hfind, hmesh]

theorem processLods_cons_nogeom {w : World} {lid : Nat} {lm : MeshObj}
    (rest : List (Option Nat)) (hlt : ∀ m ∈ w.meshes, m.id < w.nextId)
    (hfind : w.findMesh lid = some lm) (hmesh : isMesh lm = true)
    (hg : lm.geometry = none) :
    processLods w (some lid :: rest) =
      processLods { w with nextId := w.nextId + 1 } rest := by
  simp [processLods, hfind, hmesh, createMesh_failure hlt hfind hg]

theorem processLods_cons_valid {w : World} {lid : Nat} {lm : MeshObj} {g : Geometry}
    (rest : List (Option Nat)) (hlt : ∀ m ∈ w.meshes, m.id < w.nextId)
    (hfind : w.findMesh lid = some lm) (hmesh : isMesh lm = true)
    (hg : lm.geometry = some g) :
    processLods w (some lid :: rest) =
      processLods (lodStepResult w lid lm g) rest := by
  have hlid : lid < w.nextId := by
    have hmem := mem_of_findBy MeshObj.id hfind
    have hid := findBy_id MeshObj.id hfind
    rw [← hid]
    exact hlt lm hmem
  have hnone : findBy MeshObj.id w.meshes w.nextId = none := by
    rw [findBy_eq_none]
    intro m hm
    exact Nat.ne_of_lt (hlt m hm)
  have hne : ¬ (w.nextId = lid) := fun h => absurd h.symm (Nat.ne_of_lt hlid)
  simp only [processLods, hfind, hmesh, createMesh_success hlt hfind hg, if_true]
  rw [configure_spec]
  simp only [World.updateMesh]
  rw [updateBy_append MeshObj.id w.nextId]
  rw [updateBy_of_none MeshObj.id _ hnone]
  simp only [lodStepResult]
  rw [updateBy_append MeshObj.id lid]
  congr 1
  simp [World.mk.injEq, updateBy, configuredDup, dupRecord, finalDupRecord,
    groupSet_eta, outlineMatRecord, hne]


theorem isMesh_iff (m : MeshObj) : isMesh m = true ↔ m.kind = NodeKind.mesh := by
  simp [isMesh]

theorem nodup_snoc {l : List Nat} {a : Nat} :
    (l ++ [a]).Nodup ↔ l.Nodup ∧ a ∉ l := by
  simp [List.nodup_append]

theorem groupSet_id (gid : Int) (m : MeshObj) : (groupSet gid m).id = m.id := rfl

theorem lodStep_findMesh_lt {w : World} {lid : Nat} {lm : MeshObj} {g : Geometry}
    (hlt : ∀ m ∈ w.meshes, m.id < w.nextId) {j : Nat} (hj : j ≠ w.nextId) :
    (lodStepResult w lid lm g).findMesh j =
      if j = lid then (w.findMesh j).map (groupSet w.originalRenderingGroupId)
      else w.findMesh j := by
  have hDid : ∀ x, findBy MeshObj.id [finalDupRecord w lid lm g] j = x →
      (x = none ∨ j = w.nextId) := by
    intro x hx
    by_cases hh : (finalDupRecord w lid lm g).id = j
    · exact Or.inr (by simpa [finalDupRecord] using hh.symm)
    · simp [findBy, hh] at hx
      exact Or.inl hx.symm
  have hDnone : findBy MeshObj.id [finalDupRecord w lid lm g] j = none := by
    rcases hDid _ rfl with h | h
    · exact h
    · exact absurd h hj
  simp only [lodStepResult, World.findMesh]
  by_cases hjl : j = lid
  · subst hjl
    rw [if_pos rfl]
    cases hfind : findBy MeshObj.id w.meshes j with
    | some m =>
      have hup : findBy MeshObj.id
          (updateBy MeshObj.id j (groupSet w.originalRenderingGroupId) w.meshes) j =
          some (groupSet w.originalRenderingGroupId m) := by
        rw [findBy_updateBy_self MeshObj.id (groupSet_id _) j, hfind]
        rfl
      rw [findBy_append_left MeshObj.id _ hup]
      rfl
    | none =>
      have hup : findBy MeshObj.id
          (updateBy MeshObj.id j (groupSet w.originalRenderingGroupId) w.meshes) j = none := by
        rw [findBy_updateBy_self MeshObj.id (groupSet_id _) j, hfind]
        rfl
      rw [findBy_append_right MeshObj.id _ hup, hDnone]
      rfl
  · rw [if_neg hjl]
    have hup : findBy MeshObj.id
        (updateBy MeshObj.id lid (groupSet w.originalRenderingGroupId) w.meshes) j =
        findBy MeshObj.id w.meshes j :=
      findBy_updateBy_ne MeshObj.id (groupSet_id _) (fun h => hjl h.symm) w.meshes
    cases hfind : findBy MeshObj.id w.meshes j with
    | some m =>
      rw [findBy_append_left MeshObj.id _ (hup.trans hfind)]
    | none =>
      rw [findBy_append_right MeshObj.id _ (hup.trans hfind), hDnone]

theorem lodStep_findMesh_fresh {w : World} {lid : Nat} {lm : MeshObj} {g : Geometry}
    (hlt : ∀ m ∈ w.meshes, m.id < w.nextId) :
    (lodStepResult w lid lm g).findMesh w.nextId = some (finalDupRecord w lid lm g) := by
  simp only [lodStepResult, World.findMesh]
  have h1 : findBy MeshObj.id
      (updateBy MeshObj.id lid (groupSet w.originalRenderingGroupId) w.meshes) w.nextId
      = none := by
    rw [findBy_eq_none]
    intro a ha
    rcases mem_updateBy MeshObj.id ha with h | ⟨b, hb, rfl⟩
    · exact Nat.ne_of_lt (hlt a h)
    · rw [groupSet_id]
      exact Nat.ne_of_lt (hlt b hb)
  rw [findBy_append_right MeshObj.id _ h1]
  simp [findBy, finalDupRecord]

theorem lodStep_meshes_len (w : World) (lid : Nat) (lm : MeshObj) (g : Geometry) :
    (lodStepResult w lid lm g).meshes.length = w.meshes.length + 1 := by
  simp [lodStepResult, length_updateBy]

theorem lodStep_materials_len (w : World) (lid : Nat) (lm : MeshObj) (g : Geometry) :
    (lodStepResult w lid lm g).materials.length = w.materials.length + 1 := by
  simp [lodStepResult]


/-- Per-duplicate invariant during outline creation: the duplicate is
registered and configured, and its geometry is the snapshot of the source it
mirrors (source below the creation floor `N`, qualified by `PA`). -/
def DupFull (N : Nat) (PA : Nat → Prop) (w : World) (oid : Nat) : Prop :=
  ∃ d, w.findMesh oid = some d ∧
    d.renderingGroupId = w.outlineRenderingGroupId ∧
    d.isPickable = false ∧ d.checkCollisions = false ∧ d.receiveShadows = false ∧
    d.doNotSyncBoundingInfo = true ∧ d.kind = NodeKind.mesh ∧ d.lodLevels = [] ∧
    d.material = some (oid + 1) ∧
    ∃ p srcm gg, d.parent = some p ∧ PA p ∧ p < N ∧
      w.findMesh p = some srcm ∧ srcm.kind = NodeKind.mesh ∧
      d.geometry = some gg ∧ srcm.geometry = some gg

/-- The invariant carried through the LOD loop of `_createOutlineForMesh`:
`N` is the fresh-id floor at the start of the whole creation (all sources
live below it, all duplicates at or above it). -/
structure LoopPre (N : Nat) (PA : Nat → Prop) (w : World) : Prop where
  wf : WF w
  nLe : N ≤ w.nextId
  dupNodup : w.outlineMeshes.Nodup
  matsEq : w.outlineMaterials = w.outlineMeshes.map (fun i => i + 1)
  dupFresh : ∀ oid ∈ w.outlineMeshes, N ≤ oid
  dups : ∀ oid ∈ w.outlineMeshes, DupFull N PA w oid
  matsOk : ∀ mid ∈ w.outlineMaterials, ∃ mt, w.findMaterial mid = some mt

theorem LoopPre.dupLt {N : Nat} {PA : Nat → Prop} {w : World} (h : LoopPre N PA w) :
    ∀ oid ∈ w.outlineMeshes, oid < w.nextId := by
  intro oid hmem
  obtain ⟨d, hd, -⟩ := h.dups oid hmem
  have hid := findBy_id MeshObj.id hd
  have hin := mem_of_findBy MeshObj.id hd
  rw [← hid]
  exact h.wf.meshLt d hin

theorem groupSet_groupSet (gid : Int) (m : MeshObj) :
    groupSet gid (groupSet gid m) = groupSet gid m := rfl

theorem lodStep_stable (g : Geometry) {w : World} {lid : Nat} {lm : MeshObj}
    (hlt : ∀ m ∈ w.meshes, m.id < w.nextId)
    (hfind : w.findMesh lid = some lm) {j : Nat} (hj : j < w.nextId) :
    (lodStepResult w lid lm g).findMesh j = w.findMesh j ∨
    ∃ mj, w.findMesh j = some mj ∧
      (lodStepResult w lid lm g).findMesh j =
        some (groupSet w.originalRenderingGroupId mj) := by
  rw [lodStep_findMesh_lt hlt (Nat.ne_of_lt hj)]
  by_cases hjl : j = lid
  · subst hjl
    right
    exact ⟨lm, hfind, by rw [if_pos rfl, hfind]; rfl⟩
  · left
    rw [if_neg hjl]

theorem stable_trans {w w' r : World} {gid : Int} {j : Nat}
    (h1 : w'.findMesh j = w.findMesh j ∨
      ∃ mj, w.findMesh j = some mj ∧ w'.findMesh j = some (groupSet gid mj))
    (h2 : r.findMesh j = w'.findMesh j ∨
      ∃ mj, w'.findMesh j = some mj ∧ r.findMesh j = some (groupSet gid mj)) :
    r.findMesh j = w.findMesh j ∨
    ∃ mj, w.findMesh j = some mj ∧ r.findMesh j = some (groupSet gid mj) := by
  rcases h1 with h1 | ⟨m1, hm1, h1⟩
  · rcases h2 with h2 | ⟨m2, hm2, h2⟩
    · exact Or.inl (by rw [h2, h1])
    · exact Or.inr ⟨m2, h1 ▸ hm2, h2⟩
  · rcases h2 with h2 | ⟨m2, hm2, h2⟩
    · exact Or.inr ⟨m1, hm1, h2.trans h1⟩
    · right
      refine ⟨m1, hm1, ?_⟩
      rw [h1] at hm2
      have hm2' : m2 = groupSet gid m1 := by
        injection hm2.symm
      rw [h2, hm2', groupSet_groupSet]

theorem validSrc_eq_of_stable {w r : World} {gid : Int} {j : Nat}
    (h : r.findMesh j = w.findMesh j ∨
      ∃ mj, w.findMesh j = some mj ∧ r.findMesh j = some (groupSet gid mj)) :
    validSrc r j = validSrc w j := by
  rcases h with h | ⟨mj, hmj, h⟩
  · rw [validSrc, validSrc, h]
  · rw [validSrc, validSrc, h, hmj]
    rfl

theorem cntValid_congr {w r : World} :
    ∀ {lods : List (Option Nat)},
      (∀ lid, some lid ∈ lods → validSrc r lid = validSrc w lid) →
      cntValid r lods = cntValid w lods := by
  intro lods
  induction lods with
  | nil => intro _; rfl
  | cons hd rest ih =>
    intro h
    match hd with
    | none =>
      simp only [cntValid]
      exact ih (fun lid hl => h lid (List.mem_cons_of_mem _ hl))
    | some lid =>
      simp only [cntValid]
      rw [h lid (List.mem_cons_self _ _), ih (fun l hl => h l (List.mem_cons_of_mem _ hl))]

theorem lodStep_pre {N : Nat} {PA : Nat → Prop} {w : World} {lid : Nat} {lm : MeshObj}
    {g : Geometry} (hpre : LoopPre N PA w) (hlid : lid < N) (hPA : PA lid)
    (hfind : w.findMesh lid = some lm) (hmesh : isMesh lm = true)
    (hg : lm.geometry = some g) :
    LoopPre N PA (lodStepResult w lid lm g) := by
  have hlt := hpre.wf.meshLt
  have hkind : lm.kind = NodeKind.mesh := (isMesh_iff lm).mp hmesh
  have hdupLt := hpre.dupLt
  have hidmap : (lodStepResult w lid lm g).meshes.map MeshObj.id
      = w.meshes.map MeshObj.id ++ [w.nextId] := by
    simp [lodStepResult, map_idOf_updateBy MeshObj.id (groupSet_id _), finalDupRecord]
  have hmatmap : (lodStepResult w lid lm g).materials.map MaterialObj.id
      = w.materials.map MaterialObj.id ++ [w.nextId + 1] := by
    simp [lodStepResult, outlineMatRecord]
  have hfreshNotIn : w.nextId ∉ w.meshes.map MeshObj.id := by
    intro hmem
    rcases List.mem_map.mp hmem with ⟨m, hm, hid⟩
    exact absurd hid (Nat.ne_of_lt (hlt m hm))
  have hfreshMatNotIn : w.nextId + 1 ∉ w.materials.map MaterialObj.id := by
    intro hmem
    rcases List.mem_map.mp hmem with ⟨mt, hmt, hid⟩
    have := hpre.wf.matLt mt hmt
    omega
  refine ⟨⟨?_, ?_, ?_, ?_, ?_⟩, ?_, ?_, ?_, ?_, ?_, ?_⟩
  · rw [hidmap]
    exact nodup_snoc.mpr ⟨hpre.wf.nodupMesh, hfreshNotIn⟩
  · rw [hmatmap]
    exact nodup_snoc.mpr ⟨hpre.wf.nodupMat, hfreshMatNotIn⟩
  · intro m hm
    have hm' : m ∈ updateBy MeshObj.id lid (groupSet w.originalRenderingGroupId) w.meshes
        ++ [finalDupRecord w lid lm g] := hm
    show m.id < w.nextId + 2
    rcases List.mem_append.mp hm' with hmm | hmm
    · rcases mem_updateBy MeshObj.id hmm with hmm | ⟨b, hb, rfl⟩
      · have := hlt m hmm; omega
      · rw [groupSet_id]
        have := hlt b hb
        omega
    · have : m = finalDupRecord w lid lm g := List.mem_singleton.mp hmm
      subst this
      show w.nextId < w.nextId + 2
      omega
  · intro mt hmt
    have hmt' : mt ∈ w.materials ++ [outlineMatRecord w (w.nextId + 1)] := hmt
    show mt.id < w.nextId + 2
    rcases List.mem_append.mp hmt' with hmm | hmm
    · have := hpre.wf.matLt mt hmm; omega
    · have : mt = outlineMatRecord w (w.nextId + 1) := List.mem_singleton.mp hmm
      subst this
      show w.nextId + 1 < w.nextId + 2
      omega
  · intro m hm l hl lid2 hlid2
    have hm' : m ∈ updateBy MeshObj.id lid (groupSet w.originalRenderingGroupId) w.meshes
        ++ [finalDupRecord w lid lm g] := hm
    show lid2 < w.nextId + 2
    rcases List.mem_append.mp hm' with hmm | hmm
    · rcases mem_updateBy MeshObj.id hmm with hmm | ⟨b, hb, rfl⟩
      · have := hpre.wf.lodLt m hmm l hl lid2 hlid2; omega
      · have := hpre.wf.lodLt b hb l hl lid2 hlid2; omega
    · have : m = finalDupRecord w lid lm g := List.mem_singleton.mp hmm
      subst this
      simp [finalDupRecord] at hl
  · have := hpre.nLe
    show N ≤ w.nextId + 2
    omega
  · show (w.outlineMeshes ++ [w.nextId]).Nodup
    refine nodup_snoc.mpr ⟨hpre.dupNodup, ?_⟩
    intro hmem
    exact absurd (hdupLt _ hmem) (lt_irrefl _)
  · show w.outlineMaterials ++ [w.nextId + 1]
      = (w.outlineMeshes ++ [w.nextId]).map (fun i => i + 1)
    rw [hpre.matsEq]
    simp
  · intro oid hmem
    have hmem' : oid ∈ w.outlineMeshes ++ [w.nextId] := hmem
    rcases List.mem_append.mp hmem' with hold | hnew
    · exact hpre.dupFresh oid hold
    · have : oid = w.nextId := List.mem_singleton.mp hnew
      subst this
      exact hpre.nLe
  · intro oid hmem
    have hmem' : oid ∈ w.outlineMeshes ++ [w.nextId] := hmem
    rcases List.mem_append.mp hmem' with hold | hnew
    · obtain ⟨d, hd, hgrp, hpick, hcol, hsh, hsync, hkd, hlods, hmat,
        p, srcm, gg, hpar, hPAp, hpN, hsrc, hsk, hdg, hsg⟩ := hpre.dups oid hold
      have hoidlt : oid < w.nextId := hdupLt oid hold
      have hoidne : oid ≠ lid := by
        have := hpre.dupFresh oid hold
        omega
      have hfd : (lodStepResult w lid lm g).findMesh oid = some d := by
        rw [lodStep_findMesh_lt hlt (Nat.ne_of_lt hoidlt), if_neg hoidne, hd]
      refine ⟨d, hfd, hgrp, hpick, hcol, hsh, hsync, hkd, hlods, hmat, p, ?_⟩
      have hpn : p ≠ w.nextId := Nat.ne_of_lt (lt_of_lt_of_le hpN hpre.nLe)
      by_cases hpl : p = lid
      · subst hpl
        refine ⟨groupSet w.originalRenderingGroupId srcm, gg, hpar, hPAp, hpN, ?_, ?_, hdg, ?_⟩
        · rw [lodStep_findMesh_lt hlt hpn, if_pos rfl, hsrc]
          rfl
        · exact hsk
        · exact hsg
      · refine ⟨srcm, gg, hpar, hPAp, hpN, ?_, hsk, hdg, hsg⟩
        rw [lodStep_findMesh_lt hlt hpn, if_neg hpl, hsrc]
    · have : oid = w.nextId := List.mem_singleton.mp hnew
      subst this
      refine ⟨finalDupRecord w lid lm g, lodStep_findMesh_fresh hlt,
        rfl, rfl, rfl, rfl, rfl, rfl, rfl, rfl,
        lid, groupSet w.originalRenderingGroupId lm, g, rfl, hPA, hlid, ?_, ?_, rfl, ?_⟩
      · rw [lodStep_findMesh_lt hlt (Nat.ne_of_lt (lt_of_lt_of_le hlid hpre.nLe)),
          if_pos rfl, hfind]
        rfl
      · exact hkind
      · exact hg
  · intro mid hmid
    have hmid' : mid ∈ w.outlineMaterials ++ [w.nextId + 1] := hmid
    rcases List.mem_append.mp hmid' with hold | hnew
    · obtain ⟨mt, hmt⟩ := hpre.matsOk mid hold
      refine ⟨mt, ?_⟩
      show findBy MaterialObj.id (w.materials ++ [outlineMatRecord w (w.nextId + 1)]) mid
        = some mt
      exact findBy_append_left MaterialObj.id _ hmt
    · have : mid = w.nextId + 1 := List.mem_singleton.mp hnew
      subst this
      refine ⟨outlineMatRecord w (w.nextId + 1), ?_⟩
      show findBy MaterialObj.id (w.materials ++ [outlineMatRecord w (w.nextId + 1)])
        (w.nextId + 1) = some (outlineMatRecord w (w.nextId + 1))
      have hnone : findBy MaterialObj.id w.materials (w.nextId + 1) = none := by
        rw [findBy_eq_none]
        intro mt hmt
        have := hpre.wf.matLt mt hmt
        omega
      rw [findBy_append_right MaterialObj.id _ hnone]
      simp [findBy, outlineMatRecord]

/-- What one run of the LOD loop guarantees, relating the state `r` after the
loop to the state `w` before it. -/
structure LoopPost (N : Nat) (PA : Nat → Prop) (w r : World) (lods : List (Option Nat)) :
    Prop where
  post : LoopPre N PA r
  lenDup : r.outlineMeshes.length = w.outlineMeshes.length + cntValid w lods
  lenMesh : r.meshes.length = w.meshes.length + cntValid w lods
  lenMat : r.materials.length = w.materials.length + cntValid w lods
  nextGe : w.nextId ≤ r.nextId
  dupExt : ∃ fr, r.outlineMeshes = w.outlineMeshes ++ fr ∧ ∀ oid ∈ fr, w.nextId ≤ oid
  stable : ∀ j, j < N →
    r.findMesh j = w.findMesh j ∨
    ∃ mj, w.findMesh j = some mj ∧
      r.findMesh j = some (groupSet w.originalRenderingGroupId mj)
  lodDone : ∀ lid, some lid ∈ lods → validSrc w lid = true →
    ∃ mj, w.findMesh lid = some mj ∧
      r.findMesh lid = some (groupSet w.originalRenderingGroupId mj)
  selEq : r.currentSelectedMesh = w.currentSelectedMesh
  mapEq : r.originalRenderingGroups = w.originalRenderingGroups
  colorEq : r.outlineColor = w.outlineColor
  scaleEq : r.outlineScale = w.outlineScale
  ogidEq : r.originalRenderingGroupId = w.originalRenderingGroupId
  olidEq : r.outlineRenderingGroupId = w.outlineRenderingGroupId

theorem loopPost_skip_id {N : Nat} {PA : Nat → Prop} {w r : World} {lid : Nat}
    {rest : List (Option Nat)} (hpost : LoopPost N PA w r rest)
    (hinval : validSrc w lid = false) :
    LoopPost N PA w r (some lid :: rest) := by
  have hcnt : cntValid w (some lid :: rest) = cntValid w rest := by
    simp [cntValid, hinval]
  refine ⟨hpost.post, ?_, ?_, ?_, hpost.nextGe, hpost.dupExt, hpost.stable, ?_,
    hpost.selEq, hpost.mapEq, hpost.colorEq, hpost.scaleEq, hpost.ogidEq, hpost.olidEq⟩
  · rw [hcnt]; exact hpost.lenDup
  · rw [hcnt]; exact hpost.lenMesh
  · rw [hcnt]; exact hpost.lenMat
  · intro lid2 hmem hval
    rcases List.mem_cons.mp hmem with heq | hmem
    · have : lid2 = lid := by injection heq
      subst this
      rw [hval] at hinval
      cases hinval
    · exact hpost.lodDone lid2 hmem hval

theorem loopPost_skip_nextId {N : Nat} {PA : Nat → Prop} {w r : World} {lid : Nat}
    {rest : List (Option Nat)}
    (hpost : LoopPost N PA { w with nextId := w.nextId + 1 } r rest)
    (hinval : validSrc w lid = false) :
    LoopPost N PA w r (some lid :: rest) := by
  have hcnteq : cntValid { w with nextId := w.nextId + 1 } rest = cntValid w rest :=
    cntValid_congr (fun _ _ => rfl)
  have hcnt : cntValid w (some lid :: rest) = cntValid w rest := by
    simp [cntValid, hinval]
  refine ⟨hpost.post, ?_, ?_, ?_, ?_, ?_, ?_, ?_,
    hpost.selEq, hpost.mapEq, hpost.colorEq, hpost.scaleEq, hpost.ogidEq, hpost.olidEq⟩
  · rw [hcnt, ← hcnteq]; exact hpost.lenDup
  · rw [hcnt, ← hcnteq]; exact hpost.lenMesh
  · rw [hcnt, ← hcnteq]; exact hpost.lenMat
  · have := hpost.nextGe
    simp only at this
    omega
  · obtain ⟨fr, h1, h2⟩ := hpost.dupExt
    exact ⟨fr, h1, fun oid h => le_trans (Nat.le_succ _) (h2 oid h)⟩
  · exact hpost.stable
  · intro lid2 hmem hval
    rcases List.mem_cons.mp hmem with heq | hmem
    · have : lid2 = lid := by injection heq
      subst this
      rw [hval] at hinval
      cases hinval
    · exact hpost.lodDone lid2 hmem hval

theorem loopPost_lift_valid {N : Nat} {PA : Nat → Prop} {w r : World} {lid : Nat}
    {lm : MeshObj} {g : Geometry} {rest : List (Option Nat)}
    (hpre : LoopPre N PA w) (hlid : lid < N)
    (hrest : ∀ lid2, some lid2 ∈ rest → lid2 < N)
    (hfind : w.findMesh lid = some lm) (hmesh : isMesh lm = true)
    (hg : lm.geometry = some g)
    (hpost : LoopPost N PA (lodStepResult w lid lm g) r rest) :
    LoopPost N PA w r (some lid :: rest) := by
  have hlt := hpre.wf.meshLt
  have hval : validSrc w lid = true := by
    simp [validSrc, hfind, hmesh, hg]
  have hstep : ∀ j, j < N →
      (lodStepResult w lid lm g).findMesh j = w.findMesh j ∨
      ∃ mj, w.findMesh j = some mj ∧
        (lodStepResult w lid lm g).findMesh j =
          some (groupSet w.originalRenderingGroupId mj) :=
    fun j hj => lodStep_stable g hlt hfind (lt_of_lt_of_le hj hpre.nLe)
  have hcnteq : cntValid (lodStepResult w lid lm g) rest = cntValid w rest :=
    cntValid_congr (fun lid2 hmem => validSrc_eq_of_stable (hstep lid2 (hrest lid2 hmem)))
  have hcnt : cntValid w (some lid :: rest) = 1 + cntValid w rest := by
    simp [cntValid, hval]
  have hstepfound : (lodStepResult w lid lm g).findMesh lid =
      some (groupSet w.originalRenderingGroupId lm) := by
    rw [lodStep_findMesh_lt hlt (Nat.ne_of_lt (lt_of_lt_of_le hlid hpre.nLe)),
      if_pos rfl, hfind]
    rfl
  refine ⟨hpost.post, ?_, ?_, ?_, ?_, ?_, ?_, ?_, ?_, ?_, ?_, ?_, ?_, ?_⟩
  · have h1 := hpost.lenDup
    have h2 : (lodStepResult w lid lm g).outlineMeshes.length
        = w.outlineMeshes.length + 1 := by
      simp [lodStepResult]
    rw [hcnteq, h2] at h1
    rw [hcnt]
    omega
  · have h1 := hpost.lenMesh
    rw [hcnteq, lodStep_meshes_len] at h1
    rw [hcnt]
    omega
  · have h1 := hpost.lenMat
    rw [hcnteq, lodStep_materials_len] at h1
    rw [hcnt]
    omega
  · have h1 := hpost.nextGe
    have h2 : (lodStepResult w lid lm g).nextId = w.nextId + 2 := rfl
    rw [h2] at h1
    omega
  · obtain ⟨fr, h1, h2⟩ := hpost.dupExt
    have h3 : (lodStepResult w lid lm g).outlineMeshes
        = w.outlineMeshes ++ [w.nextId] := rfl
    rw [h3, List.append_assoc] at h1
    refine ⟨[w.nextId] ++ fr, h1, ?_⟩
    intro oid hmem
    rcases List.mem_append.mp hmem with h | h
    · rw [List.mem_singleton.mp h]
    · have h4 := h2 oid h
      have h5 : (lodStepResult w lid lm g).nextId = w.nextId + 2 := rfl
      rw [h5] at h4
      omega
  · intro j hj
    exact stable_trans (hstep j hj) (hpost.stable j hj)
  · intro lid2 hmem hval2
    rcases List.mem_cons.mp hmem with heq | hmem
    · have : lid2 = lid := by injection heq
      subst this
      rcases hpost.stable lid2 hlid with hs | ⟨mj, hmj, hs⟩
      · exact ⟨lm, hfind, by rw [hs, hstepfound]⟩
      · refine ⟨lm, hfind, ?_⟩
        rw [hstepfound] at hmj
        have hmj' : mj = groupSet w.originalRenderingGroupId lm := by
          injection hmj.symm
        rw [hs, hmj']
        rfl
    · have hval' : validSrc (lodStepResult w lid lm g) lid2 = true := by
        rw [validSrc_eq_of_stable (hstep lid2 (hrest lid2 hmem))]
        exact hval2
      obtain ⟨mj4, hmj4, hr⟩ := hpost.lodDone lid2 hmem hval'
      rcases hstep lid2 (hrest lid2 hmem) with hs | ⟨mjw, hmjw, hs⟩
      · rw [hs] at hmj4
        exact ⟨mj4, hmj4, hr⟩
      · refine ⟨mjw, hmjw, ?_⟩
        rw [hs] at hmj4
        have hmj' : mj4 = groupSet w.originalRenderingGroupId mjw := by
          injection hmj4.symm
        rw [hr, hmj']
        rfl
  · exact hpost.selEq
  · exact hpost.mapEq
  · exact hpost.colorEq
  · exact hpost.scaleEq
  · exact hpost.ogidEq
  · exact hpost.olidEq

theorem loopPre_bump {N : Nat} {PA : Nat → Prop} {w : World} (hpre : LoopPre N PA w) :
    LoopPre N PA { w with nextId := w.nextId + 1 } := by
  refine ⟨⟨hpre.wf.nodupMesh, hpre.wf.nodupMat, ?_, ?_, ?_⟩, ?_,
    hpre.dupNodup, hpre.matsEq, hpre.dupFresh, hpre.dups, hpre.matsOk⟩
  · intro m hm
    have := hpre.wf.meshLt m hm
    simp only
    omega
  · intro mt hmt
    have := hpre.wf.matLt mt hmt
    simp only
    omega
  · intro m hm l hl lid hlid
    have := hpre.wf.lodLt m hm l hl lid hlid
    simp only
    omega
  · have := hpre.nLe
    simp only
    omega

theorem processLods_master {N : Nat} {PA : Nat → Prop} :
    ∀ (lods : List (Option Nat)) (w : World),
      LoopPre N PA w →
      (∀ lid, some lid ∈ lods → lid < N ∧ PA lid) →
      LoopPost N PA w (processLods w lods) lods := by
  intro lods
  induction lods with
  | nil =>
    intro w hpre _
    refine ⟨hpre, by simp [processLods, cntValid], by simp [processLods, cntValid],
      by simp [processLods, cntValid], le_refl _, ⟨[], by simp [processLods], by simp⟩,
      fun j _ => Or.inl rfl, by simp, rfl, rfl, rfl, rfl, rfl, rfl⟩
  | cons hd rest ih =>
    intro w hpre hl
    have hlrest : ∀ lid, some lid ∈ rest → lid < N ∧ PA lid :=
      fun lid h => hl lid (List.mem_cons_of_mem _ h)
    match hd with
    | none =>
      rw [processLods_cons_none]
      have hP := ih w hpre hlrest
      exact ⟨hP.post, hP.lenDup, hP.lenMesh, hP.lenMat, hP.nextGe, hP.dupExt, hP.stable,
        fun lid hmem hval => hP.lodDone lid (by
          rcases List.mem_cons.mp hmem with h | h
          · exact Option.noConfusion h
          · exact h) hval,
        hP.selEq, hP.mapEq, hP.colorEq, hP.scaleEq, hP.ogidEq, hP.olidEq⟩
    | some lid =>
      rcases hl lid (List.mem_cons_self _ _) with ⟨hlidN, hPAlid⟩
      cases hfind : w.findMesh lid with
      | none =>
        rw [processLods_cons_dangling rest hfind]
        exact loopPost_skip_id (ih w hpre hlrest) (by simp [validSrc, hfind])
      | some lm =>
        cases hmesh : isMesh lm with
        | false =>
          rw [processLods_cons_notMesh rest hfind hmesh]
          exact loopPost_skip_id (ih w hpre hlrest) (by simp [validSrc, hfind, hmesh])
        | true =>
          cases hg : lm.geometry with
          | none =>
            rw [processLods_cons_nogeom rest hpre.wf.meshLt hfind hmesh hg]
            exact loopPost_skip_nextId (ih _ (loopPre_bump hpre) hlrest)
              (by simp [validSrc, hfind, hmesh, hg])
          | some g =>
            rw [processLods_cons_valid rest hpre.wf.meshLt hfind hmesh hg]
            exact loopPost_lift_valid hpre hlidN (fun l2 h => (hlrest l2 h).1) hfind hmesh hg
              (ih _ (lodStep_pre hpre hlidN hPAlid hfind hmesh hg) hlrest)


theorem disposeMeshes_keep : ∀ (l : List Nat) (w : World),
    disposeMeshes w l = { w with meshes := (disposeMeshes w l).meshes } := by
  intro l
  induction l with
  | nil => intro w; rfl
  | cons i rest ih => intro w; exact ih (w.disposeMesh i)

theorem disposeMaterials_keep : ∀ (l : List Nat) (w : World),
    disposeMaterials w l = { w with materials := (disposeMaterials w l).materials } := by
  intro l
  induction l with
  | nil => intro w; rfl
  | cons i rest ih => intro w; exact ih (w.disposeMaterial i)

theorem restoreGroups_keep : ∀ (l : List (Nat × Int)) (w : World),
    restoreGroups w l = { w with meshes := (restoreGroups w l).meshes } := by
  intro l
  induction l with
  | nil => intro w; rfl
  | cons kv rest ih =>
    intro w
    rcases kv with ⟨k, g⟩
    show restoreGroups w ((k, g) :: rest) = _
    rw [restoreGroups]
    cases hfind : w.findMesh k with
    | none => exact ih w
    | some m =>
      by_cases hm : isMesh m
      · simp only [hm, if_true]
        exact ih _
      · simp only [hm, if_false]
        exact ih w

theorem scaleMeshes_keep (k : ℚ) : ∀ (l : List Nat) (w : World),
    scaleMeshes w k l = { w with meshes := (scaleMeshes w k l).meshes } := by
  intro l
  induction l with
  | nil => intro w; rfl
  | cons i rest ih => intro w; exact ih _

theorem colorMaterials_keep (c : Color3) : ∀ (l : List Nat) (w : World),
    colorMaterials w c l = { w with materials := (colorMaterials w c l).materials } := by
  intro l
  induction l with
  | nil => intro w; rfl
  | cons i rest ih => intro w; exact ih _

theorem disposeMeshes_materials (l : List Nat) (w : World) :
    (disposeMeshes w l).materials = w.materials := by
  rw [disposeMeshes_keep]

theorem disposeMeshes_nextId (l : List Nat) (w : World) :
    (disposeMeshes w l).nextId = w.nextId := by
  rw [disposeMeshes_keep]

theorem disposeMeshes_currentSelectedMesh (l : List Nat) (w : World) :
    (disposeMeshes w l).currentSelectedMesh = w.currentSelectedMesh := by
  rw [disposeMeshes_keep]

theorem disposeMeshes_outlineMeshes (l : List Nat) (w : World) :
    (disposeMeshes w l).outlineMeshes = w.outlineMeshes := by
  rw [disposeMeshes_keep]

theorem disposeMeshes_outlineMaterials (l : List Nat) (w : World) :
    (disposeMeshes w l).outlineMaterials = w.outlineMaterials := by
  rw [disposeMeshes_keep]

theorem disposeMeshes_originalRenderingGroups (l : List Nat) (w : World) :
    (disposeMeshes w l).originalRenderingGroups = w.originalRenderingGroups := by
  rw [disposeMeshes_keep]

theorem disposeMeshes_outlineColor (l : List Nat) (w : World) :
    (disposeMeshes w l).outlineColor = w.outlineColor := by
  rw [disposeMeshes_keep]

theorem disposeMeshes_outlineScale (l : List Nat) (w : World) :
    (disposeMeshes w l).outlineScale = w.outlineScale := by
  rw [disposeMeshes_keep]

theorem disposeMeshes_originalRenderingGroupId (l : List Nat) (w : World) :
    (disposeMeshes w l).originalRenderingGroupId = w.originalRenderingGroupId := by
  rw [disposeMeshes_keep]

theorem disposeMeshes_outlineRenderingGroupId (l : List Nat) (w : World) :
    (disposeMeshes w l).outlineRenderingGroupId = w.outlineRenderingGroupId := by
  rw [disposeMeshes_keep]

theorem disposeMaterials_nextId (l : List Nat) (w : World) :
    (disposeMaterials w l).nextId = w.nextId := by
  rw [disposeMaterials_keep]

theorem disposeMaterials_currentSelectedMesh (l : List Nat) (w : World) :
    (disposeMaterials w l).currentSelectedMesh = w.currentSelectedMesh := by
  rw [disposeMaterials_keep]

theorem disposeMaterials_outlineMeshes (l : List Nat) (w : World) :
    (disposeMaterials w l).outlineMeshes = w.outlineMeshes := by
  rw [disposeMaterials_keep]

theorem disposeMaterials_outlineMaterials (l : List Nat) (w : World) :
    (disposeMaterials w l).outlineMaterials = w.outlineMaterials := by
  rw [disposeMaterials_keep]

theorem disposeMaterials_originalRenderingGroups (l : List Nat) (w : World) :
    (disposeMaterials w l).originalRenderingGroups = w.originalRenderingGroups := by
  rw [disposeMaterials_keep]

theorem disposeMaterials_outlineColor (l : List Nat) (w : World) :
    (disposeMaterials w l).outlineColor = w.outlineColor := by
  rw [disposeMaterials_keep]

theorem disposeMaterials_outlineScale (l : List Nat) (w : World) :
    (disposeMaterials w l).outlineScale = w.outlineScale := by
  rw [disposeMaterials_keep]

theorem disposeMaterials_originalRenderingGroupId (l : List Nat) (w : World) :
    (disposeMaterials w l).originalRenderingGroupId = w.originalRenderingGroupId := by
  rw [disposeMaterials_keep]

theorem disposeMaterials_outlineRenderingGroupId (l : List Nat) (w : World) :
    (disposeMaterials w l).outlineRenderingGroupId = w.outlineRenderingGroupId := by
  rw [disposeMaterials_keep]

theorem disposeMaterials_meshes (l : List Nat) (w : World) :
    (disposeMaterials w l).meshes = w.meshes := by
  rw [disposeMaterials_keep]

theorem restoreGroups_materials (l : List (Nat × Int)) (w : World) :
    (restoreGroups w l).materials = w.materials := by
  rw [restoreGroups_keep]

theorem restoreGroups_nextId (l : List (Nat × Int)) (w : World) :
    (restoreGroups w l).nextId = w.nextId := by
  rw [restoreGroups_keep]

theorem restoreGroups_currentSelectedMesh (l : List (Nat × Int)) (w : World) :
    (restoreGroups w l).currentSelectedMesh = w.currentSelectedMesh := by
  rw [restoreGroups_keep]

theorem restoreGroups_outlineMeshes (l : List (Nat × Int)) (w : World) :
    (restoreGroups w l).outlineMeshes = w.outlineMeshes := by
  rw [restoreGroups_keep]

theorem restoreGroups_outlineMaterials (l : List (Nat × Int)) (w : World) :
    (restoreGroups w l).outlineMaterials = w.outlineMaterials := by
  rw [restoreGroups_keep]

theorem restoreGroups_originalRenderingGroups (l : List (Nat × Int)) (w : World) :
    (restoreGroups w l).originalRenderingGroups = w.originalRenderingGroups := by
  rw [restoreGroups_keep]

theorem restoreGroups_outlineColor (l : List (Nat × Int)) (w : World) :
    (restoreGroups w l).outlineColor = w.outlineColor := by
  rw [restoreGroups_keep]

theorem restoreGroups_outlineScale (l : List (Nat × Int)) (w : World) :
    (restoreGroups w l).outlineScale = w.outlineScale := by
  rw [restoreGroups_keep]

theorem restoreGroups_originalRenderingGroupId (l : List (Nat × Int)) (w : World) :
    (restoreGroups w l).originalRenderingGroupId = w.originalRenderingGroupId := by
  rw [restoreGroups_keep]

theorem restoreGroups_outlineRenderingGroupId (l : List (Nat × Int)) (w : World) :
    (restoreGroups w l).outlineRenderingGroupId = w.outlineRenderingGroupId := by
  rw [restoreGroups_keep]

theorem scaleMeshes_materials (k : ℚ) (l : List Nat) (w : World) :
    (scaleMeshes w k l).materials = w.materials := by
  rw [scaleMeshes_keep k]

theorem scaleMeshes_nextId (k : ℚ) (l : List Nat) (w : World) :
    (scaleMeshes w k l).nextId = w.nextId := by
  rw [scaleMeshes_keep k]

theorem scaleMeshes_currentSelectedMesh (k : ℚ) (l : List Nat) (w : World) :
    (scaleMeshes w k l).currentSelectedMesh = w.currentSelectedMesh := by
  rw [scaleMeshes_keep k]

theorem scaleMeshes_outlineMeshes (k : ℚ) (l : List Nat) (w : World) :
    (scaleMeshes w k l).outlineMeshes = w.outlineMeshes := by
  rw [scaleMeshes_keep k]

theorem scaleMeshes_outlineMaterials (k : ℚ) (l : List Nat) (w : World) :
    (scaleMeshes w k l).outlineMaterials = w.outlineMaterials := by
  rw [scaleMeshes_keep k]

theorem scaleMeshes_originalRenderingGroups (k : ℚ) (l : List Nat) (w : World) :
    (scaleMeshes w k l).originalRenderingGroups = w.originalRenderingGroups := by
  rw [scaleMeshes_keep k]

theorem scaleMeshes_outlineColor (k : ℚ) (l : List Nat) (w : World) :
    (scaleMeshes w k l).outlineColor = w.outlineColor := by
  rw [scaleMeshes_keep k]

theorem scaleMeshes_outlineScale (k : ℚ) (l : List Nat) (w : World) :
    (scaleMeshes w k l).outlineScale = w.outlineScale := by
  rw [scaleMeshes_keep k]

theorem scaleMeshes_originalRenderingGroupId (k : ℚ) (l : List Nat) (w : World) :
    (scaleMeshes w k l).originalRenderingGroupId = w.originalRenderingGroupId := by
  rw [scaleMeshes_keep k]

theorem scaleMeshes_outlineRenderingGroupId (k : ℚ) (l : List Nat) (w : World) :
    (scaleMeshes w k l).outlineRenderingGroupId = w.outlineRenderingGroupId := by
  rw [scaleMeshes_keep k]

theorem colorMaterials_nextId (c : Color3) (l : List Nat) (w : World) :
    (colorMaterials w c l).nextId = w.nextId := by
  rw [colorMaterials_keep c]

theorem colorMaterials_currentSelectedMesh (c : Color3) (l : List Nat) (w : World) :
    (colorMaterials w c l).currentSelectedMesh = w.currentSelectedMesh := by
  rw [colorMaterials_keep c]

theorem colorMaterials_outlineMeshes (c : Color3) (l : List Nat) (w : World) :
    (colorMaterials w c l).outlineMeshes = w.outlineMeshes := by
  rw [colorMaterials_keep c]

theorem colorMaterials_outlineMaterials (c : Color3) (l : List Nat) (w : World) :
    (colorMaterials w c l).outlineMaterials = w.outlineMaterials := by
  rw [colorMaterials_keep c]

theorem colorMaterials_originalRenderingGroups (c : Color3) (l : List Nat) (w : World) :
    (colorMaterials w c l).originalRenderingGroups = w.originalRenderingGroups := by
  rw [colorMaterials_keep c]

theorem colorMaterials_outlineColor (c : Color3) (l : List Nat) (w : World) :
    (colorMaterials w c l).outlineColor = w.outlineColor := by
  rw [colorMaterials_keep c]

theorem colorMaterials_outlineScale (c : Color3) (l : List Nat) (w : World) :
    (colorMaterials w c l).outlineScale = w.outlineScale := by
  rw [colorMaterials_keep c]

theorem colorMaterials_originalRenderingGroupId (c : Color3) (l : List Nat) (w : World) :
    (colorMaterials w c l).originalRenderingGroupId = w.originalRenderingGroupId := by
  rw [colorMaterials_keep c]

theorem colorMaterials_outlineRenderingGroupId (c : Color3) (l : List Nat) (w : World) :
    (colorMaterials w c l).outlineRenderingGroupId = w.outlineRenderingGroupId := by
  rw [colorMaterials_keep c]

theorem colorMaterials_meshes (c : Color3) (l : List Nat) (w : World) :
    (colorMaterials w c l).meshes = w.meshes := by
  rw [colorMaterials_keep c]

theorem findMesh_disposeMesh_ne {w : World} {i j : Nat} (h : i ≠ j) :
    (w.disposeMesh i).findMesh j = w.findMesh j :=
  findBy_removeBy_ne MeshObj.id h w.meshes

theorem findMesh_disposeMeshes : ∀ (l : List Nat) (w : World) {j : Nat}, j ∉ l →
    (disposeMeshes w l).findMesh j = w.findMesh j := by
  intro l
  induction l with
  | nil => intro w j _; rfl
  | cons i rest ih =>
    intro w j hj
    have hji : i ≠ j := fun h => hj (h ▸ List.mem_cons_self i rest)
    have hjr : j ∉ rest := fun h => hj (List.mem_cons_of_mem _ h)
    show (disposeMeshes (w.disposeMesh i) rest).findMesh j = w.findMesh j
    rw [ih _ hjr, findMesh_disposeMesh_ne hji]

theorem disposeMeshes_none : ∀ (l : List Nat) (w : World) {j : Nat},
    w.findMesh j = none → (disposeMeshes w l).findMesh j = none := by
  intro l
  induction l with
  | nil => intro w j h; exact h
  | cons i rest ih =>
    intro w j h
    show (disposeMeshes (w.disposeMesh i) rest).findMesh j = none
    apply ih
    by_cases hij : i = j
    · subst hij
      exact findBy_removeBy_self MeshObj.id i w.meshes
    · rw [findMesh_disposeMesh_ne hij]
      exact h

theorem findMesh_disposeMeshes_mem : ∀ (l : List Nat) (w : World) {j : Nat}, j ∈ l →
    (disposeMeshes w l).findMesh j = none := by
  intro l
  induction l with
  | nil => intro w j h; cases h
  | cons i rest ih =>
    intro w j hj
    show (disposeMeshes (w.disposeMesh i) rest).findMesh j = none
    rcases List.mem_cons.mp hj with h | h
    · subst h
      apply disposeMeshes_none
      exact findBy_removeBy_self MeshObj.id j w.meshes
    · exact ih _ h

theorem disposeMeshes_sublist : ∀ (l : List Nat) (w : World),
    List.Sublist (disposeMeshes w l).meshes w.meshes := by
  intro l
  induction l with
  | nil => intro w; exact List.Sublist.refl _
  | cons i rest ih =>
    intro w
    exact (ih (w.disposeMesh i)).trans (removeBy_sublist MeshObj.id i w.meshes)

theorem length_disposeMeshes : ∀ (l : List Nat) (w : World), l.Nodup →
    (∀ i ∈ l, (w.findMesh i).isSome) → (w.meshes.map MeshObj.id).Nodup →
    (disposeMeshes w l).meshes.length + l.length = w.meshes.length := by
  intro l
  induction l with
  | nil => intro w _ _ _; simp [disposeMeshes]
  | cons i rest ih =>
    intro w hnd hpres hidnd
    have hi : (w.findMesh i).isSome := hpres i (List.mem_cons_self _ _)
    obtain ⟨a, ha⟩ := Option.isSome_iff_exists.mp hi
    have hrem : (removeBy MeshObj.id i w.meshes).length + 1 = w.meshes.length :=
      length_removeBy_of_found MeshObj.id hidnd ha
    have hndr : rest.Nodup := (List.nodup_cons.mp hnd).2
    have hinr : i ∉ rest := (List.nodup_cons.mp hnd).1
    have hpres' : ∀ j ∈ rest, ((w.disposeMesh i).findMesh j).isSome := by
      intro j hj
      have hij : i ≠ j := fun h => hinr (h ▸ hj)
      rw [findMesh_disposeMesh_ne hij]
      exact hpres j (List.mem_cons_of_mem _ hj)
    have hidnd' : ((w.disposeMesh i).meshes.map MeshObj.id).Nodup :=
      hidnd.sublist (map_idOf_removeBy_sublist MeshObj.id i w.meshes)
    have := ih (w.disposeMesh i) hndr hpres' hidnd'
    have hlen : (w.disposeMesh i).meshes.length + 1 = w.meshes.length := hrem
    show (disposeMeshes (w.disposeMesh i) rest).meshes.length + (rest.length + 1)
      = w.meshes.length
    omega

theorem findMaterial_disposeMaterial_ne {w : World} {i j : Nat} (h : i ≠ j) :
    (w.disposeMaterial i).findMaterial j = w.findMaterial j :=
  findBy_removeBy_ne MaterialObj.id h w.materials

theorem disposeMaterials_sublist : ∀ (l : List Nat) (w : World),
    List.Sublist (disposeMaterials w l).materials w.materials := by
  intro l
  induction l with
  | nil => intro w; exact List.Sublist.refl _
  | cons i rest ih =>
    intro w
    exact (ih (w.disposeMaterial i)).trans (removeBy_sublist MaterialObj.id i w.materials)

theorem length_disposeMaterials : ∀ (l : List Nat) (w : World), l.Nodup →
    (∀ i ∈ l, (w.findMaterial i).isSome) → (w.materials.map MaterialObj.id).Nodup →
    (disposeMaterials w l).materials.length + l.length = w.materials.length := by
  intro l
  induction l with
  | nil => intro w _ _ _; simp [disposeMaterials]
  | cons i rest ih =>
    intro w hnd hpres hidnd
    have hi : (w.findMaterial i).isSome := hpres i (List.mem_cons_self _ _)
    obtain ⟨a, ha⟩ := Option.isSome_iff_exists.mp hi
    have hrem : (removeBy MaterialObj.id i w.materials).length + 1 = w.materials.length :=
      length_removeBy_of_found MaterialObj.id hidnd ha
    have hndr : rest.Nodup := (List.nodup_cons.mp hnd).2
    have hinr : i ∉ rest := (List.nodup_cons.mp hnd).1
    have hpres' : ∀ j ∈ rest, ((w.disposeMaterial i).findMaterial j).isSome := by
      intro j hj
      have hij : i ≠ j := fun h => hinr (h ▸ hj)
      rw [findMaterial_disposeMaterial_ne hij]
      exact hpres j (List.mem_cons_of_mem _ hj)
    have hidnd' : ((w.disposeMaterial i).materials.map MaterialObj.id).Nodup :=
      hidnd.sublist (map_idOf_removeBy_sublist MaterialObj.id i w.materials)
    have := ih (w.disposeMaterial i) hndr hpres' hidnd'
    have hlen : (w.disposeMaterial i).materials.length + 1 = w.materials.length := hrem
    show (disposeMaterials (w.disposeMaterial i) rest).materials.length + (rest.length + 1)
      = w.materials.length
    omega

theorem findMesh_updateMesh_self {w : World} {i : Nat} {f : MeshObj → MeshObj}
    (hf : ∀ m, (f m).id = m.id) :
    (w.updateMesh i f).findMesh i = (w.findMesh i).map f :=
  findBy_updateBy_self MeshObj.id hf i w.meshes

theorem findMesh_updateMesh_ne {w : World} {i j : Nat} {f : MeshObj → MeshObj}
    (hf : ∀ m, (f m).id = m.id) (hij : i ≠ j) :
    (w.updateMesh i f).findMesh j = w.findMesh j :=
  findBy_updateBy_ne MeshObj.id hf hij w.meshes

theorem length_restoreGroups : ∀ (l : List (Nat × Int)) (w : World),
    (restoreGroups w l).meshes.length = w.meshes.length := by
  intro l
  induction l with
  | nil => intro w; rfl
  | cons kv rest ih =>
    intro w
    rcases kv with ⟨k, g⟩
    show (restoreGroups w ((k, g) :: rest)).meshes.length = _
    rw [restoreGroups]
    cases hfind : w.findMesh k with
    | none => exact ih w
    | some m =>
      by_cases hm : isMesh m
      · simp only [hm, if_true]
        rw [ih]
        simp [World.updateMesh, length_updateBy]
      · simp only [hm, if_false]
        exact ih w

theorem restoreGroups_meshes_congr : ∀ (l : List (Nat × Int)) (w w' : World),
    w.meshes = w'.meshes → (restoreGroups w l).meshes = (restoreGroups w' l).meshes := by
  intro l
  induction l with
  | nil => intro w w' h; exact h
  | cons kv rest ih =>
    intro w w' h
    rcases kv with ⟨k, g⟩
    have hf : w.findMesh k = w'.findMesh k := by
      rw [World.findMesh, World.findMesh, h]
    show (restoreGroups w ((k, g) :: rest)).meshes = (restoreGroups w' ((k, g) :: rest)).meshes
    rw [restoreGroups, restoreGroups]
    cases hfind : w.findMesh k with
    | none =>
      have hfind' : w'.findMesh k = none := by rw [← hf]; exact hfind
      simp only [hfind, hfind']
      exact ih w w' h
    | some m =>
      have hfind' : w'.findMesh k = some m := by rw [← hf]; exact hfind
      simp only [hfind, hfind']
      by_cases hm : isMesh m
      · simp only [hm, if_true]
        apply ih
        simp only [World.updateMesh]
        rw [h]
      · simp only [hm, if_false]
        exact ih w w' h

theorem restoreGroups_single_found {w : World} {k : Nat} {g0 : Int} {m : MeshObj}
    (hfind : w.findMesh k = some m) (hm : isMesh m = true) :
    restoreGroups w [(k, g0)] =
      w.updateMesh k (fun mm => { mm with renderingGroupId := g0 }) := by
  show restoreGroups w ((k, g0) :: []) = _
  rw [restoreGroups, hfind]
  simp [hm, restoreGroups]

theorem findMesh_restoreGroups_nil (w : World) (j : Nat) :
    (restoreGroups w []).findMesh j = w.findMesh j := rfl

theorem findMesh_restoreGroups_single_found {w : World} {k : Nat} {g0 : Int} {m : MeshObj}
    (hfind : w.findMesh k = some m) (hm : isMesh m = true) (j : Nat) :
    (restoreGroups w [(k, g0)]).findMesh j =
      if j = k then (w.findMesh j).map (fun mm => { mm with renderingGroupId := g0 })
      else w.findMesh j := by
  rw [restoreGroups_single_found hfind hm]
  by_cases hjk : j = k
  · subst hjk
    rw [if_pos rfl]
    exact findMesh_updateMesh_self (fun m => rfl)
  · rw [if_neg hjk]
    exact findMesh_updateMesh_ne (fun m => rfl) (fun h => hjk h.symm)

theorem clear_outlineMeshes (w : World) : (clearOutline w).outlineMeshes = [] := by
  simp [clearOutline, restoreGroups_outlineMeshes, disposeMaterials_outlineMeshes]

theorem clear_outlineMaterials (w : World) : (clearOutline w).outlineMaterials = [] := by
  simp [clearOutline, restoreGroups_outlineMaterials]

theorem clear_map (w : World) : (clearOutline w).originalRenderingGroups = [] := by
  simp [clearOutline]

theorem clear_nextId (w : World) : (clearOutline w).nextId = w.nextId := by
  simp [clearOutline, restoreGroups_nextId, disposeMaterials_nextId, disposeMeshes_nextId]

theorem clear_sel (w : World) :
    (clearOutline w).currentSelectedMesh = w.currentSelectedMesh := by
  simp [clearOutline, restoreGroups_currentSelectedMesh,
    disposeMaterials_currentSelectedMesh, disposeMeshes_currentSelectedMesh]

theorem clear_color (w : World) : (clearOutline w).outlineColor = w.outlineColor := by
  simp [clearOutline, restoreGroups_outlineColor, disposeMaterials_outlineColor,
    disposeMeshes_outlineColor]

theorem clear_scale (w : World) : (clearOutline w).outlineScale = w.outlineScale := by
  simp [clearOutline, restoreGroups_outlineScale, disposeMaterials_outlineScale,
    disposeMeshes_outlineScale]

theorem clear_ogid (w : World) :
    (clearOutline w).originalRenderingGroupId = w.originalRenderingGroupId := by
  simp [clearOutline, restoreGroups_originalRenderingGroupId,
    disposeMaterials_originalRenderingGroupId, disposeMeshes_originalRenderingGroupId]

theorem clear_olid (w : World) :
    (clearOutline w).outlineRenderingGroupId = w.outlineRenderingGroupId := by
  simp [clearOutline, restoreGroups_outlineRenderingGroupId,
    disposeMaterials_outlineRenderingGroupId, disposeMeshes_outlineRenderingGroupId]

theorem disposeMaterials_materials_congr : ∀ (l : List Nat) (w w' : World),
    w.materials = w'.materials →
    (disposeMaterials w l).materials = (disposeMaterials w' l).materials := by
  intro l
  induction l with
  | nil => intro w w' h; exact h
  | cons i rest ih =>
    intro w w' h
    show (disposeMaterials (w.disposeMaterial i) rest).materials = _
    apply ih
    simp only [World.disposeMaterial]
    rw [h]

theorem clear_materials (w : World) :
    (clearOutline w).materials = (disposeMaterials w w.outlineMaterials).materials := by
  simp only [clearOutline]
  rw [restoreGroups_materials, disposeMeshes_outlineMaterials]
  apply disposeMaterials_materials_congr
  simp [disposeMeshes_materials]

theorem clear_meshes (w : World) :
    (clearOutline w).meshes =
      (restoreGroups
        { w with
            meshes := (disposeMeshes w w.outlineMeshes).meshes
            originalRenderingGroups := [] }
        w.originalRenderingGroups).meshes := by
  simp only [clearOutline]
  rw [disposeMaterials_originalRenderingGroups]
  simp only [disposeMeshes_originalRenderingGroups]
  apply restoreGroups_meshes_congr
  rw [disposeMaterials_meshes]

theorem restoreGroups_idmap : ∀ (l : List (Nat × Int)) (w : World),
    (restoreGroups w l).meshes.map MeshObj.id = w.meshes.map MeshObj.id := by
  intro l
  induction l with
  | nil => intro w; rfl
  | cons kv rest ih =>
    intro w
    rcases kv with ⟨k, g⟩
    show (restoreGroups w ((k, g) :: rest)).meshes.map MeshObj.id = _
    rw [restoreGroups]
    cases hfind : w.findMesh k with
    | none => exact ih w
    | some m =>
      by_cases hm : isMesh m
      · simp only [hm, if_true]
        rw [ih]
        simp only [World.updateMesh]
        apply map_idOf_updateBy
        intro a
        rfl
      · simp only [hm, if_false]
        exact ih w

theorem restoreGroups_mem : ∀ (l : List (Nat × Int)) (w : World) {m : MeshObj},
    m ∈ (restoreGroups w l).meshes → ∃ b ∈ w.meshes, m.id = b.id ∧
      m.lodLevels = b.lodLevels := by
  intro l
  induction l with
  | nil => intro w m hm; exact ⟨m, hm, rfl, rfl⟩
  | cons kv rest ih =>
    intro w m hm
    rcases kv with ⟨k, g⟩
    rw [show restoreGroups w ((k, g) :: rest) = (match w.findMesh k with
      | some mm =>
        if isMesh mm then
          restoreGroups (w.updateMesh k (fun x => { x with renderingGroupId := g })) rest
        else restoreGroups w rest
      | none => restoreGroups w rest) from rfl] at hm
    cases hfind : w.findMesh k with
    | none =>
      rw [hfind] at hm
      exact ih w hm
    | some mm =>
      rw [hfind] at hm
      by_cases hmm : isMesh mm
      · simp only [hmm, if_true] at hm
        obtain ⟨b, hb, hid, hlods⟩ := ih _ hm
        simp only [World.updateMesh] at hb
        rcases mem_updateBy MeshObj.id hb with hb' | ⟨c, hc, rfl⟩
        · exact ⟨b, hb', hid, hlods⟩
        · exact ⟨c, hc, hid, hlods⟩
      · simp only [hmm, if_false] at hm
        exact ih w hm

theorem clear_len_meshes {w : World} (hInv : Inv w) :
    (clearOutline w).meshes.length + w.outlineMeshes.length = w.meshes.length := by
  have h1 : (clearOutline w).meshes.length
      = (disposeMeshes w w.outlineMeshes).meshes.length := by
    rw [clear_meshes, length_restoreGroups]
  rw [h1]
  apply length_disposeMeshes _ _ hInv.dupNodup _ hInv.wf.nodupMesh
  intro i hi
  obtain ⟨d, hd, -⟩ := hInv.dupsOk i hi
  rw [hd]
  rfl

theorem clear_len_materials {w : World} (hInv : Inv w) :
    (clearOutline w).materials.length + w.outlineMaterials.length = w.materials.length := by
  have hnd : w.outlineMaterials.Nodup := by
    rw [hInv.matsEq]
    exact hInv.dupNodup.map (fun a b h => by omega)
  rw [clear_materials]
  apply length_disposeMaterials _ _ hnd _ hInv.wf.nodupMat
  intro i hi
  obtain ⟨mt, hmt⟩ := hInv.matsOk i hi
  rw [hmt]
  rfl

theorem clear_findMesh_eq (w : World) (j : Nat) :
    (clearOutline w).findMesh j =
      (restoreGroups
        { w with
            meshes := (disposeMeshes w w.outlineMeshes).meshes
            originalRenderingGroups := [] }
        w.originalRenderingGroups).findMesh j := by
  rw [World.findMesh, World.findMesh, clear_meshes]

theorem clear_findMesh_dup {w : World} (hInv : Inv w) {j : Nat}
    (hj : j ∈ w.outlineMeshes) :
    (clearOutline w).findMesh j = none := by
  rw [clear_findMesh_eq]
  have hD : (disposeMeshes w w.outlineMeshes).findMesh j = none :=
    findMesh_disposeMeshes_mem _ _ hj
  rcases hInv.mapSmall with hmap | ⟨k, g0, mk, hmap, hknd, hwk, hkm⟩
  · rw [hmap, findMesh_restoreGroups_nil]
    exact hD
  · have hkj : j ≠ k := fun h => hknd (h ▸ hj)
    have hSk : ({ w with
        meshes := (disposeMeshes w w.outlineMeshes).meshes
        originalRenderingGroups := [] } : World).findMesh k = some mk := by
      show (disposeMeshes w w.outlineMeshes).findMesh k = some mk
      rw [findMesh_disposeMeshes _ _ hknd]
      exact hwk
    rw [hmap, findMesh_restoreGroups_single_found hSk (by simp [isMesh, hkm]) j,
      if_neg hkj]
    exact hD

theorem clear_findMesh_other {w : World} (hInv : Inv w) {j : Nat}
    (hj : j ∉ w.outlineMeshes) (hk : ∀ kv ∈ w.originalRenderingGroups, kv.1 ≠ j) :
    (clearOutline w).findMesh j = w.findMesh j := by
  rw [clear_findMesh_eq]
  have hD : (disposeMeshes w w.outlineMeshes).findMesh j = w.findMesh j :=
    findMesh_disposeMeshes _ _ hj
  rcases hInv.mapSmall with hmap | ⟨k, g0, mk, hmap, hknd, hwk, hkm⟩
  · rw [hmap, findMesh_restoreGroups_nil]
    exact hD
  · have hkj : j ≠ k := by
      intro h
      exact hk (k, g0) (by rw [hmap]; exact List.mem_singleton_self _) (by rw [h])
    have hSk : ({ w with
        meshes := (disposeMeshes w w.outlineMeshes).meshes
        originalRenderingGroups := [] } : World).findMesh k = some mk := by
      show (disposeMeshes w w.outlineMeshes).findMesh k = some mk
      rw [findMesh_disposeMeshes _ _ hknd]
      exact hwk
    rw [hmap, findMesh_restoreGroups_single_found hSk (by simp [isMesh, hkm]) j,
      if_neg hkj]
    exact hD

theorem clear_findMesh_key {w : World} (hInv : Inv w) {k : Nat} {g0 : Int} {mk : MeshObj}
    (hmap : w.originalRenderingGroups = [(k, g0)]) (hknd : k ∉ w.outlineMeshes)
    (hwk : w.findMesh k = some mk) (hkm : mk.kind = NodeKind.mesh) :
    (clearOutline w).findMesh k = some { mk with renderingGroupId := g0 } := by
  rw [clear_findMesh_eq]
  have hSk : ({ w with
      meshes := (disposeMeshes w w.outlineMeshes).meshes
      originalRenderingGroups := [] } : World).findMesh k = some mk := by
    show (disposeMeshes w w.outlineMeshes).findMesh k = some mk
    rw [findMesh_disposeMeshes _ _ hknd]
    exact hwk
  rw [hmap, findMesh_restoreGroups_single_found hSk (by simp [isMesh, hkm]) k,
    if_pos rfl, hSk]
  rfl

theorem clear_wf {w : World} (hInv : Inv w) : WF (clearOutline w) := by
  have hmem : ∀ m ∈ (clearOutline w).meshes, ∃ b ∈ w.meshes, m.id = b.id ∧
      m.lodLevels = b.lodLevels := by
    intro m hm
    rw [clear_meshes] at hm
    obtain ⟨b, hb, hid, hlods⟩ := restoreGroups_mem _ _ hm
    have hb' : b ∈ w.meshes := (disposeMeshes_sublist w.outlineMeshes w).mem hb
    exact ⟨b, hb', hid, hlods⟩
  refine ⟨?_, ?_, ?_, ?_, ?_⟩
  · rw [clear_meshes, restoreGroups_idmap]
    exact hInv.wf.nodupMesh.sublist
      ((disposeMeshes_sublist w.outlineMeshes w).map MeshObj.id)
  · rw [clear_materials]
    exact hInv.wf.nodupMat.sublist
      ((disposeMaterials_sublist w.outlineMaterials w).map MaterialObj.id)
  · intro m hm
    obtain ⟨b, hb, hid, -⟩ := hmem m hm
    rw [clear_nextId, hid]
    exact hInv.wf.meshLt b hb
  · intro mt hmt
    rw [clear_materials] at hmt
    have hmt' : mt ∈ w.materials := (disposeMaterials_sublist w.outlineMaterials w).mem hmt
    rw [clear_nextId]
    exact hInv.wf.matLt mt hmt'
  · intro m hm l hl lid hlid
    obtain ⟨b, hb, -, hlods⟩ := hmem m hm
    rw [clear_nextId]
    rw [hlods] at hl
    exact hInv.wf.lodLt b hb l hl lid hlid

theorem clear_inv {w : World} (hInv : Inv w) : Inv (clearOutline w) := by
  refine ⟨clear_wf hInv, ?_, ?_, ?_, ?_, ?_, ?_, ?_⟩
  · rw [clear_outlineMeshes]
    exact List.nodup_nil
  · rw [clear_outlineMeshes, clear_outlineMaterials]
    rfl
  · rw [clear_outlineMeshes]
    intro oid h
    cases h
  · rw [clear_outlineMaterials]
    intro mid h
    cases h
  · rw [clear_outlineMeshes]
    intro h
    exact absurd rfl h
  · exact Or.inl (clear_map w)
  · rw [clear_ogid, clear_olid]
    exact hInv.gDist

theorem createOutline_failure {w : World} {t : Nat} {m : MeshObj}
    (hlt : ∀ mm ∈ w.meshes, mm.id < w.nextId)
    (hfind : w.findMesh t = some m) (hkind : m.kind = NodeKind.mesh)
    (hg : m.geometry = none) :
    createOutlineForMesh w t =
      { w with
          meshes := updateBy MeshObj.id t (groupSet w.originalRenderingGroupId) w.meshes
          originalRenderingGroups :=
            setMapEntry w.originalRenderingGroups t m.renderingGroupId
          nextId := w.nextId + 1 } := by
  have hinst : isInstancedMesh m = false := by simp [isInstancedMesh, hkind]
  have hmesh : isMesh m = true := by simp [isMesh, hkind]
  have hlt2 : ∀ mm ∈ ({ w with
      meshes := updateBy MeshObj.id t (groupSet w.originalRenderingGroupId) w.meshes
      originalRenderingGroups :=
        setMapEntry w.originalRenderingGroups t m.renderingGroupId } : World).meshes,
      mm.id < ({ w with
      meshes := updateBy MeshObj.id t (groupSet w.originalRenderingGroupId) w.meshes
      originalRenderingGroups :=
        setMapEntry w.originalRenderingGroups t m.renderingGroupId } : World).nextId := by
    intro mm hmm
    rcases mem_updateBy MeshObj.id hmm with h | ⟨b, hb, rfl⟩
    · exact hlt mm h
    · show (groupSet w.originalRenderingGroupId b).id < w.nextId
      rw [groupSet_id]
      exact hlt b hb
  have hf2 : ({ w with
      meshes := updateBy MeshObj.id t (groupSet w.originalRenderingGroupId) w.meshes
      originalRenderingGroups :=
        setMapEntry w.originalRenderingGroups t m.renderingGroupId } : World).findMesh t
      = some (groupSet w.originalRenderingGroupId m) := by
    show findBy MeshObj.id
      (updateBy MeshObj.id t (groupSet w.originalRenderingGroupId) w.meshes) t = _
    rw [findBy_updateBy_self MeshObj.id (groupSet_id _) t,
      show findBy MeshObj.id w.meshes t = some m from hfind]
    rfl
  have hg2 : (groupSet w.originalRenderingGroupId m).geometry = none := hg
  simp only [createOutlineForMesh, hfind, hinst, hmesh, Bool.false_eq_true, if_false,
    if_true, World.updateMesh]
  rw [← groupSet_eta w.originalRenderingGroupId]
  rw [createMesh_failure hlt2 hf2 hg2]

theorem createOutline_success {w : World} {t : Nat} {m : MeshObj} {g : Geometry}
    (hlt : ∀ mm ∈ w.meshes, mm.id < w.nextId)
    (hfind : w.findMesh t = some m) (hkind : m.kind = NodeKind.mesh)
    (hg : m.geometry = some g) :
    createOutlineForMesh w t =
      processLods
        (lodStepResult
          { w with
              meshes := updateBy MeshObj.id t (groupSet w.originalRenderingGroupId) w.meshes
              originalRenderingGroups :=
                setMapEntry w.originalRenderingGroups t m.renderingGroupId }
          t (groupSet w.originalRenderingGroupId m) g)
        m.lodLevels := by
  have hinst : isInstancedMesh m = false := by simp [isInstancedMesh, hkind]
  have hmesh : isMesh m = true := by simp [isMesh, hkind]
  have hlt2 : ∀ mm ∈ ({ w with
      meshes := updateBy MeshObj.id t (groupSet w.originalRenderingGroupId) w.meshes
      originalRenderingGroups :=
        setMapEntry w.originalRenderingGroups t m.renderingGroupId } : World).meshes,
      mm.id < ({ w with
      meshes := updateBy MeshObj.id t (groupSet w.originalRenderingGroupId) w.meshes
      originalRenderingGroups :=
        setMapEntry w.originalRenderingGroups t m.renderingGroupId } : World).nextId := by
    intro mm hmm
    rcases mem_updateBy MeshObj.id hmm with h | ⟨b, hb, rfl⟩
    · exact hlt mm h
    · show (groupSet w.originalRenderingGroupId b).id < w.nextId
      rw [groupSet_id]
      exact hlt b hb
  have hf2 : ({ w with
      meshes := updateBy MeshObj.id t (groupSet w.originalRenderingGroupId) w.meshes
      originalRenderingGroups :=
        setMapEntry w.originalRenderingGroups t m.renderingGroupId } : World).findMesh t
      = some (groupSet w.originalRenderingGroupId m) := by
    show findBy MeshObj.id
      (updateBy MeshObj.id t (groupSet w.originalRenderingGroupId) w.meshes) t = _
    rw [findBy_updateBy_self MeshObj.id (groupSet_id _) t,
      show findBy MeshObj.id w.meshes t = some m from hfind]
    rfl
  have hg2 : (groupSet w.originalRenderingGroupId m).geometry = some g := hg
  have hnone2 : findBy MeshObj.id
      (updateBy MeshObj.id t (groupSet w.originalRenderingGroupId) w.meshes) w.nextId
      = none := by
    rw [findBy_eq_none]
    intro a ha
    rcases mem_updateBy MeshObj.id ha with h | ⟨b, hb, rfl⟩
    · exact Nat.ne_of_lt (hlt a h)
    · rw [groupSet_id]
      exact Nat.ne_of_lt (hlt b hb)
  have hcoll : updateBy MeshObj.id t (groupSet w.originalRenderingGroupId)
      (updateBy MeshObj.id t (groupSet w.originalRenderingGroupId) w.meshes)
      = updateBy MeshObj.id t (groupSet w.originalRenderingGroupId) w.meshes := by
    rw [updateBy_updateBy MeshObj.id (groupSet_id _)]
    congr 1
  have hlid : t < w.nextId := by
    have hmem := mem_of_findBy MeshObj.id hfind
    have hid := findBy_id MeshObj.id hfind
    rw [← hid]
    exact hlt m hmem
  have hne : ¬ (w.nextId = t) := fun h => absurd h.symm (Nat.ne_of_lt hlid)
  simp only [createOutlineForMesh, hfind, hinst, hmesh, Bool.false_eq_true, if_false,
    if_true, World.updateMesh]
  rw [← groupSet_eta w.originalRenderingGroupId]
  simp only [createMesh_success hlt2 hf2 hg2]
  rw [configure_spec]
  simp only [World.updateMesh]
  rw [updateBy_append MeshObj.id w.nextId]
  rw [updateBy_of_none MeshObj.id _ hnone2]
  congr 1
  simp [World.mk.injEq, lodStepResult, updateBy, configuredDup, dupRecord, finalDupRecord,
    groupSet_eta, outlineMatRecord, hne, hcoll]
  rw [← groupSet_eta w.originalRenderingGroupId]
  exact hcoll.symm

/-- Lookup stability: between two states the record of id `j` is unchanged
except possibly for its rendering group. -/
def StableTo (w r : World) (j : Nat) : Prop :=
  r.findMesh j = w.findMesh j ∨
  ∃ mj gid, w.findMesh j = some mj ∧ r.findMesh j = some (groupSet gid mj)

theorem stableTo_refl (w : World) (j : Nat) : StableTo w w j := Or.inl rfl

theorem stableTo_trans {w w' r : World} {j : Nat}
    (h1 : StableTo w w' j) (h2 : StableTo w' r j) : StableTo w r j := by
  rcases h1 with h1 | ⟨m1, g1, hm1, h1⟩
  · rcases h2 with h2 | ⟨m2, g2, hm2, h2⟩
    · exact Or.inl (by rw [h2, h1])
    · exact Or.inr ⟨m2, g2, h1 ▸ hm2, h2⟩
  · rcases h2 with h2 | ⟨m2, g2, hm2, h2⟩
    · exact Or.inr ⟨m1, g1, hm1, h2.trans h1⟩
    · right
      refine ⟨m1, g2, hm1, ?_⟩
      rw [h1] at hm2
      have hm2' : m2 = groupSet g1 m1 := by injection hm2.symm
      rw [h2, hm2']
      rfl

theorem stableTo_of_fixed {w r : World} {gid : Int} {j : Nat}
    (h : r.findMesh j = w.findMesh j ∨
      ∃ mj, w.findMesh j = some mj ∧ r.findMesh j = some (groupSet gid mj)) :
    StableTo w r j := by
  rcases h with h | ⟨mj, hmj, h⟩
  · exact Or.inl h
  · exact Or.inr ⟨mj, gid, hmj, h⟩

theorem validSrc_stableTo {w r : World} {j : Nat} (h : StableTo w r j) :
    validSrc r j = validSrc w j := by
  rcases h with h | ⟨mj, gid, hmj, h⟩
  · rw [validSrc, validSrc, h]
  · rw [validSrc, validSrc, h, hmj]
    rfl

theorem stableTo_found {w r : World} {j : Nat} {mj : MeshObj} (h : StableTo w r j)
    (hmj : w.findMesh j = some mj) :
    ∃ mj2, r.findMesh j = some mj2 ∧ mj2.kind = mj.kind ∧ mj2.geometry = mj.geometry ∧
      mj2.lodLevels = mj.lodLevels ∧ mj2.id = mj.id := by
  rcases h with h | ⟨m1, gid, hm1, h⟩
  · exact ⟨mj, h.trans hmj, rfl, rfl, rfl, rfl⟩
  · rw [hmj] at hm1
    have : m1 = mj := by
      injection hm1 with hh
      exact hh.symm
    subst this
    exact ⟨groupSet gid m1, h, rfl, rfl, rfl, rfl⟩

theorem cntValid_stableTo {w r : World} :
    ∀ {lods : List (Option Nat)},
      (∀ lid, some lid ∈ lods → StableTo w r lid) →
      cntValid r lods = cntValid w lods := by
  intro lods h
  exact cntValid_congr (fun lid hl => validSrc_stableTo (h lid hl))

theorem clear_stableTo {w : World} (hInv : Inv w) {j : Nat}
    (hj : j ∉ w.outlineMeshes) : StableTo w (clearOutline w) j := by
  rcases hInv.mapSmall with hmap0 | ⟨k, g0, mk, hmap, hknd, hwk, hkm⟩
  · left
    exact clear_findMesh_other hInv hj (by rw [hmap0]; intro kv h; cases h)
  · by_cases hjk : j = k
    · subst hjk
      right
      exact ⟨mk, g0, hwk, by
        rw [clear_findMesh_key hInv hmap hknd hwk hkm]
        rfl⟩
    · left
      apply clear_findMesh_other hInv hj
      rw [hmap]
      intro kv hkv
      have hkv' : kv = (k, g0) := List.mem_singleton.mp hkv
      rw [hkv']
      exact fun h => hjk h.symm

/-- What `_createOutlineForMesh` guarantees when invoked (as it always is)
right after `_clearOutline`, on a plain mesh `mc` with geometry. -/
structure CreatePost (c : World) (t : Nat) (mc : MeshObj) (r : World) : Prop where
  pre : LoopPre c.nextId (fun p => p = t ∨ some p ∈ mc.lodLevels) r
  sel : r.currentSelectedMesh = c.currentSelectedMesh
  findT : r.findMesh t = some { mc with renderingGroupId := c.originalRenderingGroupId }
  dupsShape : ∃ fr, r.outlineMeshes = c.nextId :: fr
  lenDup : r.outlineMeshes.length = 1 + cntValid c mc.lodLevels
  lenMesh : r.meshes.length = c.meshes.length + (1 + cntValid c mc.lodLevels)
  lenMat : r.materials.length = c.materials.length + (1 + cntValid c mc.lodLevels)
  mapEq : r.originalRenderingGroups = [(t, mc.renderingGroupId)]
  stable : ∀ j, j < c.nextId → StableTo c r j
  lodsDone : ∀ lid lm2, some lid ∈ mc.lodLevels → c.findMesh lid = some lm2 →
    lm2.kind = NodeKind.mesh → lm2.geometry.isSome = true →
    r.findMesh lid = some (groupSet c.originalRenderingGroupId lm2)
  colorEq : r.outlineColor = c.outlineColor
  scaleEq : r.outlineScale = c.outlineScale
  ogidEq : r.originalRenderingGroupId = c.originalRenderingGroupId
  olidEq : r.outlineRenderingGroupId = c.outlineRenderingGroupId
  nextGt : c.nextId < r.nextId

theorem createOutline_post {c : World} {t : Nat} {mc : MeshObj} {g : Geometry}
    (hInvC : Inv c) (hcm : c.outlineMeshes = []) (hcmat : c.outlineMaterials = [])
    (hcmap : c.originalRenderingGroups = [])
    (hfind : c.findMesh t = some mc) (hkind : mc.kind = NodeKind.mesh)
    (hg : mc.geometry = some g)
    (hlods : ∀ lid, some lid ∈ mc.lodLevels → lid < c.nextId) :
    CreatePost c t mc (createOutlineForMesh c t) := by
  have hlt := hInvC.wf.meshLt
  have htlt : t < c.nextId := by
    rw [← findBy_id MeshObj.id hfind]
    exact hlt mc (mem_of_findBy MeshObj.id hfind)
  have hcreate := createOutline_success hlt hfind hkind hg
  rw [hcmap] at hcreate
  simp only [setMapEntry] at hcreate
  have hltB : ∀ mm ∈ updateBy MeshObj.id t (groupSet c.originalRenderingGroupId) c.meshes,
      mm.id < c.nextId := by
    intro mm hmm
    rcases mem_updateBy MeshObj.id hmm with h | ⟨b, hb, rfl⟩
    · exact hlt mm h
    · rw [groupSet_id]
      exact hlt b hb
  have hpreB : LoopPre c.nextId (fun p => p = t ∨ some p ∈ mc.lodLevels)
      { c with
          meshes := updateBy MeshObj.id t (groupSet c.originalRenderingGroupId) c.meshes
          originalRenderingGroups := [(t, mc.renderingGroupId)] } := by
    refine ⟨⟨?_, hInvC.wf.nodupMat, hltB, hInvC.wf.matLt, ?_⟩, le_refl _, ?_, ?_, ?_, ?_, ?_⟩
    · show (List.map MeshObj.id
        (updateBy MeshObj.id t (groupSet c.originalRenderingGroupId) c.meshes)).Nodup
      rw [map_idOf_updateBy MeshObj.id (groupSet_id _)]
      exact hInvC.wf.nodupMesh
    · intro mm hmm l hl lid hlid
      rcases mem_updateBy MeshObj.id hmm with h | ⟨b, hb, rfl⟩
      · exact hInvC.wf.lodLt mm h l hl lid hlid
      · exact hInvC.wf.lodLt b hb l hl lid hlid
    · show c.outlineMeshes.Nodup
      rw [hcm]
      exact List.nodup_nil
    · show c.outlineMaterials = c.outlineMeshes.map (fun i => i + 1)
      rw [hcm, hcmat]
      rfl
    · show ∀ oid ∈ c.outlineMeshes, _
      rw [hcm]
      intro oid h
      cases h
    · show ∀ oid ∈ c.outlineMeshes, _
      rw [hcm]
      intro oid h
      cases h
    · show ∀ mid ∈ c.outlineMaterials, _
      rw [hcmat]
      intro mid h
      cases h
  have hfindB : ({ c with
      meshes := updateBy MeshObj.id t (groupSet c.originalRenderingGroupId) c.meshes
      originalRenderingGroups := [(t, mc.renderingGroupId)] } : World).findMesh t
      = some (groupSet c.originalRenderingGroupId mc) := by
    show findBy MeshObj.id
      (updateBy MeshObj.id t (groupSet c.originalRenderingGroupId) c.meshes) t = _
    rw [findBy_updateBy_self MeshObj.id (groupSet_id _) t,
      show findBy MeshObj.id c.meshes t = some mc from hfind]
    rfl
  have hkindB : (groupSet c.originalRenderingGroupId mc).kind = NodeKind.mesh := hkind
  have hpreE := lodStep_pre hpreB htlt (Or.inl rfl) hfindB
    (by simp [isMesh, hkindB]) (show (groupSet c.originalRenderingGroupId mc).geometry
      = some g from hg)
  have hl : ∀ lid, some lid ∈ mc.lodLevels →
      lid < c.nextId ∧ (lid = t ∨ some lid ∈ mc.lodLevels) :=
    fun lid hmem => ⟨hlods lid hmem, Or.inr hmem⟩
  have hmaster := processLods_master mc.lodLevels _ hpreE hl
  rw [hcreate]
  have hEstable : ∀ j, j < c.nextId → StableTo c
      (lodStepResult { c with
          meshes := updateBy MeshObj.id t (groupSet c.originalRenderingGroupId) c.meshes
          originalRenderingGroups := [(t, mc.renderingGroupId)] }
        t (groupSet c.originalRenderingGroupId mc) g) j := by
    intro j hj
    have h1 : StableTo c ({ c with
        meshes := updateBy MeshObj.id t (groupSet c.originalRenderingGroupId) c.meshes
        originalRenderingGroups := [(t, mc.renderingGroupId)] } : World) j := by
      by_cases hjt : j = t
      · subst hjt
        cases hcf : c.findMesh j with
        | none =>
          left
          show findBy MeshObj.id
            (updateBy MeshObj.id j (groupSet c.originalRenderingGroupId) c.meshes) j = _
          rw [findBy_updateBy_self MeshObj.id (groupSet_id _) j]
          rw [show findBy MeshObj.id c.meshes j = none from hcf, hcf]
          rfl
        | some mj =>
          right
          refine ⟨mj, c.originalRenderingGroupId, hcf, ?_⟩
          show findBy MeshObj.id
            (updateBy MeshObj.id j (groupSet c.originalRenderingGroupId) c.meshes) j = _
          rw [findBy_updateBy_self MeshObj.id (groupSet_id _) j,
            show findBy MeshObj.id c.meshes j = some mj from hcf]
          rfl
      · left
        show findBy MeshObj.id
          (updateBy MeshObj.id t (groupSet c.originalRenderingGroupId) c.meshes) j = _
        exact findBy_updateBy_ne MeshObj.id (groupSet_id _) (fun h => hjt h.symm) c.meshes
    have h2 := stableTo_of_fixed (lodStep_stable g hltB hfindB hj)
    exact stableTo_trans h1 h2
  have hcntE : cntValid
      (lodStepResult { c with
          meshes := updateBy MeshObj.id t (groupSet c.originalRenderingGroupId) c.meshes
          originalRenderingGroups := [(t, mc.renderingGroupId)] }
        t (groupSet c.originalRenderingGroupId mc) g) mc.lodLevels
      = cntValid c mc.lodLevels :=
    cntValid_stableTo (fun lid hmem => hEstable lid (hlods lid hmem))
  have hEdups : (lodStepResult { c with
      meshes := updateBy MeshObj.id t (groupSet c.originalRenderingGroupId) c.meshes
      originalRenderingGroups := [(t, mc.renderingGroupId)] }
      t (groupSet c.originalRenderingGroupId mc) g).outlineMeshes = [c.nextId] := by
    show c.outlineMeshes ++ [c.nextId] = [c.nextId]
    rw [hcm]
    rfl
  have hltB2 : ∀ mm ∈ ({ c with
      meshes := updateBy MeshObj.id t (groupSet c.originalRenderingGroupId) c.meshes
      originalRenderingGroups := [(t, mc.renderingGroupId)] } : World).meshes,
      mm.id < ({ c with
      meshes := updateBy MeshObj.id t (groupSet c.originalRenderingGroupId) c.meshes
      originalRenderingGroups := [(t, mc.renderingGroupId)] } : World).nextId := hltB
  have hEfindT : (lodStepResult { c with
      meshes := updateBy MeshObj.id t (groupSet c.originalRenderingGroupId) c.meshes
      originalRenderingGroups := [(t, mc.renderingGroupId)] }
      t (groupSet c.originalRenderingGroupId mc) g).findMesh t
      = some (groupSet c.originalRenderingGroupId mc) := by
    rw [lodStep_findMesh_lt hltB2 (Nat.ne_of_lt htlt), if_pos rfl, hfindB]
    rfl
  refine ⟨hmaster.post, ?_, ?_, ?_, ?_, ?_, ?_, ?_, ?_, ?_, ?_, ?_, ?_, ?_, ?_⟩
  · rw [hmaster.selEq]
    rfl
  · rcases hmaster.stable t htlt with hs | ⟨mj, hmj, hs⟩
    · rw [hs, hEfindT]
      rfl
    · rw [hEfindT] at hmj
      have hmj' : mj = groupSet c.originalRenderingGroupId mc := by
        injection hmj.symm
      rw [hs, hmj']
      rfl
  · obtain ⟨fr, h1, h2⟩ := hmaster.dupExt
    rw [hEdups] at h1
    exact ⟨fr, h1⟩
  · have h := hmaster.lenDup
    rw [hEdups, hcntE] at h
    simpa using h
  · have h := hmaster.lenMesh
    rw [hcntE, lodStep_meshes_len] at h
    have h2 : (updateBy MeshObj.id t (groupSet c.originalRenderingGroupId) c.meshes).length
        = c.meshes.length := length_updateBy MeshObj.id t _ c.meshes
    simp only [h2] at h
    omega
  · have h := hmaster.lenMat
    rw [hcntE, lodStep_materials_len] at h
    have h2 : ({ c with
        meshes := updateBy MeshObj.id t (groupSet c.originalRenderingGroupId) c.meshes
        originalRenderingGroups := [(t, mc.renderingGroupId)] } : World).materials.length
        = c.materials.length := rfl
    rw [h2] at h
    omega
  · rw [hmaster.mapEq]
    rfl
  · intro j hj
    exact stableTo_trans (hEstable j hj)
      (stableTo_of_fixed (hmaster.stable j hj))
  · intro lid lm2 hmem hfind2 hkind2 hgeom2
    have hvalc : validSrc c lid = true := by
      rw [validSrc, hfind2]
      simp [isMesh, hkind2, hgeom2]
    have hvalE : validSrc (lodStepResult { c with
        meshes := updateBy MeshObj.id t (groupSet c.originalRenderingGroupId) c.meshes
        originalRenderingGroups := [(t, mc.renderingGroupId)] }
        t (groupSet c.originalRenderingGroupId mc) g) lid = true := by
      rw [validSrc_stableTo (hEstable lid (hlods lid hmem))]
      exact hvalc
    obtain ⟨mjE, hEth, hrth⟩ := hmaster.lodDone lid hmem hvalE
    rcases hEstable lid (hlods lid hmem) with hs | ⟨m1, gid, hm1, hs⟩
    · rw [hs, hfind2] at hEth
      have : mjE = lm2 := by injection hEth.symm
      rw [hrth, this]
      rfl
    · rw [hfind2] at hm1
      have hm1' : m1 = lm2 := by
        injection hm1 with hh
        exact hh.symm
      subst hm1'
      rw [hs] at hEth
      have : mjE = groupSet gid m1 := by injection hEth.symm
      rw [hrth, this]
      rfl
  · rw [hmaster.colorEq]
    rfl
  · rw [hmaster.scaleEq]
    rfl
  · rw [hmaster.ogidEq]
    rfl
  · rw [hmaster.olidEq]
    rfl
  · have h := hmaster.nextGe
    have h2 : (lodStepResult { c with
        meshes := updateBy MeshObj.id t (groupSet c.originalRenderingGroupId) c.meshes
        originalRenderingGroups := [(t, mc.renderingGroupId)] }
        t (groupSet c.originalRenderingGroupId mc) g).nextId = c.nextId + 2 := rfl
    omega

/-- State with only the `currentSelectedMesh` slot replaced (the final
assignment of `setOutlineMesh`). -/
def withSel (w : World) (s : Option Nat) : World :=
  { w with currentSelectedMesh := s }

theorem WF_sel {w : World} (s : Option Nat) (h : WF w) : WF (withSel w s) :=
  ⟨h.nodupMesh, h.nodupMat, h.meshLt, h.matLt, h.lodLt⟩

/-- What one `setOutlineMesh` call with a valid plain-mesh target guarantees,
relative to the state `w` before the call. -/
structure SetPost (w : World) (t : Nat) (m : MeshObj) (r : World) : Prop where
  inv : Inv r
  sel : r.currentSelectedMesh = some t
  findT : r.findMesh t = some { m with renderingGroupId := w.originalRenderingGroupId }
  dupsShape : ∃ fr, r.outlineMeshes = w.nextId :: fr
  lenDup : r.outlineMeshes.length = 1 + cntValid w m.lodLevels
  lenMesh : r.meshes.length + w.outlineMeshes.length
    = w.meshes.length + (1 + cntValid w m.lodLevels)
  lenMat : r.materials.length + w.outlineMaterials.length
    = w.materials.length + (1 + cntValid w m.lodLevels)
  dupFresh : ∀ oid ∈ r.outlineMeshes, w.nextId ≤ oid
  dups : ∀ oid ∈ r.outlineMeshes,
    DupFull w.nextId (fun p => p = t ∨ some p ∈ m.lodLevels) r oid
  mapSpec : ∃ gr, r.originalRenderingGroups = [(t, gr)] ∧
    (w.originalRenderingGroups = [] → gr = m.renderingGroupId)
  stable : ∀ j, j < w.nextId → j ∉ w.outlineMeshes → StableTo w r j
  lodsDone : ∀ lid lm2, some lid ∈ m.lodLevels → w.findMesh lid = some lm2 →
    lm2.kind = NodeKind.mesh → lm2.geometry.isSome = true →
    r.findMesh lid = some (groupSet w.originalRenderingGroupId lm2)
  colorEq : r.outlineColor = w.outlineColor
  scaleEq : r.outlineScale = w.outlineScale
  ogidEq : r.originalRenderingGroupId = w.originalRenderingGroupId
  olidEq : r.outlineRenderingGroupId = w.outlineRenderingGroupId
  nextGt : w.nextId < r.nextId

theorem setOutline_spec {w : World} {t : Nat} {m : MeshObj} {g : Geometry}
    (hInv : Inv w) (hfind : w.findMesh t = some m) (hkind : m.kind = NodeKind.mesh)
    (hg : m.geometry = some g) (hnd : t ∉ w.outlineMeshes)
    (hlodsnd : ∀ lid, some lid ∈ m.lodLevels → lid ∉ w.outlineMeshes) :
    SetPost w t m (setOutlineMesh w (some t)) := by
  have hInvC : Inv (clearOutline w) := clear_inv hInv
  have hstabC : StableTo w (clearOutline w) t := clear_stableTo hInv hnd
  obtain ⟨mc, hcFind, hcKind, hcGeom, hcLods, hcId⟩ := stableTo_found hstabC hfind
  have hmcShape : mc = m ∨ ∃ gid, mc = groupSet gid m := by
    rcases hstabC with hs | ⟨m1, gid, hm1, hs⟩
    · rw [hs, hfind] at hcFind
      exact Or.inl (by injection hcFind.symm)
    · rw [hfind] at hm1
      have hm1' : m1 = m := by
        injection hm1 with hh
        exact hh.symm
      subst hm1'
      rw [hs] at hcFind
      right
      exact ⟨gid, by injection hcFind.symm⟩
  have hkmc : mc.kind = NodeKind.mesh := by rw [hcKind]; exact hkind
  have hgmc : mc.geometry = some g := by rw [hcGeom]; exact hg
  have hmeshmc : isMesh mc = true := by simp [isMesh, hkmc]
  have htltw : t < w.nextId := by
    rw [← findBy_id MeshObj.id hfind]
    exact hInv.wf.meshLt m (mem_of_findBy MeshObj.id hfind)
  have hlodltw : ∀ lid, some lid ∈ m.lodLevels → lid < w.nextId := by
    intro lid hmem
    exact hInv.wf.lodLt m (mem_of_findBy MeshObj.id hfind) (some lid) hmem lid rfl
  have hlodsC : ∀ lid, some lid ∈ mc.lodLevels → lid < (clearOutline w).nextId := by
    intro lid hmem
    rw [hcLods] at hmem
    rw [clear_nextId]
    exact hlodltw lid hmem
  have hpost := createOutline_post hInvC (clear_outlineMeshes w) (clear_outlineMaterials w)
    (clear_map w) hcFind hkmc hgmc hlodsC
  have hr : setOutlineMesh w (some t) =
      withSel (createOutlineForMesh (clearOutline w) t) (some t) := by
    simp [setOutlineMesh, hcFind, hmeshmc, withSel]
  have hcnt : cntValid (clearOutline w) mc.lodLevels = cntValid w m.lodLevels := by
    rw [hcLods]
    exact cntValid_stableTo (fun lid hmem => clear_stableTo hInv (hlodsnd lid hmem))
  have hmcgroup : ∀ x : Int, { mc with renderingGroupId := x }
      = { m with renderingGroupId := x } := by
    intro x
    rcases hmcShape with h | ⟨gid, h⟩
    · rw [h]
    · rw [h]
      rfl
  have hfindT0 : (createOutlineForMesh (clearOutline w) t).findMesh t
      = some { m with renderingGroupId := w.originalRenderingGroupId } := by
    rw [hpost.findT, clear_ogid, hmcgroup]
  have hstabFull : ∀ j, j < w.nextId → j ∉ w.outlineMeshes →
      StableTo w (createOutlineForMesh (clearOutline w) t) j := by
    intro j hj hjnd
    refine stableTo_trans (clear_stableTo hInv hjnd) (hpost.stable j ?_)
    rw [clear_nextId]
    exact hj
  have hdupFresh0 : ∀ oid ∈ (createOutlineForMesh (clearOutline w) t).outlineMeshes,
      w.nextId ≤ oid := by
    intro oid hmem
    have h := hpost.pre.dupFresh oid hmem
    rw [clear_nextId] at h
    exact h
  rw [hr]
  refine ⟨?_, rfl, ?_, ?_, ?_, ?_, ?_, ?_, ?_, ?_, ?_, ?_, ?_, ?_, ?_, ?_, ?_⟩
  · -- Inv of the final state
    refine ⟨WF_sel (some t) hpost.pre.wf, hpost.pre.dupNodup, hpost.pre.matsEq, ?_,
      hpost.pre.matsOk, ?_, ?_, ?_⟩
    · intro oid hmem
      obtain ⟨d, hd, hgrp, hpick, hcol, hsh, hsync, hkd, hlods2, hmat,
        p, srcm, gg, hpar, hPAp, hpN, hsrc, hsk, hdg, hsg⟩ := hpost.pre.dups oid hmem
      refine ⟨d, hd, hgrp, hpick, hcol, hsh, hsync, hkd, hlods2, hmat, p, hpar, ?_⟩
      intro hpdup
      have h1 := hpost.pre.dupFresh p hpdup
      omega
    · intro _
      refine ⟨t, { m with renderingGroupId := w.originalRenderingGroupId }, rfl,
        hfindT0, ?_, hkind, ?_⟩
      · show w.originalRenderingGroupId
          = (createOutlineForMesh (clearOutline w) t).originalRenderingGroupId
        rw [hpost.ogidEq, clear_ogid]
      · intro hmem
        have h := hdupFresh0 t hmem
        omega
    · right
      refine ⟨t, mc.renderingGroupId, { m with renderingGroupId := w.originalRenderingGroupId },
        hpost.mapEq, ?_, hfindT0, hkind⟩
      intro hmem
      have h := hdupFresh0 t hmem
      omega
    · show (createOutlineForMesh (clearOutline w) t).outlineRenderingGroupId
        ≠ (createOutlineForMesh (clearOutline w) t).originalRenderingGroupId
      rw [hpost.ogidEq, hpost.olidEq, clear_ogid, clear_olid]
      exact hInv.gDist
  · exact hfindT0
  · obtain ⟨fr, h⟩ := hpost.dupsShape
    rw [clear_nextId] at h
    exact ⟨fr, h⟩
  · show (createOutlineForMesh (clearOutline w) t).outlineMeshes.length
      = 1 + cntValid w m.lodLevels
    rw [hpost.lenDup, hcnt]
  · show (createOutlineForMesh (clearOutline w) t).meshes.length + w.outlineMeshes.length
      = w.meshes.length + (1 + cntValid w m.lodLevels)
    have h := hpost.lenMesh
    rw [hcnt] at h
    have h2 := clear_len_meshes hInv
    omega
  · show (createOutlineForMesh (clearOutline w) t).materials.length
        + w.outlineMaterials.length
      = w.materials.length + (1 + cntValid w m.lodLevels)
    have h := hpost.lenMat
    rw [hcnt] at h
    have h2 := clear_len_materials hInv
    omega
  · exact hdupFresh0
  · intro oid hmem
    obtain ⟨d, hd, hgrp, hpick, hcol, hsh, hsync, hkd, hlods2, hmat,
      p, srcm, gg, hpar, hPAp, hpN, hsrc, hsk, hdg, hsg⟩ := hpost.pre.dups oid hmem
    refine ⟨d, hd, hgrp, hpick, hcol, hsh, hsync, hkd, hlods2, hmat,
      p, srcm, gg, hpar, ?_, ?_, hsrc, hsk, hdg, hsg⟩
    · rcases hPAp with h | h
      · exact Or.inl h
      · rw [hcLods] at h
        exact Or.inr h
    · rw [clear_nextId] at hpN
      exact hpN
  · refine ⟨mc.renderingGroupId, hpost.mapEq, ?_⟩
    intro hmap0
    have hcf : (clearOutline w).findMesh t = w.findMesh t :=
      clear_findMesh_other hInv hnd (by rw [hmap0]; intro kv h; cases h)
    rw [hcf, hfind] at hcFind
    have : mc = m := by injection hcFind.symm
    rw [this]
  · exact hstabFull
  · intro lid lm2 hmem hfind2 hkind2 hgeom2
    have hstabL : StableTo w (clearOutline w) lid := clear_stableTo hInv (hlodsnd lid hmem)
    obtain ⟨lm2c, hlc, hlck, hlcg, hlcl, hlcid⟩ := stableTo_found hstabL hfind2
    have hshape : lm2c = lm2 ∨ ∃ gid, lm2c = groupSet gid lm2 := by
      rcases hstabL with hs | ⟨m1, gid, hm1, hs⟩
      · rw [hs, hfind2] at hlc
        exact Or.inl (by injection hlc.symm)
      · rw [hfind2] at hm1
        have hm1' : m1 = lm2 := by
          injection hm1 with hh
          exact hh.symm
        subst hm1'
        rw [hs] at hlc
        right
        exact ⟨gid, by injection hlc.symm⟩
    have h := hpost.lodsDone lid lm2c (by rw [hcLods]; exact hmem) hlc
      (by rw [hlck]; exact hkind2) (by rw [hlcg]; exact hgeom2)
    rw [clear_ogid] at h
    show (createOutlineForMesh (clearOutline w) t).findMesh lid
      = some (groupSet w.originalRenderingGroupId lm2)
    rw [h]
    rcases hshape with hsh | ⟨gid, hsh⟩
    · rw [hsh]
    · rw [hsh]
      rfl
  · exact hpost.colorEq.trans (clear_color w)
  · exact hpost.scaleEq.trans (clear_scale w)
  · exact hpost.ogidEq.trans (clear_ogid w)
  · exact hpost.olidEq.trans (clear_olid w)
  · have h := hpost.nextGt
    rw [clear_nextId] at h
    exact h

theorem inv_withSel_none {c : World} (hInv : Inv c) (hcm : c.outlineMeshes = []) :
    Inv (withSel c none) := by
  refine ⟨WF_sel none hInv.wf, hInv.dupNodup, hInv.matsEq, ?_, hInv.matsOk, ?_, ?_,
    hInv.gDist⟩
  · intro oid hmem
    obtain ⟨d, hd, h1, h2, h3, h4, h5, h6, h7, h8, p, hp, hpn⟩ := hInv.dupsOk oid hmem
    exact ⟨d, hd, h1, h2, h3, h4, h5, h6, h7, h8, p, hp, hpn⟩
  · intro hne
    rw [show (withSel c none).outlineMeshes = c.outlineMeshes from rfl, hcm] at hne
    exact absurd rfl hne
  · rcases hInv.mapSmall with h | ⟨k, g0, mk, h1, h2, h3, h4⟩
    · exact Or.inl h
    · exact Or.inr ⟨k, g0, mk, h1, h2, h3, h4⟩

theorem inv_withSel_some_of_empty {c : World} (hInv : Inv c) (hcm : c.outlineMeshes = [])
    (tid : Nat) : Inv (withSel c (some tid)) := by
  refine ⟨WF_sel (some tid) hInv.wf, hInv.dupNodup, hInv.matsEq, ?_, hInv.matsOk, ?_, ?_,
    hInv.gDist⟩
  · intro oid hmem
    obtain ⟨d, hd, h1, h2, h3, h4, h5, h6, h7, h8, p, hp, hpn⟩ := hInv.dupsOk oid hmem
    exact ⟨d, hd, h1, h2, h3, h4, h5, h6, h7, h8, p, hp, hpn⟩
  · intro hne
    rw [show (withSel c (some tid)).outlineMeshes = c.outlineMeshes from rfl, hcm] at hne
    exact absurd rfl hne
  · rcases hInv.mapSmall with h | ⟨k, g0, mk, h1, h2, h3, h4⟩
    · exact Or.inl h
    · exact Or.inr ⟨k, g0, mk, h1, h2, h3, h4⟩

theorem inv_createPost {c : World} {t : Nat} {mc : MeshObj}
    (hpost : CreatePost c t mc (createOutlineForMesh c t))
    (hkind : mc.kind = NodeKind.mesh) (hInvC : Inv c) (htlt : t < c.nextId) :
    Inv (withSel (createOutlineForMesh c t) (some t)) := by
  have hdupFresh0 : ∀ oid ∈ (createOutlineForMesh c t).outlineMeshes, c.nextId ≤ oid :=
    hpost.pre.dupFresh
  refine ⟨WF_sel (some t) hpost.pre.wf, hpost.pre.dupNodup, hpost.pre.matsEq, ?_,
    hpost.pre.matsOk, ?_, ?_, ?_⟩
  · intro oid hmem
    obtain ⟨d, hd, h1, h2, h3, h4, h5, h6, h7, h8, p, srcm, gg, hpar, hPAp, hpN,
      hsrc, hsk, hdg, hsg⟩ := hpost.pre.dups oid hmem
    refine ⟨d, hd, h1, h2, h3, h4, h5, h6, h7, h8, p, hpar, ?_⟩
    intro hpdup
    have h := hpost.pre.dupFresh p hpdup
    omega
  · intro _
    refine ⟨t, { mc with renderingGroupId := c.originalRenderingGroupId }, rfl,
      hpost.findT, ?_, hkind, ?_⟩
    · show c.originalRenderingGroupId = _
      exact hpost.ogidEq.symm
    · intro hmem
      have h := hdupFresh0 t hmem
      omega
  · right
    refine ⟨t, mc.renderingGroupId, { mc with renderingGroupId := c.originalRenderingGroupId },
      hpost.mapEq, ?_, hpost.findT, hkind⟩
    intro hmem
    have h := hdupFresh0 t hmem
    omega
  · show (createOutlineForMesh c t).outlineRenderingGroupId
      ≠ (createOutlineForMesh c t).originalRenderingGroupId
    rw [hpost.ogidEq, hpost.olidEq]
    exact hInvC.gDist

theorem inv_fail {c : World} {t : Nat} {mc : MeshObj} (hInvC : Inv c)
    (hcm : c.outlineMeshes = []) (hcmat : c.outlineMaterials = [])
    (hfind : c.findMesh t = some mc) (hkind : mc.kind = NodeKind.mesh) :
    Inv (withSel { c with
        meshes := updateBy MeshObj.id t (groupSet c.originalRenderingGroupId) c.meshes
        originalRenderingGroups := [(t, mc.renderingGroupId)]
        nextId := c.nextId + 1 } (some t)) := by
  refine ⟨⟨?_, hInvC.wf.nodupMat, ?_, ?_, ?_⟩, ?_, ?_, ?_, ?_, ?_, ?_, hInvC.gDist⟩
  · show (List.map MeshObj.id
      (updateBy MeshObj.id t (groupSet c.originalRenderingGroupId) c.meshes)).Nodup
    rw [map_idOf_updateBy MeshObj.id (groupSet_id _)]
    exact hInvC.wf.nodupMesh
  · intro m hm
    show m.id < c.nextId + 1
    rcases mem_updateBy MeshObj.id hm with h | ⟨b, hb, rfl⟩
    · have := hInvC.wf.meshLt m h
      omega
    · rw [groupSet_id]
      have := hInvC.wf.meshLt b hb
      omega
  · intro mt hmt
    show mt.id < c.nextId + 1
    have := hInvC.wf.matLt mt hmt
    omega
  · intro m hm l hl lid hlid
    show lid < c.nextId + 1
    rcases mem_updateBy MeshObj.id hm with h | ⟨b, hb, rfl⟩
    · have := hInvC.wf.lodLt m h l hl lid hlid
      omega
    · have := hInvC.wf.lodLt b hb l hl lid hlid
      omega
  · show c.outlineMeshes.Nodup
    rw [hcm]
    exact List.nodup_nil
  · show c.outlineMaterials = c.outlineMeshes.map (fun i => i + 1)
    rw [hcm, hcmat]
    rfl
  · intro oid hmem
    rw [show (withSel { c with
        meshes := updateBy MeshObj.id t (groupSet c.originalRenderingGroupId) c.meshes
        originalRenderingGroups := [(t, mc.renderingGroupId)]
        nextId := c.nextId + 1 } (some t)).outlineMeshes = c.outlineMeshes from rfl,
      hcm] at hmem
    cases hmem
  · intro mid hmid
    rw [show (withSel { c with
        meshes := updateBy MeshObj.id t (groupSet c.originalRenderingGroupId) c.meshes
        originalRenderingGroups := [(t, mc.renderingGroupId)]
        nextId := c.nextId + 1 } (some t)).outlineMaterials = c.outlineMaterials from rfl,
      hcmat] at hmid
    cases hmid
  · intro hne
    rw [show (withSel { c with
        meshes := updateBy MeshObj.id t (groupSet c.originalRenderingGroupId) c.meshes
        originalRenderingGroups := [(t, mc.renderingGroupId)]
        nextId := c.nextId + 1 } (some t)).outlineMeshes = c.outlineMeshes from rfl,
      hcm] at hne
    exact absurd rfl hne
  · right
    refine ⟨t, mc.renderingGroupId, groupSet c.originalRenderingGroupId mc, rfl, ?_, ?_, hkind⟩
    · rw [hcm]
      intro h
      cases h
    · show findBy MeshObj.id
        (updateBy MeshObj.id t (groupSet c.originalRenderingGroupId) c.meshes) t = _
      rw [findBy_updateBy_self MeshObj.id (groupSet_id _) t,
        show findBy MeshObj.id c.meshes t = some mc from hfind]
      rfl

theorem inv_set {w : World} (hInv : Inv w) (target : Option Nat) :
    Inv (setOutlineMesh w target) := by
  have hInvC := clear_inv hInv
  match target with
  | none =>
    have h : setOutlineMesh w none = withSel (clearOutline w) none := by
      simp [setOutlineMesh, withSel]
    rw [h]
    exact inv_withSel_none hInvC (clear_outlineMeshes w)
  | some tid =>
    cases hcf : (clearOutline w).findMesh tid with
    | none =>
      have h : setOutlineMesh w (some tid) = withSel (clearOutline w) (some tid) := by
        simp [setOutlineMesh, hcf, withSel]
      rw [h]
      exact inv_withSel_some_of_empty hInvC (clear_outlineMeshes w) tid
    | some mc =>
      by_cases hm : isMesh mc
      · have hkind : mc.kind = NodeKind.mesh := (isMesh_iff mc).mp hm
        have htlt : tid < (clearOutline w).nextId := by
          rw [← findBy_id MeshObj.id hcf]
          exact hInvC.wf.meshLt mc (mem_of_findBy MeshObj.id hcf)
        have hrw : setOutlineMesh w (some tid)
            = withSel (createOutlineForMesh (clearOutline w) tid) (some tid) := by
          simp [setOutlineMesh, hcf, hm, withSel]
        rw [hrw]
        cases hg : mc.geometry with
        | some g =>
          have hlodsC : ∀ lid, some lid ∈ mc.lodLevels → lid < (clearOutline w).nextId :=
            fun lid hmem =>
              hInvC.wf.lodLt mc (mem_of_findBy MeshObj.id hcf) (some lid) hmem lid rfl
          exact inv_createPost (createOutline_post hInvC (clear_outlineMeshes w)
            (clear_outlineMaterials w) (clear_map w) hcf hkind hg hlodsC) hkind hInvC htlt
        | none =>
          have hfail := createOutline_failure hInvC.wf.meshLt hcf hkind hg
          rw [clear_map] at hfail
          simp only [setMapEntry] at hfail
          rw [hfail]
          exact inv_fail hInvC (clear_outlineMeshes w) (clear_outlineMaterials w) hcf hkind
      · have h : setOutlineMesh w (some tid) = withSel (clearOutline w) (some tid) := by
          simp [setOutlineMesh, hcf, hm, withSel]
        rw [h]
        exact inv_withSel_some_of_empty hInvC (clear_outlineMeshes w) tid

theorem inv_dispose {w : World} (hInv : Inv w) : Inv (disposeOutline w) :=
  inv_withSel_none (clear_inv hInv) (clear_outlineMeshes w)

theorem scaleMeshes_idmap (k : ℚ) : ∀ (l : List Nat) (w : World),
    (scaleMeshes w k l).meshes.map MeshObj.id = w.meshes.map MeshObj.id := by
  intro l
  induction l with
  | nil => intro w; rfl
  | cons i rest ih =>
    intro w
    show (scaleMeshes (w.updateMesh i _) k rest).meshes.map MeshObj.id = _
    rw [ih]
    simp only [World.updateMesh]
    apply map_idOf_updateBy
    intro a
    rfl

theorem findMesh_scaleMeshes (k : ℚ) : ∀ (l : List Nat) (w : World) (j : Nat),
    (scaleMeshes w k l).findMesh j = w.findMesh j ∨
    (scaleMeshes w k l).findMesh j
      = (w.findMesh j).map (fun m => { m with scaling := (k, k, k) }) := by
  intro l
  induction l with
  | nil => intro w j; exact Or.inl rfl
  | cons i rest ih =>
    intro w j
    show (scaleMeshes (w.updateMesh i (fun m => { m with scaling := (k, k, k) }))
        k rest).findMesh j = w.findMesh j ∨
      (scaleMeshes (w.updateMesh i (fun m => { m with scaling := (k, k, k) }))
        k rest).findMesh j = (w.findMesh j).map (fun m => { m with scaling := (k, k, k) })
    by_cases hij : i = j
    · subst hij
      have hup : (w.updateMesh i (fun m => { m with scaling := (k, k, k) })).findMesh i
          = (w.findMesh i).map (fun m => { m with scaling := (k, k, k) }) :=
        findMesh_updateMesh_self (fun m => rfl)
      rcases ih (w.updateMesh i (fun m => { m with scaling := (k, k, k) })) i with h | h
      · right
        rw [h, hup]
      · right
        rw [h, hup]
        cases hf : w.findMesh i with
        | none => rfl
        | some m => rfl
    · have hup : (w.updateMesh i (fun m => { m with scaling := (k, k, k) })).findMesh j
          = w.findMesh j := findMesh_updateMesh_ne (fun m => rfl) hij
      rcases ih (w.updateMesh i (fun m => { m with scaling := (k, k, k) })) j with h | h
      · left
        rw [h, hup]
      · right
        rw [h, hup]

theorem scaleMeshes_mem : ∀ (l : List Nat) (w : World) {m : MeshObj} (k : ℚ),
    m ∈ (scaleMeshes w k l).meshes → ∃ b ∈ w.meshes, m.id = b.id ∧
      m.lodLevels = b.lodLevels := by
  intro l
  induction l with
  | nil => intro w m k hm; exact ⟨m, hm, rfl, rfl⟩
  | cons i rest ih =>
    intro w m k hm
    obtain ⟨b, hb, hid, hlods⟩ := ih (w.updateMesh i _) k hm
    simp only [World.updateMesh] at hb
    rcases mem_updateBy MeshObj.id hb with h | ⟨c2, hc2, rfl⟩
    · exact ⟨b, h, hid, hlods⟩
    · exact ⟨c2, hc2, hid, hlods⟩

theorem inv_scale {w : World} (hInv : Inv w) (k : ℚ) : Inv (updateOutlineScale w k) := by
  have pres : ∀ j mj, w.findMesh j = some mj →
      ∃ mj2, (updateOutlineScale w k).findMesh j = some mj2 ∧
        mj2.renderingGroupId = mj.renderingGroupId ∧ mj2.kind = mj.kind ∧
        mj2.lodLevels = mj.lodLevels ∧ mj2.isPickable = mj.isPickable ∧
        mj2.checkCollisions = mj.checkCollisions ∧ mj2.receiveShadows = mj.receiveShadows ∧
        mj2.doNotSyncBoundingInfo = mj.doNotSyncBoundingInfo ∧
        mj2.material = mj.material ∧ mj2.parent = mj.parent ∧
        mj2.geometry = mj.geometry := by
    intro j mj hmj
    rcases findMesh_scaleMeshes k w.outlineMeshes { w with outlineScale := k } j with h | h
    · refine ⟨mj, ?_, rfl, rfl, rfl, rfl, rfl, rfl, rfl, rfl, rfl, rfl⟩
      show (updateOutlineScale w k).findMesh j = some mj
      rw [show (updateOutlineScale w k).findMesh j
        = (scaleMeshes { w with outlineScale := k } k w.outlineMeshes).findMesh j from rfl, h]
      exact hmj
    · refine ⟨{ mj with scaling := (k, k, k) }, ?_, rfl, rfl, rfl, rfl, rfl, rfl, rfl,
        rfl, rfl, rfl⟩
      show (updateOutlineScale w k).findMesh j = _
      rw [show (updateOutlineScale w k).findMesh j
        = (scaleMeshes { w with outlineScale := k } k w.outlineMeshes).findMesh j from rfl, h]
      rw [show ({ w with outlineScale := k } : World).findMesh j = w.findMesh j from rfl, hmj]
      rfl
  have hproj : (updateOutlineScale w k).outlineMeshes = w.outlineMeshes :=
    scaleMeshes_outlineMeshes k w.outlineMeshes { w with outlineScale := k }
  have hprojm : (updateOutlineScale w k).materials = w.materials :=
    scaleMeshes_materials k w.outlineMeshes { w with outlineScale := k }
  have hprojmat : (updateOutlineScale w k).outlineMaterials = w.outlineMaterials :=
    scaleMeshes_outlineMaterials k w.outlineMeshes { w with outlineScale := k }
  have hprojn : (updateOutlineScale w k).nextId = w.nextId :=
    scaleMeshes_nextId k w.outlineMeshes { w with outlineScale := k }
  have hsel0 : (updateOutlineScale w k).currentSelectedMesh = w.currentSelectedMesh :=
    scaleMeshes_currentSelectedMesh k w.outlineMeshes { w with outlineScale := k }
  have hmap0 : (updateOutlineScale w k).originalRenderingGroups = w.originalRenderingGroups :=
    scaleMeshes_originalRenderingGroups k w.outlineMeshes { w with outlineScale := k }
  have horig : (updateOutlineScale w k).originalRenderingGroupId = w.originalRenderingGroupId :=
    scaleMeshes_originalRenderingGroupId k w.outlineMeshes { w with outlineScale := k }
  have houtg : (updateOutlineScale w k).outlineRenderingGroupId = w.outlineRenderingGroupId :=
    scaleMeshes_outlineRenderingGroupId k w.outlineMeshes { w with outlineScale := k }
  refine ⟨⟨?_, ?_, ?_, ?_, ?_⟩, ?_, ?_, ?_, ?_, ?_, ?_, ?_⟩
  · show ((updateOutlineScale w k).meshes.map MeshObj.id).Nodup
    rw [show (updateOutlineScale w k).meshes
      = (scaleMeshes { w with outlineScale := k } k w.outlineMeshes).meshes from rfl]
    rw [scaleMeshes_idmap]
    exact hInv.wf.nodupMesh
  · rw [hprojm]
    exact hInv.wf.nodupMat
  · intro m hm
    obtain ⟨b, hb, hid, -⟩ := scaleMeshes_mem w.outlineMeshes _ k hm
    rw [hprojn, hid]
    exact hInv.wf.meshLt b hb
  · intro mt hmt
    rw [hprojm] at hmt
    rw [hprojn]
    exact hInv.wf.matLt mt hmt
  · intro m hm l hl lid hlid
    obtain ⟨b, hb, -, hlods⟩ := scaleMeshes_mem w.outlineMeshes _ k hm
    rw [hprojn]
    rw [hlods] at hl
    exact hInv.wf.lodLt b hb l hl lid hlid
  · rw [hproj]
    exact hInv.dupNodup
  · rw [hproj, hprojmat]
    exact hInv.matsEq
  · intro oid hmem
    rw [hproj] at hmem
    obtain ⟨d, hd, h1, h2, h3, h4, h5, h6, h7, h8, p, hp, hpn⟩ := hInv.dupsOk oid hmem
    obtain ⟨d2, hd2, g1, g2, g3, g4, g5, g6, g7, g8, g9, -⟩ := pres oid d hd
    refine ⟨d2, hd2, ?_, ?_, ?_, ?_, ?_, ?_, ?_, ?_, p, ?_, ?_⟩
    · rw [g1, h1]
      exact houtg.symm
    · rw [g4, h2]
    · rw [g5, h3]
    · rw [g6, h4]
    · rw [g7, h5]
    · rw [g2, h6]
    · rw [g3, h7]
    · rw [g8, h8]
    · rw [g9, hp]
    · rw [hproj]
      exact hpn
  · intro mid hmid
    rw [hprojmat] at hmid
    obtain ⟨mt, hmt⟩ := hInv.matsOk mid hmid
    refine ⟨mt, ?_⟩
    show findBy MaterialObj.id (updateOutlineScale w k).materials mid = some mt
    rw [hprojm]
    exact hmt
  · intro hne
    rw [hproj] at hne
    obtain ⟨t, m, hsel, hfm, hgrp, hkind, hnd⟩ := hInv.cur hne
    obtain ⟨m2, hm2, g1, g2, -⟩ := pres t m hfm
    refine ⟨t, m2, ?_, hm2, ?_, ?_, ?_⟩
    · rw [hsel0]
      exact hsel
    · rw [g1, hgrp]
      exact horig.symm
    · rw [g2, hkind]
    · rw [hproj]
      exact hnd
  · rcases hInv.mapSmall with h | ⟨kk, g0, mk, h1, h2, h3, h4⟩
    · left
      rw [hmap0]
      exact h
    · obtain ⟨mk2, hmk2, -, gk, -⟩ := pres kk mk h3
      right
      refine ⟨kk, g0, mk2, ?_, ?_, hmk2, ?_⟩
      · rw [hmap0]
        exact h1
      · rw [hproj]
        exact h2
      · rw [gk, h4]
  · rw [houtg, horig]
    exact hInv.gDist

theorem colorMaterials_idmap (c : Color3) : ∀ (l : List Nat) (w : World),
    (colorMaterials w c l).materials.map MaterialObj.id = w.materials.map MaterialObj.id := by
  intro l
  induction l with
  | nil => intro w; rfl
  | cons i rest ih =>
    intro w
    show (colorMaterials (w.updateMaterial i _) c rest).materials.map MaterialObj.id = _
    rw [ih]
    simp only [World.updateMaterial]
    apply map_idOf_updateBy
    intro a
    rfl

theorem findMaterial_colorMaterials (c : Color3) : ∀ (l : List Nat) (w : World) (j : Nat),
    (colorMaterials w c l).findMaterial j = w.findMaterial j ∨
    (colorMaterials w c l).findMaterial j
      = (w.findMaterial j).map
          (fun mt => { mt with emissiveColor := c, diffuseColor := c }) := by
  intro l
  induction l with
  | nil => intro w j; exact Or.inl rfl
  | cons i rest ih =>
    intro w j
    show (colorMaterials
        (w.updateMaterial i (fun mt => { mt with emissiveColor := c, diffuseColor := c }))
        c rest).findMaterial j = w.findMaterial j ∨
      (colorMaterials
        (w.updateMaterial i (fun mt => { mt with emissiveColor := c, diffuseColor := c }))
        c rest).findMaterial j
        = (w.findMaterial j).map
            (fun mt => { mt with emissiveColor := c, diffuseColor := c })
    by_cases hij : i = j
    · subst hij
      have hup0 : findBy MaterialObj.id (updateBy MaterialObj.id i
            (fun mt => { mt with emissiveColor := c, diffuseColor := c }) w.materials) i
          = Option.map (fun mt => { mt with emissiveColor := c, diffuseColor := c })
              (findBy MaterialObj.id w.materials i) :=
        findBy_updateBy_self MaterialObj.id
          (fun mt => (rfl :
            (({ mt with emissiveColor := c, diffuseColor := c } : MaterialObj)).id = mt.id))
          i w.materials
      have hup : (w.updateMaterial i
            (fun mt => { mt with emissiveColor := c, diffuseColor := c })).findMaterial i
          = (w.findMaterial i).map
              (fun mt => { mt with emissiveColor := c, diffuseColor := c }) := hup0
      rcases ih (w.updateMaterial i
          (fun mt => { mt with emissiveColor := c, diffuseColor := c })) i with h | h
      · right
        rw [h, hup]
      · right
        rw [h, hup]
        cases hf : w.findMaterial i with
        | none => rfl
        | some mt => rfl
    · have hup0 : findBy MaterialObj.id (updateBy MaterialObj.id i
            (fun mt => { mt with emissiveColor := c, diffuseColor := c }) w.materials) j
          = findBy MaterialObj.id w.materials j :=
        findBy_updateBy_ne MaterialObj.id
          (fun mt => (rfl :
            (({ mt with emissiveColor := c, diffuseColor := c } : MaterialObj)).id = mt.id))
          hij w.materials
      have hup : (w.updateMaterial i
            (fun mt => { mt with emissiveColor := c, diffuseColor := c })).findMaterial j
          = w.findMaterial j := hup0
      rcases ih (w.updateMaterial i
          (fun mt => { mt with emissiveColor := c, diffuseColor := c })) j with h | h
      · left
        rw [h, hup]
      · right
        rw [h, hup]

theorem colorMaterials_mem : ∀ (l : List Nat) (w : World) {mt : MaterialObj} (c : Color3),
    mt ∈ (colorMaterials w c l).materials → ∃ b ∈ w.materials, mt.id = b.id := by
  intro l
  induction l with
  | nil => intro w mt c hm; exact ⟨mt, hm, rfl⟩
  | cons i rest ih =>
    intro w mt c hm
    obtain ⟨b, hb, hid⟩ := ih (w.updateMaterial i _) c hm
    simp only [World.updateMaterial] at hb
    rcases mem_updateBy MaterialObj.id hb with h | ⟨c2, hc2, rfl⟩
    · exact ⟨b, h, hid⟩
    · exact ⟨c2, hc2, hid⟩

theorem inv_color {w : World} (hInv : Inv w) (c : Color3) : Inv (updateOutlineColor w c) := by
  have hmeshes : (updateOutlineColor w c).meshes = w.meshes :=
    colorMaterials_meshes c w.outlineMaterials { w with outlineColor := c }
  have hmatid : (updateOutlineColor w c).materials.map MaterialObj.id
      = w.materials.map MaterialObj.id :=
    colorMaterials_idmap c w.outlineMaterials { w with outlineColor := c }
  have hn : (updateOutlineColor w c).nextId = w.nextId :=
    colorMaterials_nextId c w.outlineMaterials { w with outlineColor := c }
  have houtm : (updateOutlineColor w c).outlineMeshes = w.outlineMeshes :=
    colorMaterials_outlineMeshes c w.outlineMaterials { w with outlineColor := c }
  have houtmat : (updateOutlineColor w c).outlineMaterials = w.outlineMaterials :=
    colorMaterials_outlineMaterials c w.outlineMaterials { w with outlineColor := c }
  have hsel0 : (updateOutlineColor w c).currentSelectedMesh = w.currentSelectedMesh :=
    colorMaterials_currentSelectedMesh c w.outlineMaterials { w with outlineColor := c }
  have hmap0 : (updateOutlineColor w c).originalRenderingGroups = w.originalRenderingGroups :=
    colorMaterials_originalRenderingGroups c w.outlineMaterials { w with outlineColor := c }
  have horig : (updateOutlineColor w c).originalRenderingGroupId = w.originalRenderingGroupId :=
    colorMaterials_originalRenderingGroupId c w.outlineMaterials { w with outlineColor := c }
  have houtg : (updateOutlineColor w c).outlineRenderingGroupId = w.outlineRenderingGroupId :=
    colorMaterials_outlineRenderingGroupId c w.outlineMaterials { w with outlineColor := c }
  have hfm : ∀ j, (updateOutlineColor w c).findMesh j = w.findMesh j := by
    intro j
    show findBy MeshObj.id (updateOutlineColor w c).meshes j = findBy MeshObj.id w.meshes j
    rw [hmeshes]
  refine ⟨⟨?_, ?_, ?_, ?_, ?_⟩, ?_, ?_, ?_, ?_, ?_, ?_, ?_⟩
  · rw [hmeshes]
    exact hInv.wf.nodupMesh
  · rw [hmatid]
    exact hInv.wf.nodupMat
  · intro m hm
    rw [hmeshes] at hm
    rw [hn]
    exact hInv.wf.meshLt m hm
  · intro mt hmt
    obtain ⟨b, hb, hid⟩ := colorMaterials_mem w.outlineMaterials _ c hmt
    rw [hn, hid]
    exact hInv.wf.matLt b hb
  · intro m hm l hl lid hlid
    rw [hmeshes] at hm
    rw [hn]
    exact hInv.wf.lodLt m hm l hl lid hlid
  · rw [houtm]
    exact hInv.dupNodup
  · rw [houtmat, houtm]
    exact hInv.matsEq
  · intro oid hmem
    rw [houtm] at hmem
    obtain ⟨d, hd, h1, h2, h3, h4, h5, h6, h7, h8, p, hp, hpn⟩ := hInv.dupsOk oid hmem
    refine ⟨d, ?_, ?_, h2, h3, h4, h5, h6, h7, h8, p, hp, ?_⟩
    · rw [hfm]
      exact hd
    · rw [houtg]
      exact h1
    · rw [houtm]
      exact hpn
  · intro mid hmid
    rw [houtmat] at hmid
    obtain ⟨mt, hmt⟩ := hInv.matsOk mid hmid
    have hdis : (updateOutlineColor w c).findMaterial mid = w.findMaterial mid ∨
        (updateOutlineColor w c).findMaterial mid
          = (w.findMaterial mid).map
              (fun mt2 => { mt2 with emissiveColor := c, diffuseColor := c }) :=
      findMaterial_colorMaterials c w.outlineMaterials { w with outlineColor := c } mid
    rcases hdis with h | h
    · refine ⟨mt, ?_⟩
      rw [h]
      exact hmt
    · refine ⟨{ mt with emissiveColor := c, diffuseColor := c }, ?_⟩
      rw [h, hmt]
      rfl
  · intro hne
    rw [houtm] at hne
    obtain ⟨t, m, hsel, hfmt, hgrp, hkind, hnd⟩ := hInv.cur hne
    refine ⟨t, m, ?_, ?_, ?_, hkind, ?_⟩
    · rw [hsel0]
      exact hsel
    · rw [hfm]
      exact hfmt
    · rw [horig]
      exact hgrp
    · rw [houtm]
      exact hnd
  · rcases hInv.mapSmall with h | ⟨kk, g0, mk, h1, h2, h3, h4⟩
    · left
      rw [hmap0]
      exact h
    · right
      refine ⟨kk, g0, mk, ?_, ?_, ?_, h4⟩
      · rw [hmap0]
        exact h1
      · rw [houtm]
        exact h2
      · rw [hfm]
        exact h3
  · rw [houtg, horig]
    exact hInv.gDist

theorem inv_mutate {w : World} (hInv : Inv w) (i : Nat) (g : Geometry) :
    Inv (mutateMeshGeometry w i g) := by
  have pres : ∀ j mj, w.findMesh j = some mj → ∃ mj2,
      (mutateMeshGeometry w i g).findMesh j = some mj2 ∧
      mj2.renderingGroupId = mj.renderingGroupId ∧ mj2.kind = mj.kind ∧
      mj2.lodLevels = mj.lodLevels ∧ mj2.isPickable = mj.isPickable ∧
      mj2.checkCollisions = mj.checkCollisions ∧ mj2.receiveShadows = mj.receiveShadows ∧
      mj2.doNotSyncBoundingInfo = mj.doNotSyncBoundingInfo ∧ mj2.material = mj.material ∧
      mj2.parent = mj.parent := by
    intro j mj hmj
    by_cases hij : i = j
    · subst hij
      refine ⟨{ mj with geometry := some g }, ?_, rfl, rfl, rfl, rfl, rfl, rfl, rfl, rfl, rfl⟩
      have h : (w.updateMesh i (fun m => { m with geometry := some g })).findMesh i
          = (w.findMesh i).map (fun m => { m with geometry := some g }) :=
        findMesh_updateMesh_self (fun m => rfl)
      show (w.updateMesh i (fun m => { m with geometry := some g })).findMesh i = _
      rw [h, hmj]
      rfl
    · refine ⟨mj, ?_, rfl, rfl, rfl, rfl, rfl, rfl, rfl, rfl, rfl⟩
      have h0 : (w.updateMesh i (fun m => { m with geometry := some g })).findMesh j
          = w.findMesh j := findMesh_updateMesh_ne (fun m => rfl) hij
      show (w.updateMesh i (fun m => { m with geometry := some g })).findMesh j = some mj
      exact h0.trans hmj
  refine ⟨⟨?_, ?_, ?_, ?_, ?_⟩, ?_, ?_, ?_, ?_, ?_, ?_, ?_⟩
  · show ((updateBy MeshObj.id i (fun m => { m with geometry := some g })
      w.meshes).map MeshObj.id).Nodup
    have h : (updateBy MeshObj.id i (fun m => { m with geometry := some g })
        w.meshes).map MeshObj.id = w.meshes.map MeshObj.id := by
      apply map_idOf_updateBy
      intro a
      rfl
    rw [h]
    exact hInv.wf.nodupMesh
  · exact hInv.wf.nodupMat
  · intro m hm
    have hm2 : m ∈ updateBy MeshObj.id i (fun m2 => { m2 with geometry := some g })
      w.meshes := hm
    rcases mem_updateBy MeshObj.id hm2 with h | ⟨c2, hc2, rfl⟩
    · exact hInv.wf.meshLt m h
    · exact hInv.wf.meshLt c2 hc2
  · intro mt hmt
    exact hInv.wf.matLt mt hmt
  · intro m hm l hl lid hlid
    have hm2 : m ∈ updateBy MeshObj.id i (fun m2 => { m2 with geometry := some g })
      w.meshes := hm
    rcases mem_updateBy MeshObj.id hm2 with h | ⟨c2, hc2, rfl⟩
    · exact hInv.wf.lodLt m h l hl lid hlid
    · exact hInv.wf.lodLt c2 hc2 l hl lid hlid
  · exact hInv.dupNodup
  · exact hInv.matsEq
  · intro oid hmem
    have hmem2 : oid ∈ w.outlineMeshes := hmem
    obtain ⟨d, hd, h1, h2, h3, h4, h5, h6, h7, h8, p, hp, hpn⟩ := hInv.dupsOk oid hmem2
    obtain ⟨d2, hd2, g1, g2, g3, g4, g5, g6, g7, g8, g9⟩ := pres oid d hd
    refine ⟨d2, hd2, ?_, ?_, ?_, ?_, ?_, ?_, ?_, ?_, p, ?_, ?_⟩
    · rw [g1, h1]
      rfl
    · rw [g4, h2]
    · rw [g5, h3]
    · rw [g6, h4]
    · rw [g7, h5]
    · rw [g2, h6]
    · rw [g3, h7]
    · rw [g8, h8]
    · rw [g9, hp]
    · exact hpn
  · intro mid hmid
    have hmid2 : mid ∈ w.outlineMaterials := hmid
    obtain ⟨mt, hmt⟩ := hInv.matsOk mid hmid2
    exact ⟨mt, hmt⟩
  · intro hne
    have hne2 : w.outlineMeshes ≠ [] := hne
    obtain ⟨t, m, hsel, hfmt, hgrp, hkind, hnd⟩ := hInv.cur hne2
    obtain ⟨m2, hm2, g1, g2, g3, g4, g5, g6, g7, g8, g9⟩ := pres t m hfmt
    refine ⟨t, m2, hsel, hm2, ?_, ?_, ?_⟩
    · rw [g1, hgrp]
      rfl
    · rw [g2]
      exact hkind
    · exact hnd
  · rcases hInv.mapSmall with h | ⟨kk, g0, mk, h1, h2, h3, h4⟩
    · left
      exact h
    · obtain ⟨mk2, hmk2, g1, g2, g3, g4, g5, g6, g7, g8, g9⟩ := pres kk mk h3
      right
      refine ⟨kk, g0, mk2, h1, h2, hmk2, ?_⟩
      rw [g2]
      exact h4
  · exact hInv.gDist

theorem inv_step {w : World} (hInv : Inv w) (op : Op) : Inv (stepOp w op) := by
  cases op with
  | set t => exact inv_set hInv t
  | color c => exact inv_color hInv c
  | scale k => exact inv_scale hInv k
  | disposeAll => exact inv_dispose hInv
  | mutate i g => exact inv_mutate hInv i g

theorem inv_run : ∀ (ops : List Op) (w : World), Inv w → Inv (run w ops) := by
  intro ops
  induction ops with
  | nil => intro w h; exact h
  | cons op rest ih => intro w h; exact ih (stepOp w op) (inv_step h op)

theorem inv_mkWorld {meshes : List MeshObj} {mats : List MaterialObj} {n : Nat}
    (hwf : WF (mkWorld meshes mats n)) : Inv (mkWorld meshes mats n) := by
  refine ⟨hwf, List.nodup_nil, rfl, ?_, ?_, ?_, Or.inl rfl, ?_⟩
  · intro oid h
    exact absurd h (List.not_mem_nil oid)
  · intro mid h
    exact absurd h (List.not_mem_nil mid)
  · intro hne
    exact absurd rfl hne
  · intro h
    cases h

theorem findMaterial_updateMaterial_self {w : World} {i : Nat}
    {f : MaterialObj → MaterialObj} (hf : ∀ mt, (f mt).id = mt.id) :
    (w.updateMaterial i f).findMaterial i = (w.findMaterial i).map f :=
  findBy_updateBy_self MaterialObj.id hf i w.materials

theorem findMaterial_updateMaterial_ne {w : World} {i j : Nat}
    {f : MaterialObj → MaterialObj} (hf : ∀ mt, (f mt).id = mt.id) (hij : i ≠ j) :
    (w.updateMaterial i f).findMaterial j = w.findMaterial j :=
  findBy_updateBy_ne MaterialObj.id hf hij w.materials

theorem findMaterial_colorMaterials_mem (c : Color3) : ∀ (l : List Nat) (w : World) {j : Nat},
    j ∈ l → (colorMaterials w c l).findMaterial j
      = (w.findMaterial j).map
          (fun mt => { mt with emissiveColor := c, diffuseColor := c }) := by
  intro l
  induction l with
  | nil =>
    intro w j hj
    exact absurd hj (List.not_mem_nil j)
  | cons i rest ih =>
    intro w j hj
    have hupself : (w.updateMaterial i
          (fun mt => { mt with emissiveColor := c, diffuseColor := c })).findMaterial i
        = (w.findMaterial i).map
            (fun mt => { mt with emissiveColor := c, diffuseColor := c }) :=
      findMaterial_updateMaterial_self
        (fun mt => (rfl :
          (({ mt with emissiveColor := c, diffuseColor := c } : MaterialObj)).id = mt.id))
    by_cases hjr : j ∈ rest
    · have hih := ih (w.updateMaterial i
        (fun mt => { mt with emissiveColor := c, diffuseColor := c })) hjr
      show (colorMaterials (w.updateMaterial i
          (fun mt => { mt with emissiveColor := c, diffuseColor := c })) c rest).findMaterial j
        = (w.findMaterial j).map
            (fun mt => { mt with emissiveColor := c, diffuseColor := c })
      rw [hih]
      by_cases hij : i = j
      · subst hij
        rw [hupself]
        cases hf : w.findMaterial i with
        | none => rfl
        | some mt => rfl
      · have hupne : (w.updateMaterial i
            (fun mt => { mt with emissiveColor := c, diffuseColor := c })).findMaterial j
            = w.findMaterial j :=
          findMaterial_updateMaterial_ne
            (fun mt => (rfl :
              (({ mt with emissiveColor := c, diffuseColor := c } : MaterialObj)).id = mt.id))
            hij
        rw [hupne]
    · have hji : j = i := by
        rcases List.mem_cons.mp hj with h | h
        · exact h
        · exact absurd h hjr
      subst hji
      have hdis := findMaterial_colorMaterials c rest (w.updateMaterial j
        (fun mt => { mt with emissiveColor := c, diffuseColor := c })) j
      show (colorMaterials (w.updateMaterial j
          (fun mt => { mt with emissiveColor := c, diffuseColor := c })) c rest).findMaterial j
        = (w.findMaterial j).map
            (fun mt => { mt with emissiveColor := c, diffuseColor := c })
      rcases hdis with h | h
      · rw [h, hupself]
      · rw [h, hupself]
        cases hf : w.findMaterial j with
        | none => rfl
        | some mt => rfl

theorem cntValid_all {w : World} : ∀ {lods : List (Option Nat)},
    (∀ l ∈ lods, ∃ lid, l = some lid ∧ validSrc w lid = true) →
    cntValid w lods = lods.length := by
  intro lods
  induction lods with
  | nil => intro h; rfl
  | cons a rest ih =>
    intro h
    obtain ⟨lid, rfl, hv⟩ := h a (List.mem_cons_self a rest)
    show (if validSrc w lid then 1 else 0) + cntValid w rest = rest.length + 1
    rw [if_pos hv, ih (fun l hl => h l (List.mem_cons_of_mem _ hl))]
    omega

theorem clear_of_clean {w : World} (h1 : w.outlineMeshes = [])
    (h2 : w.outlineMaterials = []) (h3 : w.originalRenderingGroups = []) :
    clearOutline w = w := by
  obtain ⟨ms, mats, n, sel, om, omat, org, col, sc, ogid, olid⟩ := w
  have h1b : om = [] := h1
  have h2b : omat = [] := h2
  have h3b : org = [] := h3
  subst h1b
  subst h2b
  subst h3b
  rfl

theorem set_sel (w : World) (target : Option Nat) :
    (setOutlineMesh w target).currentSelectedMesh = target := rfl

theorem set_none_outlineMeshes (w : World) :
    (setOutlineMesh w none).outlineMeshes = [] := clear_outlineMeshes w

theorem set_none_outlineMaterials (w : World) :
    (setOutlineMesh w none).outlineMaterials = [] := clear_outlineMaterials w

theorem run_concat (w : World) (l : List Op) (x : Op) :
    run w (l ++ [x]) = stepOp (run w l) x := by
  simp [run, List.foldl_append]

/-- A concrete cube-like geometry for concrete evaluations. -/
def cubeGeom : Geometry := ⟨[0, 1, 2], [0, 1, 2]⟩

/-- A concrete simplified LOD geometry. -/
def lodGeom : Geometry := ⟨[5, 6], [0, 1]⟩

/-- A concrete plain mesh with one LOD level (mesh id 1). -/
def baseMesh : MeshObj :=
  { id := 0, name := "box", kind := NodeKind.mesh, sourceMesh := none,
    renderingGroupId := 0, geometry := some cubeGeom, lodLevels := [some 1],
    material := none, parent := none, scaling := (1, 1, 1),
    receiveShadows := false, checkCollisions := false, isPickable := true,
    doNotSyncBoundingInfo := false }

/-- The concrete LOD mesh of `baseMesh`. -/
def lodMesh : MeshObj :=
  { id := 1, name := "boxlod", kind := NodeKind.mesh, sourceMesh := none,
    renderingGroupId := 0, geometry := some lodGeom, lodLevels := [],
    material := none, parent := none, scaling := (1, 1, 1),
    receiveShadows := false, checkCollisions := false, isPickable := true,
    doNotSyncBoundingInfo := false }

/-- A fresh engine over a scene holding `baseMesh` and its LOD mesh. -/
def demoWorld : World := mkWorld [baseMesh, lodMesh] [] 2

/-- A concrete plain mesh with no geometry buffers: vertex extraction for it
fails. -/
def badMesh : MeshObj :=
  { id := 0, name := "bad", kind := NodeKind.mesh, sourceMesh := none,
    renderingGroupId := 0, geometry := none, lodLevels := [],
    material := none, parent := none, scaling := (1, 1, 1),
    receiveShadows := false, checkCollisions := false, isPickable := true,
    doNotSyncBoundingInfo := false }

/-- A fresh engine over a scene holding only the geometry-less mesh. -/
def badWorld : World := mkWorld [badMesh] [] 1

theorem demoWF : WF demoWorld := by
  refine ⟨by decide, by decide, by decide, by decide, ?_⟩
  intro m hm l hl lid hlid
  have hm2 : m = baseMesh ∨ m = lodMesh := by
    simpa [demoWorld, mkWorld] using hm
  rcases hm2 with rfl | rfl
  · have hl2 : l = some 1 := by simpa [baseMesh] using hl
    subst hl2
    have : lid = 1 := by
      injection hlid with h
      exact h.symm
    subst this
    decide
  · have : l ∈ ([] : List (Option Nat)) := by simpa [lodMesh] using hl
    cases this

theorem demoInv : Inv demoWorld := inv_mkWorld demoWF

theorem badWF : WF badWorld := by
  refine ⟨by decide, by decide, by decide, by decide, ?_⟩
  intro m hm l hl lid hlid
  have hm2 : m = badMesh := by
    simpa [badWorld, mkWorld] using hm
  subst hm2
  have : l ∈ ([] : List (Option Nat)) := by simpa [badMesh] using hl
  cases this

theorem badInv : Inv badWorld := inv_mkWorld badWF

/-- C7.  Whenever any reachable state of the engine (any operation sequence
run from a freshly constructed `Outline` over a well-formed scene) has a
nonempty outline, the current selection resolves to a source mesh whose
rendering group differs from the rendering group of every outline duplicate:
outline and source are never assigned the same render pass. -/
theorem outline_c7 {meshes : List MeshObj} {mats : List MaterialObj} {n : Nat}
    (hwf : WF (mkWorld meshes mats n)) (ops : List Op)
    (hne : (run (mkWorld meshes mats n) ops).outlineMeshes ≠ []) :
    ∃ t m, (run (mkWorld meshes mats n) ops).currentSelectedMesh = some t ∧
      (run (mkWorld meshes mats n) ops).findMesh t = some m ∧
      ∀ oid ∈ (run (mkWorld meshes mats n) ops).outlineMeshes,
        ∃ d, (run (mkWorld meshes mats n) ops).findMesh oid = some d ∧
          d.renderingGroupId ≠ m.renderingGroupId := by
  have hinv := inv_run ops (mkWorld meshes mats n) (inv_mkWorld hwf)
  obtain ⟨t, m, hsel, hfind, hgrp, hkind, hnd⟩ := hinv.cur hne
  refine ⟨t, m, hsel, hfind, ?_⟩
  intro oid hoid
  obtain ⟨d, hd, h1, -⟩ := hinv.dupsOk oid hoid
  refine ⟨d, hd, ?_⟩
  rw [h1, hgrp]
  exact hinv.gDist

theorem outline_c7_witness :
    ∃ t m, (run (mkWorld [baseMesh, lodMesh] [] 2)
        [Op.set (some 0)]).currentSelectedMesh = some t ∧
      (run (mkWorld [baseMesh, lodMesh] [] 2) [Op.set (some 0)]).findMesh t = some m ∧
      ∀ oid ∈ (run (mkWorld [baseMesh, lodMesh] [] 2) [Op.set (some 0)]).outlineMeshes,
        ∃ d, (run (mkWorld [baseMesh, lodMesh] [] 2) [Op.set (some 0)]).findMesh oid
            = some d ∧ d.renderingGroupId ≠ m.renderingGroupId :=
  outline_c7 demoWF [Op.set (some 0)] (by decide)

/-- C10.  In every reachable state of the engine, every outline duplicate is
excluded from scene interaction: picking disabled, collision checking
disabled, shadow reception disabled. -/
theorem outline_c10 {meshes : List MeshObj} {mats : List MaterialObj} {n : Nat}
    (hwf : WF (mkWorld meshes mats n)) (ops : List Op) :
    ∀ oid ∈ (run (mkWorld meshes mats n) ops).outlineMeshes,
      ∃ d, (run (mkWorld meshes mats n) ops).findMesh oid = some d ∧
        d.isPickable = false ∧ d.checkCollisions = false ∧
        d.receiveShadows = false := by
  have hinv := inv_run ops (mkWorld meshes mats n) (inv_mkWorld hwf)
  intro oid hoid
  obtain ⟨d, hd, hgrp, hpick, hchk, hrcv, hsync, hknd, hlods, hmat, p, hp, hpn⟩ :=
    hinv.dupsOk oid hoid
  exact ⟨d, hd, hpick, hchk, hrcv⟩

theorem outline_c10_witness :
    ∃ d, (run (mkWorld [baseMesh, lodMesh] [] 2) [Op.set (some 0)]).findMesh 2
        = some d ∧ d.isPickable = false ∧ d.checkCollisions = false ∧
      d.receiveShadows = false :=
  outline_c10 demoWF [Op.set (some 0)] 2 (by decide)

/-- Whatever the engine's state, a `setOutlineMesh` call that leaves outline
duplicates behind was given a plain-mesh target with geometry, and every
duplicate it built is parented to that target or to one of the target's LOD
meshes: the duplicates all belong to the single selected target. -/
theorem set_dups_parent {w : World} (hInv : Inv w) (t : Option Nat)
    (hne : (setOutlineMesh w t).outlineMeshes ≠ []) :
    ∃ tid m, t = some tid ∧
      (setOutlineMesh w t).findMesh tid = some m ∧
      tid ∉ (setOutlineMesh w t).outlineMeshes ∧
      ∀ oid ∈ (setOutlineMesh w t).outlineMeshes,
        ∃ d, (setOutlineMesh w t).findMesh oid = some d ∧
          ∃ p, d.parent = some p ∧ (p = tid ∨ some p ∈ m.lodLevels) := by
  have hInvC : Inv (clearOutline w) := clear_inv hInv
  cases t with
  | none =>
    exact absurd (set_none_outlineMeshes w) hne
  | some tid =>
    cases hf : (clearOutline w).findMesh tid with
    | none =>
      exfalso
      apply hne
      have hr : setOutlineMesh w (some tid) = withSel (clearOutline w) (some tid) := by
        simp [setOutlineMesh, hf, withSel]
      rw [hr]
      exact clear_outlineMeshes w
    | some mc =>
      by_cases hmesh : isMesh mc = true
      · have hkind : mc.kind = NodeKind.mesh := (isMesh_iff mc).mp hmesh
        have hr : setOutlineMesh w (some tid)
            = withSel (createOutlineForMesh (clearOutline w) tid) (some tid) := by
          simp [setOutlineMesh, hf, hmesh, withSel]
        cases hg : mc.geometry with
        | none =>
          exfalso
          apply hne
          rw [hr]
          show (createOutlineForMesh (clearOutline w) tid).outlineMeshes = []
          rw [createOutline_failure hInvC.wf.meshLt hf hkind hg]
          exact clear_outlineMeshes w
        | some g =>
          have hlods : ∀ lid, some lid ∈ mc.lodLevels →
              lid < (clearOutline w).nextId := by
            intro lid hmem
            exact hInvC.wf.lodLt mc (mem_of_findBy MeshObj.id hf) (some lid) hmem
              lid rfl
          have post := createOutline_post hInvC (clear_outlineMeshes w)
            (clear_outlineMaterials w) (clear_map w) hf hkind hg hlods
          have htlt : tid < (clearOutline w).nextId := by
            rw [← findBy_id MeshObj.id hf]
            exact hInvC.wf.meshLt mc (mem_of_findBy MeshObj.id hf)
          refine ⟨tid,
            { mc with renderingGroupId := (clearOutline w).originalRenderingGroupId },
            rfl, ?_, ?_, ?_⟩
          · rw [hr]
            exact post.findT
          · intro hmem
            have hmem2 : tid ∈ (createOutlineForMesh (clearOutline w)
                tid).outlineMeshes := by
              rw [hr] at hmem
              exact hmem
            have := post.pre.dupFresh tid hmem2
            omega
          · intro oid hmem
            have hmem2 : oid ∈ (createOutlineForMesh (clearOutline w)
                tid).outlineMeshes := by
              rw [hr] at hmem
              exact hmem
            obtain ⟨d, hd, hgrp, hpick, hchk, hrcv, hsync, hkind2, hlods2, hmat2,
              p, srcm, gg, hpar, hPA, hplt, hfp, hsk, hdg, hsg⟩ :=
              post.pre.dups oid hmem2
            refine ⟨d, ?_, p, hpar, hPA⟩
            rw [hr]
            exact hd
      · exfalso
        apply hne
        have hr : setOutlineMesh w (some tid) = withSel (clearOutline w) (some tid) := by
          simp [setOutlineMesh, hf, hmesh, withSel]
        rw [hr]
        exact clear_outlineMeshes w

/-- C2 (amended).  After any finite sequence of `setOutlineMesh` calls the
current selection is exactly the last target passed; if the last call passed
`null` no outline duplicate remains; and whenever duplicates remain they all
belong to the unique currently selected target — each duplicate is parented
to that target or to one of the target's LOD meshes, and the target itself
is not a duplicate — so at most one target is outlined at a time.  (The
original claim also asserted that a non-null last target always owns
duplicates; that part fails for a geometry-less target, see the
counterexample.) -/
theorem outline_c2 {w0 : World} (hInv : Inv w0) (ts : List (Option Nat))
    (t : Option Nat) :
    (run w0 ((ts ++ [t]).map Op.set)).currentSelectedMesh = t ∧
    (t = none → (run w0 ((ts ++ [t]).map Op.set)).outlineMeshes = []) ∧
    ((run w0 ((ts ++ [t]).map Op.set)).outlineMeshes ≠ [] →
      ∃ tid m, t = some tid ∧
        (run w0 ((ts ++ [t]).map Op.set)).findMesh tid = some m ∧
        tid ∉ (run w0 ((ts ++ [t]).map Op.set)).outlineMeshes ∧
        ∀ oid ∈ (run w0 ((ts ++ [t]).map Op.set)).outlineMeshes,
          ∃ d, (run w0 ((ts ++ [t]).map Op.set)).findMesh oid = some d ∧
            ∃ p, d.parent = some p ∧ (p = tid ∨ some p ∈ m.lodLevels)) := by
  have hsplit : run w0 ((ts ++ [t]).map Op.set)
      = setOutlineMesh (run w0 (ts.map Op.set)) t := by
    rw [show (ts ++ [t]).map Op.set = ts.map Op.set ++ [Op.set t] by simp]
    rw [run_concat]
    rfl
  have hinv0 : Inv (run w0 (ts.map Op.set)) := inv_run (ts.map Op.set) w0 hInv
  rw [hsplit]
  refine ⟨set_sel _ t, ?_, ?_⟩
  · intro ht
    subst ht
    exact set_none_outlineMeshes _
  · intro hne
    exact set_dups_parent hinv0 t hne

theorem outline_c2_witness :
    (run demoWorld (([some 1] ++ [some 0]).map Op.set)).currentSelectedMesh = some 0 ∧
    (some 0 = none →
      (run demoWorld (([some 1] ++ [some 0]).map Op.set)).outlineMeshes = []) ∧
    ((run demoWorld (([some 1] ++ [some 0]).map Op.set)).outlineMeshes ≠ [] →
      ∃ tid m, some 0 = some tid ∧
        (run demoWorld (([some 1] ++ [some 0]).map Op.set)).findMesh tid = some m ∧
        tid ∉ (run demoWorld (([some 1] ++ [some 0]).map Op.set)).outlineMeshes ∧
        ∀ oid ∈ (run demoWorld (([some 1] ++ [some 0]).map Op.set)).outlineMeshes,
          ∃ d, (run demoWorld (([some 1] ++ [some 0]).map Op.set)).findMesh oid
              = some d ∧
            ∃ p, d.parent = some p ∧ (p = tid ∨ some p ∈ m.lodLevels)) :=
  outline_c2 demoInv [some 1] (some 0)

/-- C2, counterexample to the original claim: on a scene holding only a
geometry-less plain mesh, `setOutlineMesh` of that mesh is the most recent
non-null call, yet the scene holds zero outline duplicates while the target
is recorded as selected. -/
theorem outline_c2_cex :
    (setOutlineMesh badWorld (some 0)).currentSelectedMesh = some 0 ∧
    (setOutlineMesh badWorld (some 0)).outlineMeshes = [] := by decide

/-- C8.  For a plain-mesh target with geometry whose `n` LOD levels each hold
a valid duplication source (present, plain mesh, with geometry),
`setOutlineMesh` creates exactly `n + 1` outline duplicates — one for the
base and one per LOD level — each carrying a copy of the geometry of the
source it is parented to (the target or one of its LOD meshes). -/
theorem outline_c8 {w : World} {t : Nat} {m : MeshObj} {g : Geometry}
    (hInv : Inv w) (hfind : w.findMesh t = some m) (hkind : m.kind = NodeKind.mesh)
    (hg : m.geometry = some g) (hnd : t ∉ w.outlineMeshes)
    (hlodsnd : ∀ lid, some lid ∈ m.lodLevels → lid ∉ w.outlineMeshes)
    (hall : ∀ l ∈ m.lodLevels, ∃ lid, l = some lid ∧ validSrc w lid = true) :
    (setOutlineMesh w (some t)).outlineMeshes.length = m.lodLevels.length + 1 ∧
    ∀ oid ∈ (setOutlineMesh w (some t)).outlineMeshes,
      ∃ d p srcm gg, (setOutlineMesh w (some t)).findMesh oid = some d ∧
        d.parent = some p ∧ (p = t ∨ some p ∈ m.lodLevels) ∧
        (setOutlineMesh w (some t)).findMesh p = some srcm ∧
        d.geometry = some gg ∧ srcm.geometry = some gg := by
  have post := setOutline_spec hInv hfind hkind hg hnd hlodsnd
  constructor
  · have hlen := post.lenDup
    rw [cntValid_all hall] at hlen
    omega
  · intro oid hoid
    obtain ⟨d, hfd, hgrp, hpick, hchk, hrcv, hsync, hkind2, hlods2, hmat2,
      p, srcm, gg, hpar, hPA, hplt, hfp, hsk, hdg, hsg⟩ := post.dups oid hoid
    exact ⟨d, p, srcm, gg, hfd, hpar, hPA, hfp, hdg, hsg⟩

theorem outline_c8_witness :
    (setOutlineMesh demoWorld (some 0)).outlineMeshes.length
      = baseMesh.lodLevels.length + 1 ∧
    ∀ oid ∈ (setOutlineMesh demoWorld (some 0)).outlineMeshes,
      ∃ d p srcm gg, (setOutlineMesh demoWorld (some 0)).findMesh oid = some d ∧
        d.parent = some p ∧ (p = 0 ∨ some p ∈ baseMesh.lodLevels) ∧
        (setOutlineMesh demoWorld (some 0)).findMesh p = some srcm ∧
        d.geometry = some gg ∧ srcm.geometry = some gg :=
  outline_c8 demoInv (by decide : demoWorld.findMesh 0 = some baseMesh)
    (by decide : baseMesh.kind = NodeKind.mesh)
    (by decide : baseMesh.geometry = some cubeGeom)
    (by decide : (0 : Nat) ∉ demoWorld.outlineMeshes)
    (fun lid _ => List.not_mem_nil lid)
    (by
      intro l hl
      have hl2 : l = some 1 := by simpa [baseMesh] using hl
      subst hl2
      exact ⟨1, rfl, by decide⟩)

/-- C5.  Every outline duplicate's geometry is a by-value snapshot of its
source's geometry taken at duplication time: the duplicate's record equals
the source's buffers at creation, and mutating the source's geometry
afterwards (the host rewriting the buffers) leaves the duplicate's stored
record — in particular its geometry — unchanged. -/
theorem outline_c5 {w : World} {t : Nat} {m : MeshObj} {g : Geometry}
    (hInv : Inv w) (hfind : w.findMesh t = some m) (hkind : m.kind = NodeKind.mesh)
    (hg : m.geometry = some g) (hnd : t ∉ w.outlineMeshes)
    (hlodsnd : ∀ lid, some lid ∈ m.lodLevels → lid ∉ w.outlineMeshes) :
    ∀ oid ∈ (setOutlineMesh w (some t)).outlineMeshes,
      ∃ d p gg, (setOutlineMesh w (some t)).findMesh oid = some d ∧
        d.parent = some p ∧ d.geometry = some gg ∧
        (∃ srcm, (setOutlineMesh w (some t)).findMesh p = some srcm ∧
          srcm.geometry = some gg) ∧
        ∀ g2, (mutateMeshGeometry (setOutlineMesh w (some t)) p g2).findMesh oid
          = some d := by
  have post := setOutline_spec hInv hfind hkind hg hnd hlodsnd
  intro oid hoid
  obtain ⟨d, hfd, hgrp, hpick, hchk, hrcv, hsync, hkind2, hlods2, hmat2,
    p, srcm, gg, hpar, hPA, hplt, hfp, hsk, hdg, hsg⟩ := post.dups oid hoid
  have hfr : w.nextId ≤ oid := post.dupFresh oid hoid
  have hpo : p ≠ oid := by omega
  refine ⟨d, p, gg, hfd, hpar, hdg, ⟨srcm, hfp, hsg⟩, ?_⟩
  intro g2
  have h0 : ((setOutlineMesh w (some t)).updateMesh p
      (fun mm => { mm with geometry := some g2 })).findMesh oid
      = (setOutlineMesh w (some t)).findMesh oid :=
    findMesh_updateMesh_ne (fun mm => rfl) hpo
  exact h0.trans hfd

theorem outline_c5_witness :
    ∃ d p gg, (setOutlineMesh demoWorld (some 0)).findMesh 2 = some d ∧
      d.parent = some p ∧ d.geometry = some gg ∧
      (∃ srcm, (setOutlineMesh demoWorld (some 0)).findMesh p = some srcm ∧
        srcm.geometry = some gg) ∧
      ∀ g2, (mutateMeshGeometry (setOutlineMesh demoWorld (some 0)) p g2).findMesh 2
        = some d :=
  outline_c5 demoInv (by decide : demoWorld.findMesh 0 = some baseMesh)
    (by decide : baseMesh.kind = NodeKind.mesh)
    (by decide : baseMesh.geometry = some cubeGeom)
    (by decide : (0 : Nat) ∉ demoWorld.outlineMeshes)
    (fun lid _ => List.not_mem_nil lid) 2 (by decide)

/-- C1 (amended).  For a plain-mesh target with geometry, `setOutlineMesh` of
the target followed by `setOutlineMesh null` removes every engine-created
outline mesh and material (node and material counts return to their
pre-selection values) and restores the target's own rendering group to its
value immediately before the first call.  (The original claim also asserted
that the rendering groups of the target's LOD meshes are restored; that part
fails — the engine mutates LOD groups without recording them, see the
counterexample.) -/
theorem outline_c1 {w : World} {t : Nat} {m : MeshObj} {g : Geometry}
    (hInv : Inv w) (hmap0 : w.originalRenderingGroups = [])
    (hfind : w.findMesh t = some m) (hkind : m.kind = NodeKind.mesh)
    (hg : m.geometry = some g) (hnd : t ∉ w.outlineMeshes)
    (hlodsnd : ∀ lid, some lid ∈ m.lodLevels → lid ∉ w.outlineMeshes) :
    (setOutlineMesh (setOutlineMesh w (some t)) none).outlineMeshes = [] ∧
    (setOutlineMesh (setOutlineMesh w (some t)) none).outlineMaterials = [] ∧
    (setOutlineMesh (setOutlineMesh w (some t)) none).originalRenderingGroups = [] ∧
    (∃ m2, (setOutlineMesh (setOutlineMesh w (some t)) none).findMesh t = some m2 ∧
      m2.renderingGroupId = m.renderingGroupId) ∧
    (setOutlineMesh (setOutlineMesh w (some t)) none).meshes.length
      + w.outlineMeshes.length = w.meshes.length ∧
    (setOutlineMesh (setOutlineMesh w (some t)) none).materials.length
      + w.outlineMaterials.length = w.materials.length := by
  have post := setOutline_spec hInv hfind hkind hg hnd hlodsnd
  have hInv1 := post.inv
  have htlt : t < w.nextId := by
    rw [← findBy_id MeshObj.id hfind]
    exact hInv.wf.meshLt m (mem_of_findBy MeshObj.id hfind)
  have hnd1 : t ∉ (setOutlineMesh w (some t)).outlineMeshes := by
    intro hmem
    have := post.dupFresh t hmem
    omega
  obtain ⟨gr, hmapr, hgr0⟩ := post.mapSpec
  have hgr : gr = m.renderingGroupId := hgr0 hmap0
  have hkind1 : ({ m with renderingGroupId := w.originalRenderingGroupId }
      : MeshObj).kind = NodeKind.mesh := hkind
  have hkey := clear_findMesh_key hInv1 hmapr hnd1 post.findT hkind1
  have hom : (setOutlineMesh (setOutlineMesh w (some t)) none).outlineMeshes = [] :=
    clear_outlineMeshes (setOutlineMesh w (some t))
  have homat : (setOutlineMesh (setOutlineMesh w (some t)) none).outlineMaterials = [] :=
    clear_outlineMaterials (setOutlineMesh w (some t))
  have homap : (setOutlineMesh (setOutlineMesh w (some t)) none).originalRenderingGroups
      = [] := clear_map (setOutlineMesh w (some t))
  have hf2 : (setOutlineMesh (setOutlineMesh w (some t)) none).findMesh t
      = (clearOutline (setOutlineMesh w (some t))).findMesh t := rfl
  have hlm : (setOutlineMesh (setOutlineMesh w (some t)) none).meshes.length
      = (clearOutline (setOutlineMesh w (some t))).meshes.length := rfl
  have hlmat : (setOutlineMesh (setOutlineMesh w (some t)) none).materials.length
      = (clearOutline (setOutlineMesh w (some t))).materials.length := rfl
  have hclm := clear_len_meshes hInv1
  have hclmat := clear_len_materials hInv1
  have hmatlen : (setOutlineMesh w (some t)).outlineMaterials.length
      = (setOutlineMesh w (some t)).outlineMeshes.length := by
    rw [hInv1.matsEq, List.length_map]
  refine ⟨hom, homat, homap, ⟨{ { m with renderingGroupId := w.originalRenderingGroupId }
    with renderingGroupId := gr }, ?_, ?_⟩, ?_, ?_⟩
  · rw [hf2, hkey]
  · rw [hgr]
  · rw [hlm]
    have h1 := post.lenDup
    have h2 := post.lenMesh
    omega
  · rw [hlmat]
    have h1 := post.lenDup
    have h2 := post.lenMat
    omega

theorem outline_c1_witness :
    (setOutlineMesh (setOutlineMesh demoWorld (some 0)) none).outlineMeshes = [] ∧
    (setOutlineMesh (setOutlineMesh demoWorld (some 0)) none).outlineMaterials = [] ∧
    (setOutlineMesh (setOutlineMesh demoWorld (some 0)) none).originalRenderingGroups
      = [] ∧
    (∃ m2, (setOutlineMesh (setOutlineMesh demoWorld (some 0)) none).findMesh 0
        = some m2 ∧ m2.renderingGroupId = baseMesh.renderingGroupId) ∧
    (setOutlineMesh (setOutlineMesh demoWorld (some 0)) none).meshes.length
      + demoWorld.outlineMeshes.length = demoWorld.meshes.length ∧
    (setOutlineMesh (setOutlineMesh demoWorld (some 0)) none).materials.length
      + demoWorld.outlineMaterials.length = demoWorld.materials.length :=
  outline_c1 demoInv (by decide : demoWorld.originalRenderingGroups = [])
    (by decide : demoWorld.findMesh 0 = some baseMesh)
    (by decide : baseMesh.kind = NodeKind.mesh)
    (by decide : baseMesh.geometry = some cubeGeom)
    (by decide : (0 : Nat) ∉ demoWorld.outlineMeshes)
    (fun lid _ => List.not_mem_nil lid)

/-- C1, counterexample to the original claim: the engine moved the LOD mesh
(id 1) into the original rendering group during selection but recorded only
the base mesh, so after `setOutlineMesh null` the LOD mesh stays in group 1
although it sat in group 0 immediately before the selection. -/
theorem outline_c1_cex :
    ((setOutlineMesh (setOutlineMesh demoWorld (some 0)) none).findMesh 1).map
      MeshObj.renderingGroupId = some 1 ∧
    (demoWorld.findMesh 1).map MeshObj.renderingGroupId = some 0 := by decide

/-- C4 (amended).  Calling `setOutlineMesh` again with the already selected
target is not a no-op: the previous duplicates are destroyed and a fresh,
disjoint set of duplicates (new scene nodes) is built.  The claim's
observable count statement survives: the second call leaves the scene node
and material counts and the number of duplicates exactly as after the first
call. -/
theorem outline_c4 {w : World} {t : Nat} {m : MeshObj} {g : Geometry}
    (hInv : Inv w) (hfind : w.findMesh t = some m) (hkind : m.kind = NodeKind.mesh)
    (hg : m.geometry = some g) (hnd : t ∉ w.outlineMeshes)
    (hlodsnd : ∀ lid, some lid ∈ m.lodLevels → lid ∉ w.outlineMeshes) :
    (setOutlineMesh (setOutlineMesh w (some t)) (some t)).meshes.length
      = (setOutlineMesh w (some t)).meshes.length ∧
    (setOutlineMesh (setOutlineMesh w (some t)) (some t)).materials.length
      = (setOutlineMesh w (some t)).materials.length ∧
    (setOutlineMesh (setOutlineMesh w (some t)) (some t)).outlineMeshes.length
      = (setOutlineMesh w (some t)).outlineMeshes.length ∧
    (∀ oid ∈ (setOutlineMesh (setOutlineMesh w (some t)) (some t)).outlineMeshes,
      oid ∉ (setOutlineMesh w (some t)).outlineMeshes) ∧
    (setOutlineMesh (setOutlineMesh w (some t)) (some t)).outlineMeshes ≠ [] := by
  have post := setOutline_spec hInv hfind hkind hg hnd hlodsnd
  have hInv1 := post.inv
  have htlt : t < w.nextId := by
    rw [← findBy_id MeshObj.id hfind]
    exact hInv.wf.meshLt m (mem_of_findBy MeshObj.id hfind)
  have hlodlt : ∀ lid, some lid ∈ m.lodLevels → lid < w.nextId := by
    intro lid hmem
    exact hInv.wf.lodLt m (mem_of_findBy MeshObj.id hfind) (some lid) hmem lid rfl
  have hnd1 : t ∉ (setOutlineMesh w (some t)).outlineMeshes := by
    intro hmem
    have := post.dupFresh t hmem
    omega
  have hkind1 : ({ m with renderingGroupId := w.originalRenderingGroupId }
      : MeshObj).kind = NodeKind.mesh := hkind
  have hg1 : ({ m with renderingGroupId := w.originalRenderingGroupId }
      : MeshObj).geometry = some g := hg
  have hlodsnd1 : ∀ lid, some lid ∈ ({ m with renderingGroupId :=
      w.originalRenderingGroupId } : MeshObj).lodLevels →
      lid ∉ (setOutlineMesh w (some t)).outlineMeshes := by
    intro lid hmem hmem1
    have h1 : lid < w.nextId := hlodlt lid hmem
    have := post.dupFresh lid hmem1
    omega
  have post2 := setOutline_spec hInv1 post.findT hkind1 hg1 hnd1 hlodsnd1
  have hcnt : cntValid (setOutlineMesh w (some t))
      ({ m with renderingGroupId := w.originalRenderingGroupId } : MeshObj).lodLevels
      = cntValid w m.lodLevels := by
    show cntValid (setOutlineMesh w (some t)) m.lodLevels = cntValid w m.lodLevels
    exact cntValid_stableTo
      (fun lid hmem => post.stable lid (hlodlt lid hmem) (hlodsnd lid hmem))
  have hdupLt1 : ∀ oid ∈ (setOutlineMesh w (some t)).outlineMeshes,
      oid < (setOutlineMesh w (some t)).nextId := by
    intro oid hmem
    obtain ⟨d, hd, -⟩ := hInv1.dupsOk oid hmem
    rw [← findBy_id MeshObj.id hd]
    exact hInv1.wf.meshLt d (mem_of_findBy MeshObj.id hd)
  refine ⟨?_, ?_, ?_, ?_, ?_⟩
  · have h1 := post2.lenMesh
    have h2 := post.lenDup
    rw [hcnt] at h1
    omega
  · have h1 := post2.lenMat
    have h2 := post.lenDup
    have h3 : (setOutlineMesh w (some t)).outlineMaterials.length
        = (setOutlineMesh w (some t)).outlineMeshes.length := by
      rw [hInv1.matsEq, List.length_map]
    rw [hcnt] at h1
    omega
  · have h1 := post2.lenDup
    have h2 := post.lenDup
    rw [hcnt] at h1
    omega
  · intro oid hmem2 hmem1
    have hfr := post2.dupFresh oid hmem2
    have hlt := hdupLt1 oid hmem1
    omega
  · obtain ⟨fr, hfr⟩ := post2.dupsShape
    rw [hfr]
    exact List.cons_ne_nil _ _

theorem outline_c4_witness :
    (setOutlineMesh (setOutlineMesh demoWorld (some 0)) (some 0)).meshes.length
      = (setOutlineMesh demoWorld (some 0)).meshes.length ∧
    (setOutlineMesh (setOutlineMesh demoWorld (some 0)) (some 0)).materials.length
      = (setOutlineMesh demoWorld (some 0)).materials.length ∧
    (setOutlineMesh (setOutlineMesh demoWorld (some 0)) (some 0)).outlineMeshes.length
      = (setOutlineMesh demoWorld (some 0)).outlineMeshes.length ∧
    (∀ oid ∈ (setOutlineMesh (setOutlineMesh demoWorld (some 0)) (some 0)).outlineMeshes,
      oid ∉ (setOutlineMesh demoWorld (some 0)).outlineMeshes) ∧
    (setOutlineMesh (setOutlineMesh demoWorld (some 0)) (some 0)).outlineMeshes ≠ [] :=
  outline_c4 demoInv (by decide : demoWorld.findMesh 0 = some baseMesh)
    (by decide : baseMesh.kind = NodeKind.mesh)
    (by decide : baseMesh.geometry = some cubeGeom)
    (by decide : (0 : Nat) ∉ demoWorld.outlineMeshes)
    (fun lid _ => List.not_mem_nil lid)

/-- C4, counterexample to the original claim: re-selecting the already
selected target is not a no-op — the duplicates after the second call are
new scene nodes with fresh identities, not the ones of the first call. -/
theorem outline_c4_cex :
    (setOutlineMesh demoWorld (some 0)).outlineMeshes = [2, 4] ∧
    (setOutlineMesh (setOutlineMesh demoWorld (some 0)) (some 0)).outlineMeshes
      = [6, 8] := by decide

/-- C3 (amended).  When duplication of the base mesh fails (the plain-mesh
target has no geometry to extract), the call leaves no partial duplicate
behind — no outline mesh, no outline material, scene node and material
counts unchanged — but it does not abort to an idle state: the target is
still recorded as the current selection, the target's rendering group has
already been raised to `originalRenderingGroupId`, and the recorded
original group stays behind in the map.  (The original claim said the
selection accessor reports no target and the group is unchanged; both fail,
see the counterexample.) -/
theorem outline_c3 {w : World} {t : Nat} {m : MeshObj}
    (hInv : Inv w) (h1 : w.outlineMeshes = []) (h2 : w.outlineMaterials = [])
    (h3 : w.originalRenderingGroups = [])
    (hfind : w.findMesh t = some m) (hkind : m.kind = NodeKind.mesh)
    (hg : m.geometry = none) :
    (setOutlineMesh w (some t)).currentSelectedMesh = some t ∧
    (∃ m2, (setOutlineMesh w (some t)).findMesh t = some m2 ∧
      m2.renderingGroupId = w.originalRenderingGroupId) ∧
    (setOutlineMesh w (some t)).originalRenderingGroups = [(t, m.renderingGroupId)] ∧
    (setOutlineMesh w (some t)).outlineMeshes = [] ∧
    (setOutlineMesh w (some t)).outlineMaterials = [] ∧
    (setOutlineMesh w (some t)).meshes.length = w.meshes.length ∧
    (setOutlineMesh w (some t)).materials.length = w.materials.length := by
  have hcc := clear_of_clean h1 h2 h3
  have hmesh : isMesh m = true := by simp [isMesh, hkind]
  have hr : setOutlineMesh w (some t) = withSel (createOutlineForMesh w t) (some t) := by
    simp [setOutlineMesh, hcc, hfind, hmesh, withSel]
  have hfail := createOutline_failure hInv.wf.meshLt hfind hkind hg
  have hfind2 : (setOutlineMesh w (some t)).findMesh t
      = some (groupSet w.originalRenderingGroupId m) := by
    rw [hr]
    show (createOutlineForMesh w t).findMesh t = _
    rw [hfail]
    show findBy MeshObj.id
      (updateBy MeshObj.id t (groupSet w.originalRenderingGroupId) w.meshes) t = _
    rw [findBy_updateBy_self MeshObj.id (groupSet_id w.originalRenderingGroupId) t
      w.meshes]
    rw [show findBy MeshObj.id w.meshes t = some m from hfind]
    rfl
  have hmapr : (setOutlineMesh w (some t)).originalRenderingGroups
      = [(t, m.renderingGroupId)] := by
    rw [hr]
    show (createOutlineForMesh w t).originalRenderingGroups = _
    rw [hfail]
    show setMapEntry w.originalRenderingGroups t m.renderingGroupId = _
    rw [h3]
    rfl
  have hdups : (setOutlineMesh w (some t)).outlineMeshes = [] := by
    rw [hr]
    show (createOutlineForMesh w t).outlineMeshes = _
    rw [hfail]
    exact h1
  have hmats : (setOutlineMesh w (some t)).outlineMaterials = [] := by
    rw [hr]
    show (createOutlineForMesh w t).outlineMaterials = _
    rw [hfail]
    exact h2
  have hlenm : (setOutlineMesh w (some t)).meshes.length = w.meshes.length := by
    rw [hr]
    show (createOutlineForMesh w t).meshes.length = _
    rw [hfail]
    show (updateBy MeshObj.id t (groupSet w.originalRenderingGroupId) w.meshes).length
      = _
    rw [length_updateBy]
  have hlenmat : (setOutlineMesh w (some t)).materials.length
      = w.materials.length := by
    rw [hr]
    show (createOutlineForMesh w t).materials.length = _
    rw [hfail]
  exact ⟨set_sel w (some t), ⟨groupSet w.originalRenderingGroupId m, hfind2, rfl⟩,
    hmapr, hdups, hmats, hlenm, hlenmat⟩

theorem outline_c3_witness :
    (setOutlineMesh badWorld (some 0)).currentSelectedMesh = some 0 ∧
    (∃ m2, (setOutlineMesh badWorld (some 0)).findMesh 0 = some m2 ∧
      m2.renderingGroupId = badWorld.originalRenderingGroupId) ∧
    (setOutlineMesh badWorld (some 0)).originalRenderingGroups
      = [(0, badMesh.renderingGroupId)] ∧
    (setOutlineMesh badWorld (some 0)).outlineMeshes = [] ∧
    (setOutlineMesh badWorld (some 0)).outlineMaterials = [] ∧
    (setOutlineMesh badWorld (some 0)).meshes.length = badWorld.meshes.length ∧
    (setOutlineMesh badWorld (some 0)).materials.length = badWorld.materials.length :=
  outline_c3 badInv (by decide : badWorld.outlineMeshes = [])
    (by decide : badWorld.outlineMaterials = [])
    (by decide : badWorld.originalRenderingGroups = [])
    (by decide : badWorld.findMesh 0 = some badMesh)
    (by decide : badMesh.kind = NodeKind.mesh)
    (by decide : badMesh.geometry = none)

/-- C3, counterexample to the original claim: when base duplication fails
the selection accessor still reports the target, and the target's rendering
group was already mutated from 0 to 1 by the aborted call. -/
theorem outline_c3_cex :
    (setOutlineMesh badWorld (some 0)).currentSelectedMesh = some 0 ∧
    ((setOutlineMesh badWorld (some 0)).findMesh 0).map MeshObj.renderingGroupId
      = some 1 ∧
    (badWorld.findMesh 0).map MeshObj.renderingGroupId = some 0 := by decide

/-- C6 (amended).  The duplicates do not share one material: every outline
duplicate references its own per-duplicate material (the material created
immediately after it, id one above the duplicate's).  `updateOutlineColor`
recolors every outline material in place — same scene meshes, same material
count, same outline records — rebuilding nothing. -/
theorem outline_c6 {w : World} {t : Nat} {m : MeshObj} {g : Geometry} (c : Color3)
    (hInv : Inv w) (hfind : w.findMesh t = some m) (hkind : m.kind = NodeKind.mesh)
    (hg : m.geometry = some g) (hnd : t ∉ w.outlineMeshes)
    (hlodsnd : ∀ lid, some lid ∈ m.lodLevels → lid ∉ w.outlineMeshes) :
    (∀ oid ∈ (setOutlineMesh w (some t)).outlineMeshes,
      ∃ d, (setOutlineMesh w (some t)).findMesh oid = some d ∧
        d.material = some (oid + 1)) ∧
    (setOutlineMesh w (some t)).outlineMaterials
      = (setOutlineMesh w (some t)).outlineMeshes.map (fun i => i + 1) ∧
    (updateOutlineColor (setOutlineMesh w (some t)) c).meshes
      = (setOutlineMesh w (some t)).meshes ∧
    (updateOutlineColor (setOutlineMesh w (some t)) c).materials.length
      = (setOutlineMesh w (some t)).materials.length ∧
    (updateOutlineColor (setOutlineMesh w (some t)) c).outlineMeshes
      = (setOutlineMesh w (some t)).outlineMeshes ∧
    (updateOutlineColor (setOutlineMesh w (some t)) c).outlineMaterials
      = (setOutlineMesh w (some t)).outlineMaterials ∧
    ∀ mid ∈ (setOutlineMesh w (some t)).outlineMaterials,
      ∃ mt, (setOutlineMesh w (some t)).findMaterial mid = some mt ∧
        (updateOutlineColor (setOutlineMesh w (some t)) c).findMaterial mid
          = some { mt with emissiveColor := c, diffuseColor := c } := by
  have post := setOutline_spec hInv hfind hkind hg hnd hlodsnd
  have hInv1 := post.inv
  refine ⟨?_, hInv1.matsEq, ?_, ?_, ?_, ?_, ?_⟩
  · intro oid hmem
    obtain ⟨d, hd, hg1, hg2, hg3, hg4, hg5, hg6, hg7, hg8, p, hp, hpn⟩ :=
      hInv1.dupsOk oid hmem
    exact ⟨d, hd, hg8⟩
  · exact colorMaterials_meshes c (setOutlineMesh w (some t)).outlineMaterials
      { setOutlineMesh w (some t) with outlineColor := c }
  · have h := congrArg List.length (colorMaterials_idmap c
      (setOutlineMesh w (some t)).outlineMaterials
      { setOutlineMesh w (some t) with outlineColor := c })
    simpa using h
  · exact colorMaterials_outlineMeshes c (setOutlineMesh w (some t)).outlineMaterials
      { setOutlineMesh w (some t) with outlineColor := c }
  · exact colorMaterials_outlineMaterials c (setOutlineMesh w (some t)).outlineMaterials
      { setOutlineMesh w (some t) with outlineColor := c }
  · intro mid hmid
    obtain ⟨mt, hmt⟩ := hInv1.matsOk mid hmid
    refine ⟨mt, hmt, ?_⟩
    have hpos2 : (updateOutlineColor (setOutlineMesh w (some t)) c).findMaterial mid
        = ((setOutlineMesh w (some t)).findMaterial mid).map
            (fun mt2 => { mt2 with emissiveColor := c, diffuseColor := c }) :=
      findMaterial_colorMaterials_mem c (setOutlineMesh w (some t)).outlineMaterials
        { setOutlineMesh w (some t) with outlineColor := c } hmid
    rw [hpos2, hmt]
    rfl

theorem outline_c6_witness :
    (∀ oid ∈ (setOutlineMesh demoWorld (some 0)).outlineMeshes,
      ∃ d, (setOutlineMesh demoWorld (some 0)).findMesh oid = some d ∧
        d.material = some (oid + 1)) ∧
    (setOutlineMesh demoWorld (some 0)).outlineMaterials
      = (setOutlineMesh demoWorld (some 0)).outlineMeshes.map (fun i => i + 1) ∧
    (updateOutlineColor (setOutlineMesh demoWorld (some 0)) ⟨9, 9, 9⟩).meshes
      = (setOutlineMesh demoWorld (some 0)).meshes ∧
    (updateOutlineColor (setOutlineMesh demoWorld (some 0)) ⟨9, 9, 9⟩).materials.length
      = (setOutlineMesh demoWorld (some 0)).materials.length ∧
    (updateOutlineColor (setOutlineMesh demoWorld (some 0)) ⟨9, 9, 9⟩).outlineMeshes
      = (setOutlineMesh demoWorld (some 0)).outlineMeshes ∧
    (updateOutlineColor (setOutlineMesh demoWorld (some 0)) ⟨9, 9, 9⟩).outlineMaterials
      = (setOutlineMesh demoWorld (some 0)).outlineMaterials ∧
    ∀ mid ∈ (setOutlineMesh demoWorld (some 0)).outlineMaterials,
      ∃ mt, (setOutlineMesh demoWorld (some 0)).findMaterial mid = some mt ∧
        (updateOutlineColor (setOutlineMesh demoWorld (some 0)) ⟨9, 9, 9⟩).findMaterial
          mid = some { mt with emissiveColor := ⟨9, 9, 9⟩, diffuseColor := ⟨9, 9, 9⟩ } :=
  outline_c6 ⟨9, 9, 9⟩ demoInv (by decide : demoWorld.findMesh 0 = some baseMesh)
    (by decide : baseMesh.kind = NodeKind.mesh)
    (by decide : baseMesh.geometry = some cubeGeom)
    (by decide : (0 : Nat) ∉ demoWorld.outlineMeshes)
    (fun lid _ => List.not_mem_nil lid)

/-- C6, counterexample to the original claim: one selection with one LOD
level creates two distinct outline materials (ids 3 and 5), and the two
duplicates reference different material instances — there is no single
shared material. -/
theorem outline_c6_cex :
    (setOutlineMesh demoWorld (some 0)).outlineMaterials = [3, 5] ∧
    ((setOutlineMesh demoWorld (some 0)).findMesh 2).map MeshObj.material
      = some (some 3) ∧
    ((setOutlineMesh demoWorld (some 0)).findMesh 4).map MeshObj.material
      = some (some 5) := by decide

/-- C9 (amended).  `dispose` clears every outline resource and forgets the
selection, but it is not a terminal state: a subsequent `setOutlineMesh`
call on a valid plain-mesh target is executed normally — it records the
selection and builds a fresh nonempty set of duplicates — rather than being
rejected.  (The original claim's `Disposed` state and `InvalidStateError`
do not exist in the code, see the counterexample.) -/
theorem outline_c9 {w : World} {t : Nat} {m : MeshObj} {g : Geometry}
    (hInv : Inv w) (hfind : w.findMesh t = some m) (hkind : m.kind = NodeKind.mesh)
    (hg : m.geometry = some g) (hnd : t ∉ w.outlineMeshes) :
    (disposeOutline w).currentSelectedMesh = none ∧
    (disposeOutline w).outlineMeshes = [] ∧
    (setOutlineMesh (disposeOutline w) (some t)).currentSelectedMesh = some t ∧
    (setOutlineMesh (disposeOutline w) (some t)).outlineMeshes ≠ [] := by
  have hInvD : Inv (disposeOutline w) := inv_dispose hInv
  have hst : StableTo w (clearOutline w) t := clear_stableTo hInv hnd
  obtain ⟨mc, hmc, hk, hgm, hlods, hid⟩ := stableTo_found hst hfind
  have hmcD : (disposeOutline w).findMesh t = some mc := hmc
  have hkD : mc.kind = NodeKind.mesh := by rw [hk]; exact hkind
  have hgD : mc.geometry = some g := by rw [hgm]; exact hg
  have homD : (disposeOutline w).outlineMeshes = [] := clear_outlineMeshes w
  have hndD : t ∉ (disposeOutline w).outlineMeshes := by
    rw [homD]
    exact List.not_mem_nil t
  have hlodsD : ∀ lid, some lid ∈ mc.lodLevels →
      lid ∉ (disposeOutline w).outlineMeshes := by
    intro lid _
    rw [homD]
    exact List.not_mem_nil lid
  have post := setOutline_spec hInvD hmcD hkD hgD hndD hlodsD
  refine ⟨rfl, homD, post.sel, ?_⟩
  obtain ⟨fr, hfr⟩ := post.dupsShape
  rw [hfr]
  exact List.cons_ne_nil _ _

theorem outline_c9_witness :
    (disposeOutline demoWorld).currentSelectedMesh = none ∧
    (disposeOutline demoWorld).outlineMeshes = [] ∧
    (setOutlineMesh (disposeOutline demoWorld) (some 0)).currentSelectedMesh
      = some 0 ∧
    (setOutlineMesh (disposeOutline demoWorld) (some 0)).outlineMeshes ≠ [] :=
  outline_c9 demoInv (by decide : demoWorld.findMesh 0 = some baseMesh)
    (by decide : baseMesh.kind = NodeKind.mesh)
    (by decide : baseMesh.geometry = some cubeGeom)
    (by decide : (0 : Nat) ∉ demoWorld.outlineMeshes)

/-- C9, counterexample to the original claim: after `dispose`, a further
`setOutlineMesh` call is executed rather than rejected — it builds two new
outline duplicates; no terminal `Disposed` state exists. -/
theorem outline_c9_cex :
    (setOutlineMesh (disposeOutline (setOutlineMesh demoWorld (some 0)))
      (some 0)).outlineMeshes = [6, 8] := by decide

end OutlineVerif
